import Mathlib

/-! # The 4D polytope viewer: mesh generators and uniform block layout binder

A shallow embedding of `GlGeomSphere` (GlGeomSphere.h / GlGeomSphere.cpp),
`GlGeomCylinder` (GlGeomCylinder.h / GlGeomCylinder.cpp) and the layout binder
and records of EduPhong.cpp.

Conventions of the embedding.

* C++ `int` values are integers of `ℤ`; the resolutions the theorems speak about
  are the ones whose vertex and element counts fit an `int`, so no operation wraps.
* A counting loop `for (int i = 0; i < n; i++)` runs over `List.range n.toNat`
  (no iteration when `n ≤ 0`), a loop with `i <= n` over `List.range (n + 1).toNat`.
* The element buffer is the list of the values stored through `toEbo` / `eboPtr`,
  in program order.
* The vertex buffer is the trace of the stores made into `VBOdataBuffer`, in
  program order: each store records the float position it hits (distance from
  `VBOdataBuffer`, in floats), the pointer family it goes through (position,
  normal or texture coordinate) and the stored value as an uninterpreted float
  term.
-/

set_option autoImplicit false

/-! ## Float terms and vertex-buffer stores -/

/-- Uninterpreted single-precision terms: the float expressions of the sources,
kept symbolic. `PI` and `PI2` are the constants of MathMisc.h. -/
inductive FExpr where
  | lit (q : ℚ)
  | ofInt (n : ℤ)
  | PI
  | PI2
  | neg (a : FExpr)
  | add (a b : FExpr)
  | sub (a b : FExpr)
  | mul (a b : FExpr)
  | div (a b : FExpr)
  | cos (a : FExpr)
  | sin (a : FExpr)
  deriving DecidableEq, Repr

/-- The pointer family a store goes through: `vPtr`, `nPtr` or `tcPtr`. -/
inductive VboField where
  | pos
  | normal
  | texCoord
  deriving DecidableEq, Repr

/-- One store `*(VBOdataBuffer + index) = value`. -/
structure VboWrite where
  index : ℤ
  field : VboField
  value : FExpr
  deriving DecidableEq, Repr

/-- Modelled from the spec: `ClampRange` of MathMisc.h, which is not part of the
sources at hand; `ClampRange(x, lo, hi)` is read as `min(max(x, lo), hi)`. -/
def ClampRange (x lo hi : ℤ) : ℤ := min (max x lo) hi

/-! ## GlGeomSphere -/

/-- The data members of `GlGeomSphere` (GlGeomSphere.h, lines 127-150). -/
structure GlGeomSphere where
  numSlices : ℤ
  numStacks : ℤ
  theVAO : ℕ
  theVBO : ℕ
  theEBO : ℕ
  loadedSlices : ℤ
  loadedStacks : ℤ
  posLoc : ℕ
  normalLoc : ℕ
  texcoordsLoc : ℕ
  deriving DecidableEq, Repr

namespace GlGeomSphere

/-- `GlGeomSphere::GetNumElements` (GlGeomSphere.h, line 97). -/
def GetNumElements (g : GlGeomSphere) : ℤ := 6 * g.numSlices * (g.numStacks - 1)

/-- `GlGeomSphere::GetNumVerticesTexCoords` (GlGeomSphere.h, line 98). -/
def GetNumVerticesTexCoords (g : GlGeomSphere) : ℤ :=
  (g.numSlices + 1) * (g.numStacks - 1) + 2

/-- `GlGeomSphere::GetNumVerticesNoTexCoords` (GlGeomSphere.h, line 99). -/
def GetNumVerticesNoTexCoords (g : GlGeomSphere) : ℤ :=
  g.numSlices * (g.numStacks - 1) + 2

/-- `GlGeomSphere::Remesh` (GlGeomSphere.cpp, lines 38-46). -/
def Remesh (g : GlGeomSphere) (nSlices nStacks : ℤ) : GlGeomSphere :=
  if nSlices = g.numSlices ∧ nStacks = g.numStacks then g
  else
    { g with
      numSlices := ClampRange nSlices 3 255
      numStacks := ClampRange nStacks 3 255 }

/-- `GlGeomSphere::GetVertexNumber` (GlGeomSphere.cpp, lines 123-136): the first
component is the returned `bool`, the second the value stored in `*retVertNum`.
The `%` of C++ truncates, hence `Int.tmod`. -/
def GetVertexNumber (g : GlGeomSphere) (i j : ℤ) (calcTexCoords : Bool) : Bool × ℤ :=
  if j = 0 then (decide (i = 0), 0)
  else if j = g.numStacks then (decide (i = 0), 1)
  else
    let ii := if calcTexCoords then i else Int.tmod i g.numSlices
    (true, (g.numStacks - 1) * ii + j + 1)

/-- The inner loop of the element computation (GlGeomSphere.cpp, lines 102-116)
over the remaining values of `j`, started with the current `leftIdxOld` and
`rightIdxOld`; it yields the six stores of every iteration. -/
def eboStacks (g : GlGeomSphere) (calcTexCoords : Bool) (i : ℤ) : List ℕ → ℤ → ℤ → List ℤ
  | [], _, _ => []
  | j :: js, leftIdxOld, rightIdxOld =>
    let leftIdxNew := (g.GetVertexNumber i ((j : ℤ) + 1) calcTexCoords).2
    let rightIdxNew := (g.GetVertexNumber (i + 1) ((j : ℤ) + 2) calcTexCoords).2
    [leftIdxOld, rightIdxOld, leftIdxNew, leftIdxNew, rightIdxOld, rightIdxNew]
      ++ eboStacks g calcTexCoords i js leftIdxNew rightIdxNew

/-- The element part of `GlGeomSphere::CalcVboAndEbo` (GlGeomSphere.cpp, lines
96-117): everything stored through `toEbo`, in order. -/
def CalcEbo (g : GlGeomSphere) (calcTexCoords : Bool) : List ℤ :=
  (List.range g.numSlices.toNat).flatMap fun i =>
    eboStacks g calcTexCoords (i : ℤ) (List.range (g.numStacks - 1).toNat)
      (g.GetVertexNumber (i : ℤ) 0 calcTexCoords).2
      (g.GetVertexNumber ((i : ℤ) + 1) 1 calcTexCoords).2

/-- The body of the inner vertex loop of `GlGeomSphere::CalcVboAndEbo`
(GlGeomSphere.cpp, lines 63-90) for slice `i` and stack `j`. -/
def vboVertex (g : GlGeomSphere) (vertPosOffset vertNormalOffset vertTexCoordsOffset stride : ℤ)
    (i j : ℤ) : List VboWrite :=
  let calcNormals := decide (0 ≤ vertNormalOffset)
  let calcTexCoords := decide (0 ≤ vertTexCoordsOffset)
  let theta := FExpr.div (FExpr.mul (FExpr.ofInt (Int.tmod i g.numSlices)) FExpr.PI2)
    (FExpr.ofInt g.numSlices)
  let sTexCd := FExpr.div (FExpr.ofInt i) (FExpr.ofInt g.numSlices)
  let costheta := FExpr.cos theta
  let sintheta := FExpr.sin theta
  let r := g.GetVertexNumber i j calcTexCoords
  if r.1 = false then []
  else
    let vertNumber := r.2
    let tTexCd := FExpr.div (FExpr.ofInt j) (FExpr.ofInt g.numStacks)
    let phi := FExpr.mul tTexCd FExpr.PI
    let cosphi := FExpr.cos phi
    let sinphi := if j < g.numStacks then FExpr.sin phi else FExpr.lit 0
    let x := FExpr.mul (FExpr.neg sintheta) sinphi
    let y := FExpr.neg cosphi
    let z := FExpr.mul (FExpr.neg costheta) sinphi
    let basePtr := stride * vertNumber
    let vPtr := basePtr + vertPosOffset
    [⟨vPtr, VboField.pos, x⟩, ⟨vPtr + 1, VboField.pos, y⟩, ⟨vPtr + 2, VboField.pos, z⟩]
      ++ (if calcNormals then
            let nPtr := basePtr + vertNormalOffset
            [⟨nPtr, VboField.normal, x⟩, ⟨nPtr + 1, VboField.normal, y⟩, ⟨nPtr + 2, VboField.normal, z⟩]
          else [])
      ++ (if calcTexCoords then
            let tcPtr := basePtr + vertTexCoordsOffset
            [⟨tcPtr, VboField.texCoord, if j ≠ 0 ∧ j ≠ g.numStacks then sTexCd else FExpr.lit (1 / 2)⟩,
             ⟨tcPtr + 1, VboField.texCoord, tTexCd⟩]
          else [])

/-- The vertex part of `GlGeomSphere::CalcVboAndEbo` (GlGeomSphere.cpp, lines
55-92): every store into `VBOdataBuffer`, in order. -/
def CalcVbo (g : GlGeomSphere) (vertPosOffset vertNormalOffset vertTexCoordsOffset stride : ℤ) :
    List VboWrite :=
  (List.range (g.numSlices + 1).toNat).flatMap fun i =>
    (List.range (g.numStacks + 1).toNat).flatMap fun j =>
      vboVertex g vertPosOffset vertNormalOffset vertTexCoordsOffset stride (i : ℤ) (j : ℤ)

/-- `GlGeomSphere::CalcVboAndEbo` (GlGeomSphere.cpp, lines 48-119): the stores into
the vertex buffer and the contents of the element buffer. -/
def CalcVboAndEbo (g : GlGeomSphere)
    (vertPosOffset vertNormalOffset vertTexCoordsOffset stride : ℤ) : List VboWrite × List ℤ :=
  (CalcVbo g vertPosOffset vertNormalOffset vertTexCoordsOffset stride,
   CalcEbo g (decide (0 ≤ vertTexCoordsOffset)))

/-- The number of vertices of the chosen mode. -/
def numVertices (g : GlGeomSphere) (tex : Bool) : ℤ :=
  if tex then g.GetNumVerticesTexCoords else g.GetNumVerticesNoTexCoords

end GlGeomSphere

/-- A sphere of the given resolution with nothing loaded yet, as the constructor
`GlGeomSphere(slices, stacks)` leaves it (GlGeomSphere.h, lines 157-163); the
attribute locations are not set by the constructor and are taken as `0`. -/
def mkSphere (nSlices nStacks : ℤ) : GlGeomSphere :=
  { numSlices := nSlices, numStacks := nStacks, theVAO := 0, theVBO := 0, theEBO := 0,
    loadedSlices := 0, loadedStacks := 0, posLoc := 0, normalLoc := 0, texcoordsLoc := 0 }


/-! ## GlGeomCylinder -/

/-- The data members of `GlGeomCylinder` (GlGeomCylinder.h, lines 132-160). -/
structure GlGeomCylinder where
  numSlices : ℤ
  numStacks : ℤ
  numRings : ℤ
  theVAO : ℕ
  theVBO : ℕ
  theEBO : ℕ
  VboEboLoaded : Bool
  posLoc : ℕ
  normalLoc : ℕ
  texcoordsLoc : ℕ
  deriving DecidableEq, Repr

namespace GlGeomCylinder

/-- `GlGeomCylinder::GetNumElementsDisk` (GlGeomCylinder.h, line 107). -/
def GetNumElementsDisk (g : GlGeomCylinder) : ℤ := 3 * (2 * g.numRings - 1) * g.numSlices

/-- `GlGeomCylinder::GetNumVerticesDisk` (GlGeomCylinder.h, line 108). -/
def GetNumVerticesDisk (g : GlGeomCylinder) : ℤ := 1 + g.numRings * g.numSlices

/-- `GlGeomCylinder::GetNumElementsSide` (GlGeomCylinder.h, line 109). -/
def GetNumElementsSide (g : GlGeomCylinder) : ℤ := 6 * g.numStacks * g.numSlices

/-- `GlGeomCylinder::GetNumVerticesSideTexCoords` (GlGeomCylinder.h, line 110). -/
def GetNumVerticesSideTexCoords (g : GlGeomCylinder) : ℤ :=
  (g.numStacks + 1) * (g.numSlices + 1)

/-- `GlGeomCylinder::GetNumVerticesSideNoTexCoords` (GlGeomCylinder.h, line 111). -/
def GetNumVerticesSideNoTexCoords (g : GlGeomCylinder) : ℤ :=
  (g.numStacks + 1) * g.numSlices

/-- `GlGeomCylinder::GetNumElements` (GlGeomCylinder.h, line 102). -/
def GetNumElements (g : GlGeomCylinder) : ℤ :=
  2 * g.GetNumElementsDisk + g.GetNumElementsSide

/-- `GlGeomCylinder::GetNumVerticesTexCoords` (GlGeomCylinder.h, line 103). -/
def GetNumVerticesTexCoords (g : GlGeomCylinder) : ℤ :=
  2 * g.GetNumVerticesDisk + g.GetNumVerticesSideTexCoords

/-- `GlGeomCylinder::GetNumVerticesNoTexCoords` (GlGeomCylinder.h, line 104). -/
def GetNumVerticesNoTexCoords (g : GlGeomCylinder) : ℤ :=
  2 * g.GetNumVerticesDisk + g.GetNumVerticesSideNoTexCoords

/-- `GlGeomCylinder::Remesh` (GlGeomCylinder.cpp, lines 37-47). -/
def Remesh (g : GlGeomCylinder) (nSlices nStacks nRings : ℤ) : GlGeomCylinder :=
  if nSlices = g.numSlices ∧ nStacks = g.numStacks ∧ nRings = g.numRings then g
  else
    { g with
      numSlices := ClampRange nSlices 3 255
      numStacks := ClampRange nStacks 1 255
      numRings := ClampRange nRings 1 255
      VboEboLoaded := false }

/-- `GlGeomCylinder::SetDiscVerts` (GlGeomCylinder.cpp, lines 152-187): the stores
it makes, in order. -/
def SetDiscVerts (g : GlGeomCylinder) (x z : FExpr) (i j : ℤ)
    (vertPosOffset vertNormalOffset vertTexCoordsOffset stride : ℤ) : List VboWrite :=
  let basePtrBottom := stride * (i * g.numRings + j)
  let delta := g.GetNumVerticesDisk * stride
  let vPtrBottom := basePtrBottom + vertPosOffset
  let vPtrTop := vPtrBottom + delta
  [⟨vPtrBottom, VboField.pos, x⟩, ⟨vPtrBottom + 1, VboField.pos, FExpr.lit (-1)⟩,
   ⟨vPtrBottom + 2, VboField.pos, z⟩,
   ⟨vPtrTop, VboField.pos, x⟩, ⟨vPtrTop + 1, VboField.pos, FExpr.lit 1⟩,
   ⟨vPtrTop + 2, VboField.pos, z⟩]
    ++ (if 0 ≤ vertNormalOffset then
          let nPtrBottom := basePtrBottom + vertNormalOffset
          let nPtrTop := nPtrBottom + delta
          [⟨nPtrBottom, VboField.normal, FExpr.lit 0⟩,
           ⟨nPtrBottom + 1, VboField.normal, FExpr.lit (-1)⟩,
           ⟨nPtrBottom + 2, VboField.normal, FExpr.lit 0⟩,
           ⟨nPtrTop, VboField.normal, FExpr.lit 0⟩,
           ⟨nPtrTop + 1, VboField.normal, FExpr.lit 1⟩,
           ⟨nPtrTop + 2, VboField.normal, FExpr.lit 0⟩]
        else [])
    ++ (if 0 ≤ vertTexCoordsOffset then
          let sCoord := FExpr.mul (FExpr.lit (1 / 2)) (FExpr.add x (FExpr.lit 1))
          let tCoord := FExpr.mul (FExpr.lit (1 / 2)) (FExpr.add (FExpr.neg z) (FExpr.lit 1))
          let tcPtrBottom := basePtrBottom + vertTexCoordsOffset
          let tcPtrTop := tcPtrBottom + delta
          [⟨tcPtrBottom, VboField.texCoord, FExpr.sub (FExpr.lit 1) sCoord⟩,
           ⟨tcPtrBottom + 1, VboField.texCoord, tCoord⟩,
           ⟨tcPtrTop, VboField.texCoord, sCoord⟩,
           ⟨tcPtrTop + 1, VboField.texCoord, tCoord⟩]
        else [])

/-- The body of the side-vertex loop of `GlGeomCylinder::CalcVboAndEbo`
(GlGeomCylinder.cpp, lines 78-95) for slice `i` and stack `j`; `basePtr` has been
advanced by `stride` once per earlier iteration, so it stands at
`(2*GetNumVerticesDisk() + i*(numStacks + 1))*stride + j*stride`. -/
def vboSideVertex (g : GlGeomCylinder)
    (vertPosOffset vertNormalOffset vertTexCoordsOffset stride : ℤ) (s c : FExpr)
    (i j : ℤ) : List VboWrite :=
  let calcNormals := decide (0 ≤ vertNormalOffset)
  let calcTexCoords := decide (0 ≤ vertTexCoordsOffset)
  let basePtr := (2 * g.GetNumVerticesDisk + i * (g.numStacks + 1)) * stride + j * stride
  let sCoord := FExpr.div (FExpr.ofInt i) (FExpr.ofInt g.numSlices)
  let vPtr := basePtr + vertPosOffset
  let tCoord := FExpr.div (FExpr.ofInt j) (FExpr.ofInt g.numStacks)
  [⟨vPtr, VboField.pos, s⟩,
   ⟨vPtr + 1, VboField.pos, FExpr.add (FExpr.lit (-1)) (FExpr.mul (FExpr.lit 2) tCoord)⟩,
   ⟨vPtr + 2, VboField.pos, c⟩]
    ++ (if calcNormals then
          let nPtr := basePtr + vertNormalOffset
          [⟨nPtr, VboField.normal, s⟩, ⟨nPtr + 1, VboField.normal, FExpr.lit 0⟩,
           ⟨nPtr + 2, VboField.normal, c⟩]
        else [])
    ++ (if calcTexCoords then
          let tcPtr := basePtr + vertTexCoordsOffset
          [⟨tcPtr, VboField.texCoord, sCoord⟩, ⟨tcPtr + 1, VboField.texCoord, tCoord⟩]
        else [])

/-- The body of the slice loop of `GlGeomCylinder::CalcVboAndEbo`
(GlGeomCylinder.cpp, lines 63-95) for slice `i`: the ring vertices of both faces
when `i < numSlices`, then the side vertices of the slice. -/
def vboSlice (g : GlGeomCylinder)
    (vertPosOffset vertNormalOffset vertTexCoordsOffset stride : ℤ) (i : ℤ) : List VboWrite :=
  let theta := FExpr.div (FExpr.mul (FExpr.ofInt (Int.tmod i g.numSlices)) FExpr.PI2)
    (FExpr.ofInt g.numSlices)
  let c := FExpr.neg (FExpr.cos theta)
  let s := FExpr.neg (FExpr.sin theta)
  (if i < g.numSlices then
      (List.range g.numRings.toNat).flatMap fun k =>
        let j : ℤ := (k : ℤ) + 1
        let radius := FExpr.div (FExpr.ofInt j) (FExpr.ofInt g.numRings)
        g.SetDiscVerts (FExpr.mul s radius) (FExpr.mul c radius) i j
          vertPosOffset vertNormalOffset vertTexCoordsOffset stride
    else [])
    ++ (List.range (g.numStacks + 1).toNat).flatMap fun j =>
        g.vboSideVertex vertPosOffset vertNormalOffset vertTexCoordsOffset stride s c i (j : ℤ)

/-- The vertex part of `GlGeomCylinder::CalcVboAndEbo` (GlGeomCylinder.cpp, lines
57-96): every store into `VBOdataBuffer`, in order. -/
def CalcVbo (g : GlGeomCylinder)
    (vertPosOffset vertNormalOffset vertTexCoordsOffset stride : ℤ) : List VboWrite :=
  let calcTexCoords := decide (0 ≤ vertTexCoordsOffset)
  let stopSlices := if calcTexCoords then g.numSlices else g.numSlices - 1
  g.SetDiscVerts (FExpr.lit 0) (FExpr.lit 0) 0 0
      vertPosOffset vertNormalOffset vertTexCoordsOffset stride
    ++ (List.range (stopSlices + 1).toNat).flatMap fun i =>
        g.vboSlice vertPosOffset vertNormalOffset vertTexCoordsOffset stride (i : ℤ)

/-- The first element loop of `GlGeomCylinder::CalcVboAndEbo` (GlGeomCylinder.cpp,
lines 100-116, headed `Bottom`). -/
def eboBottom (g : GlGeomCylinder) : List ℤ :=
  (List.range g.numSlices.toNat).flatMap fun i =>
    let r := (i : ℤ) * g.numRings + 1
    let rightR := Int.tmod ((i : ℤ) + 1) g.numSlices * g.numRings + 1
    [0, rightR, r]
      ++ (List.range (g.numRings - 1).toNat).flatMap fun j =>
          [r + j, rightR + j, rightR + j + 1, r + j, rightR + j + 1, r + j + 1]

/-- The second element loop of `GlGeomCylinder::CalcVboAndEbo` (GlGeomCylinder.cpp,
lines 117-134, headed `Top`). -/
def eboTop (g : GlGeomCylinder) : List ℤ :=
  let delta := g.GetNumVerticesDisk
  (List.range g.numSlices.toNat).flatMap fun i =>
    let r := delta + (i : ℤ) * g.numRings + 1
    let leftR := delta + Int.tmod ((i : ℤ) + 1) g.numSlices * g.numRings + 1
    [delta, r, leftR]
      ++ (List.range (g.numRings - 1).toNat).flatMap fun j =>
          [leftR + j, r + j, r + j + 1, leftR + j, r + j + 1, leftR + j + 1]

/-- The third element loop of `GlGeomCylinder::CalcVboAndEbo` (GlGeomCylinder.cpp,
lines 135-149, headed `Side`). -/
def eboSide (g : GlGeomCylinder) (calcTexCoords : Bool) : List ℤ :=
  let delta := g.GetNumVerticesDisk
  (List.range g.numSlices.toNat).flatMap fun i =>
    let r := (i : ℤ) * (g.numStacks + 1) + 2 * delta
    let ii := if calcTexCoords then (i : ℤ) + 1 else Int.tmod ((i : ℤ) + 1) g.numSlices
    let rightR := ii * (g.numStacks + 1) + 2 * delta
    (List.range g.numStacks.toNat).flatMap fun j =>
      [rightR + j, r + j + 1, r + j, rightR + j, rightR + j + 1, r + j + 1]

/-- The element part of `GlGeomCylinder::CalcVboAndEbo` (GlGeomCylinder.cpp, lines
98-149): everything stored through `eboPtr`, in order. -/
def CalcEbo (g : GlGeomCylinder) (calcTexCoords : Bool) : List ℤ :=
  g.eboBottom ++ g.eboTop ++ g.eboSide calcTexCoords

/-- `GlGeomCylinder::CalcVboAndEbo` (GlGeomCylinder.cpp, lines 50-150): the stores
into the vertex buffer and the contents of the element buffer. -/
def CalcVboAndEbo (g : GlGeomCylinder)
    (vertPosOffset vertNormalOffset vertTexCoordsOffset stride : ℤ) : List VboWrite × List ℤ :=
  (CalcVbo g vertPosOffset vertNormalOffset vertTexCoordsOffset stride,
   CalcEbo g (decide (0 ≤ vertTexCoordsOffset)))

/-- The number of side vertices of the chosen mode. -/
def numVerticesSide (g : GlGeomCylinder) (tex : Bool) : ℤ :=
  if tex then g.GetNumVerticesSideTexCoords else g.GetNumVerticesSideNoTexCoords

/-- The vertex numbers whose record the cylinder's vertex loops fill: the two
centres, and for each slice of the loop the ring vertices of both faces (while
`i < numSlices`) and the side vertices. -/
def writtenVertex (g : GlGeomCylinder) (tex : Bool) (v : ℤ) : Prop :=
  v = 0 ∨ v = g.GetNumVerticesDisk ∨
  ∃ i : ℕ, i < ((if tex then g.numSlices else g.numSlices - 1) + 1).toNat ∧
    (((i : ℤ) < g.numSlices ∧ ∃ k : ℕ, k < g.numRings.toNat ∧
        (v = (i : ℤ) * g.numRings + ((k : ℤ) + 1) ∨
         v = g.GetNumVerticesDisk + ((i : ℤ) * g.numRings + ((k : ℤ) + 1)))) ∨
     ∃ j : ℕ, j < (g.numStacks + 1).toNat ∧
        v = 2 * g.GetNumVerticesDisk + (i : ℤ) * (g.numStacks + 1) + (j : ℤ))

end GlGeomCylinder

/-- A cylinder of the given resolution with nothing loaded yet, as the constructor
`GlGeomCylinder(slices, stacks, rings)` leaves it (GlGeomCylinder.h, lines
139-142 and 163-168); the attribute locations are not set by the constructor and
are taken as `0`. -/
def mkCylinder (nSlices nStacks nRings : ℤ) : GlGeomCylinder :=
  { numSlices := nSlices, numStacks := nStacks, numRings := nRings,
    theVAO := 0, theVBO := 0, theEBO := 0, VboEboLoaded := false,
    posLoc := 0, normalLoc := 0, texcoordsLoc := 0 }

/-! ## Reachable mesh states -/

/-- The sphere after the constructor `GlGeomSphere(slices, stacks)` and then one
`Remesh` call for each pair of the list, in order. -/
def sphereAfter (nSlices nStacks : ℤ) (calls : List (ℤ × ℤ)) : GlGeomSphere :=
  calls.foldl (fun g c => g.Remesh c.1 c.2) (mkSphere nSlices nStacks)

/-- The cylinder after the constructor `GlGeomCylinder(slices, stacks, rings)` and
then one `Remesh` call for each triple of the list, in order. -/
def cylinderAfter (nSlices nStacks nRings : ℤ) (calls : List (ℤ × ℤ × ℤ)) : GlGeomCylinder :=
  calls.foldl (fun g c => g.Remesh c.1 c.2.1 c.2.2) (mkCylinder nSlices nStacks nRings)

/-! ## EduPhong: the uniform block layout binder -/

/-- `GL_INVALID_INDEX` of the OpenGL headers. -/
def GL_INVALID_INDEX : ℕ := 0xFFFFFFFF

/-- The layout variables of EduPhong.cpp, lines 89-95; `offsetsGlobal` has
`numGlobal = 8` entries and `offsetsLight` has `numLightData + 1 = 15`. -/
structure LayoutState where
  shaderLayoutInfoKnown : Bool
  offsetsGlobal : Fin 8 → ℤ
  offsetsLight : Fin 15 → ℤ
  globallightBlockSize : ℤ
  lightsBlockSize : ℤ
  lightsBlockOffset : ℤ
  lightStride : ℤ

/-- The layout variables at program start: the flag is initialised to `false`
(EduPhong.cpp, line 89), the other variables are zero-initialised statics. -/
def initialLayout : LayoutState :=
  { shaderLayoutInfoKnown := false, offsetsGlobal := fun _ => 0, offsetsLight := fun _ => 0,
    globallightBlockSize := 0, lightsBlockSize := 0, lightsBlockOffset := 0, lightStride := 0 }

/-- What OpenGL answers to the queries `phRegisterShaderProgram` makes about a
program: the two block indices, the two block data sizes, the offset alignment
of uniform buffers, and the offsets of the members named by `globalNames` and
`lightNames` (the last of them `Lights[1].IsEnabled`). -/
structure ProgramReflection where
  globallightBlockIndex : ℕ
  lightsBlockIndex : ℕ
  globallightBlockDataSize : ℤ
  lightsBlockDataSize : ℤ
  uboAlign : ℤ
  offsetsGlobal : Fin 8 → ℤ
  offsetsLight : Fin 15 → ℤ

/-- The OpenGL calls of `phRegisterShaderProgram` that bind blocks and size or
bind the uniform buffer (EduPhong.cpp, lines 133-134 and 153-155). -/
inductive GlCall where
  | uniformBlockBinding (blockIndex binding : ℕ)
  | bufferData (size : ℤ)
  | bindBufferRange (binding : ℕ) (offset size : ℤ)
  deriving DecidableEq, Repr

/-- `phRegisterShaderProgram` (EduPhong.cpp, lines 124-180): the returned `bool`,
the layout variables after the call and the calls made to OpenGL. The constant
`phMaxNumLights` is declared in EduPhong.h, which is not among the sources, and
is a parameter. The `/` of C++ truncates, hence `Int.tdiv`. -/
def phRegisterShaderProgram (phMaxNumLights : ℤ) (st : LayoutState) (p : ProgramReflection) :
    Bool × LayoutState × List GlCall :=
  if p.globallightBlockIndex = GL_INVALID_INDEX ∨ p.lightsBlockIndex = GL_INVALID_INDEX then
    (false, st, [])
  else
    let bindings := [GlCall.uniformBlockBinding p.globallightBlockIndex 0,
      GlCall.uniformBlockBinding p.lightsBlockIndex 1]
    if st.shaderLayoutInfoKnown then (true, st, bindings)
    else
      let globallightBlockSize := p.globallightBlockDataSize
      let lightsBlockSize := p.lightsBlockDataSize
      let uboAlign := p.uboAlign
      let lightsBlockOffset := uboAlign * (1 + Int.tdiv (globallightBlockSize - 1) uboAlign)
      let totalSize := lightsBlockOffset + lightsBlockSize
      let lightStride := p.offsetsLight 14 - p.offsetsLight 0
      let st1 : LayoutState :=
        { shaderLayoutInfoKnown := true
          offsetsGlobal := p.offsetsGlobal
          offsetsLight := p.offsetsLight
          globallightBlockSize := globallightBlockSize
          lightsBlockSize := lightsBlockSize
          lightsBlockOffset := lightsBlockOffset
          lightStride := lightStride }
      let calls := bindings ++ [GlCall.bufferData totalSize,
        GlCall.bindBufferRange 0 0 globallightBlockSize,
        GlCall.bindBufferRange 1 lightsBlockOffset lightsBlockSize]
      if phMaxNumLights * lightStride ≠ lightsBlockSize then (false, st1, calls)
      else (true, st1, calls)

/-- The layout variables after registering the programs of the list, in order,
starting from `st`. -/
def registerAll (phMaxNumLights : ℤ) (st : LayoutState) (ps : List ProgramReflection) :
    LayoutState :=
  ps.foldl (fun s p => (phRegisterShaderProgram phMaxNumLights s p).2.1) st

/-! ## EduPhong: light and global records -/

/-- Modelled from the spec: `VectorR3` of LinearR3.h, which is not among the
sources: three components, read as `v[0]`, `v[1]`, `v[2]`. -/
structure VectorR3 (R : Type) where
  x : R
  y : R
  z : R
  deriving DecidableEq, Repr

/-- Modelled from the spec: the data members of `phLight`, declared in EduPhong.h,
which is not among the sources; the names are those used in EduPhong.cpp, lines
219-232 and 243-259. -/
structure phLight (R : Type) where
  IsEnabled : Bool
  IsAttenuated : Bool
  IsSpotLight : Bool
  IsDirectional : Bool
  PosOrDir : VectorR3 R
  AmbientColor : VectorR3 R
  DiffuseColor : VectorR3 R
  SpecularColor : VectorR3 R
  SpotDirection : VectorR3 R
  SpotCosCutoff : R
  SpotExponent : R
  ConstantAttenuation : R
  LinearAttenuation : R
  QuadraticAttenuation : R
  deriving DecidableEq, Repr

/-- Modelled from the spec: the data members of `phGlobal`, declared in EduPhong.h,
which is not among the sources; the names are those used in EduPhong.cpp, lines
201-208 and 269. -/
structure phGlobal (R : Type) where
  GlobalAmbientColor : VectorR3 R
  NumLights : ℤ
  LocalViewer : Bool
  EnableEmissive : Bool
  EnableDiffuse : Bool
  EnableAmbient : Bool
  EnableSpecular : Bool
  UseHalfwayVector : Bool
  deriving DecidableEq, Repr

/-- A byte stored in a transient buffer: a known byte, or byte `k` of the
single-precision value of `v`, kept symbolic. -/
inductive BVal (R : Type) where
  | lit (b : ℕ)
  | floatByte (v : R) (k : ℕ)
  deriving DecidableEq, Repr

/-- `trueGLbool` (EduPhong.cpp, line 33). -/
def trueGLbool : ℤ := 0xffffffff

/-- `falseGLbool` (EduPhong.cpp, line 33). -/
def falseGLbool : ℤ := 0

/-- Byte `k` of the four-byte object holding `n`, lowest byte first. -/
def intByte (n : ℤ) (k : ℕ) : ℕ := ((n % 4294967296) / 256 ^ k % 256).toNat

/-- The stores of `memcpy(buffer + dst, &n, 4)` for a four-byte integer `n`. -/
def memcpyInt (R : Type) (dst : ℤ) (n : ℤ) : List (ℤ × BVal R) :=
  [(dst, BVal.lit (intByte n 0)), (dst + 1, BVal.lit (intByte n 1)),
   (dst + 2, BVal.lit (intByte n 2)), (dst + 3, BVal.lit (intByte n 3))]

/-- The stores of `memcpy(buffer + dst, &v, sizeof(float))`, also those of writing
one `float` through a `float*` at `buffer + dst`. -/
def memcpyFloat {R : Type} (dst : ℤ) (v : R) : List (ℤ × BVal R) :=
  [(dst, BVal.floatByte v 0), (dst + 1, BVal.floatByte v 1),
   (dst + 2, BVal.floatByte v 2), (dst + 3, BVal.floatByte v 3)]

/-- Modelled from the spec: `VectorR3::Dump(float*)` of LinearR3.h, which is not
among the sources: the three components are written as three consecutive
floats. -/
def VectorR3.Dump {R : Type} (v : VectorR3 R) (dst : ℤ) : List (ℤ × BVal R) :=
  memcpyFloat dst v.x ++ memcpyFloat (dst + 4) v.y ++ memcpyFloat (dst + 8) v.z

/-- What a `LoadIntoShaders` hands to OpenGL: the size of the transient buffer it
allocated, the stores it made into it, in order, and the offset and size given
to `glBufferSubData`. -/
structure Upload (R : Type) where
  bufferSize : ℤ
  buffer : List (ℤ × BVal R)
  offset : ℤ
  size : ℤ

/-- `phGlobal::LoadIntoShaders` (EduPhong.cpp, lines 198-213). -/
def phGlobal.LoadIntoShaders {R : Type} (st : LayoutState) (g : phGlobal R) : Upload R :=
  { bufferSize := st.globallightBlockSize
    buffer :=
      g.GlobalAmbientColor.Dump (st.offsetsGlobal 0)
        ++ memcpyInt R (st.offsetsGlobal 1) g.NumLights
        ++ memcpyInt R (st.offsetsGlobal 2) (if g.LocalViewer then trueGLbool else falseGLbool)
        ++ memcpyInt R (st.offsetsGlobal 3) (if g.EnableEmissive then trueGLbool else falseGLbool)
        ++ memcpyInt R (st.offsetsGlobal 4) (if g.EnableDiffuse then trueGLbool else falseGLbool)
        ++ memcpyInt R (st.offsetsGlobal 5) (if g.EnableAmbient then trueGLbool else falseGLbool)
        ++ memcpyInt R (st.offsetsGlobal 6) (if g.EnableSpecular then trueGLbool else falseGLbool)
        ++ memcpyInt R (st.offsetsGlobal 7)
            (if g.UseHalfwayVector then trueGLbool else falseGLbool)
    offset := 0
    size := st.globallightBlockSize }

/-- `phLight::LoadIntoShaders` (EduPhong.cpp, lines 215-237): `none` when the
assertion on `lightNumber` fails. -/
def phLight.LoadIntoShaders {R : Type} (phMaxNumLights : ℤ) (st : LayoutState) (l : phLight R)
    (lightNumber : ℤ) : Option (Upload R) :=
  if 0 ≤ lightNumber ∧ lightNumber < phMaxNumLights then
    let startLoc := st.lightsBlockOffset + lightNumber * st.lightStride
    some
      { bufferSize := st.lightStride
        buffer :=
          memcpyInt R (st.offsetsLight 0) (if l.IsEnabled then trueGLbool else falseGLbool)
            ++ memcpyInt R (st.offsetsLight 1)
                (if l.IsAttenuated then trueGLbool else falseGLbool)
            ++ memcpyInt R (st.offsetsLight 2)
                (if l.IsSpotLight then trueGLbool else falseGLbool)
            ++ memcpyInt R (st.offsetsLight 3)
                (if l.IsDirectional then trueGLbool else falseGLbool)
            ++ l.PosOrDir.Dump (st.offsetsLight 4)
            ++ l.AmbientColor.Dump (st.offsetsLight 5)
            ++ l.DiffuseColor.Dump (st.offsetsLight 6)
            ++ l.SpecularColor.Dump (st.offsetsLight 7)
            ++ l.SpotDirection.Dump (st.offsetsLight 8)
            ++ memcpyFloat (st.offsetsLight 9) l.SpotCosCutoff
            ++ memcpyFloat (st.offsetsLight 10) l.SpotExponent
            ++ memcpyFloat (st.offsetsLight 11) l.ConstantAttenuation
            ++ memcpyFloat (st.offsetsLight 12) l.LinearAttenuation
            ++ memcpyFloat (st.offsetsLight 13) l.QuadraticAttenuation
        offset := startLoc
        size := st.lightStride }
  else none

/-- The arithmetic `phLight::CheckCorrectness` does on vector components: the
product and the sum of two components, and the three tests made on a squared
norm after its conversion to `float`: `sqNorm < 0.000001`, `sqNorm < 0.999f`
and `sqNorm > 1.001f`; `zero` and `one` are the values `0.0` and `1.0`. -/
structure SqNormOps (R : Type) where
  zero : R
  one : R
  mul : R → R → R
  add : R → R → R
  ltEps : R → Bool
  ltLow : R → Bool
  gtHigh : R → Bool

/-- What floating-point arithmetic guarantees on the values `0.0` and `1.0`:
their products and sums are exact, `0.0 < 0.000001` and not `1.0 < 0.000001`. -/
def SqNormOps.ExactOnZeroOne {R : Type} (o : SqNormOps R) : Prop :=
  o.mul o.zero o.zero = o.zero ∧ o.mul o.one o.one = o.one ∧
  o.add o.zero o.zero = o.zero ∧ o.add o.zero o.one = o.one ∧
  o.ltEps o.zero = true ∧ o.ltEps o.one = false

/-- The arithmetic of `CheckCorrectness` read over the rationals, without
rounding. -/
def ratOps : SqNormOps ℚ :=
  { zero := 0, one := 1, mul := fun a b => a * b, add := fun a b => a + b,
    ltEps := fun a => decide (a < 1 / 1000000),
    ltLow := fun a => decide (a < 999 / 1000),
    gtHigh := fun a => decide (a > 1001 / 1000) }

/-- The squared norm computed twice in `phLight::CheckCorrectness` (EduPhong.cpp,
lines 245-247 and 256-258). -/
def SqNormOps.sqNorm {R : Type} (o : SqNormOps R) (v : VectorR3 R) : R :=
  o.add (o.add (o.mul v.x v.x) (o.mul v.y v.y)) (o.mul v.z v.z)

/-- `phLight::CheckCorrectness` (EduPhong.cpp, lines 240-265). -/
def phLight.CheckCorrectness {R : Type} (o : SqNormOps R) (l : phLight R) : Bool :=
  if l.IsDirectional = true ∧ o.ltEps (o.sqNorm l.PosOrDir) = true then false
  else if l.IsSpotLight = true ∧
      (l.IsDirectional = true ∨ o.ltLow (o.sqNorm l.SpotDirection) = true ∨
        o.gtHigh (o.sqNorm l.SpotDirection) = true) then false
  else true

/-- `phGlobal::CheckCorrectness` (EduPhong.cpp, lines 267-274); `phMaxNumLights`
is a parameter, as in `phRegisterShaderProgram`. -/
def phGlobal.CheckCorrectness {R : Type} (phMaxNumLights : ℤ) (g : phGlobal R) : Bool :=
  if g.NumLights > phMaxNumLights then false else true

/-! ## GlShaderMgr: the shader table and the source loader -/

/-- `GlShaderMgr::ShaderType` (GlShaderMgr.h, line 113). -/
inductive ShaderType where
  | vertex_shader
  | fragment_shader
  | geometry_shader
  | code_block
  deriving DecidableEq, Repr

/-- `GlShaderMgr::ShaderInfo` (GlShaderMgr.h, lines 125-130); strings are lists of
characters. -/
structure ShaderInfo where
  shaderType : ShaderType
  shaderCodeName : List Char
  shaderCodeArray : List Char
  shaderOpenGLhandle : ℕ
  deriving DecidableEq, Repr

/-- `GlShaderMgr::shaderTypeName` (GlShaderMgr.cpp, lines 54-55). -/
def shaderTypeName : List (List Char) :=
  ["vertexshader".toList, "fragmentshader".toList, "geometryshader".toList, "codeblock".toList]

/-- The cast `(ShaderType)(it - shaderTypeName.begin())` (GlShaderMgr.cpp, line
189) of a position in `shaderTypeName`. -/
def shaderTypeOfIndex : ℕ → ShaderType
  | 0 => ShaderType.vertex_shader
  | 1 => ShaderType.fragment_shader
  | 2 => ShaderType.geometry_shader
  | _ => ShaderType.code_block

/-- `GlShaderMgr::findCodeName` (GlShaderMgr.cpp, lines 216-221): the position of
the first entry of the table with the given name, `none` for `shdrInfo.end()`. -/
def findCodeName : List ShaderInfo → List Char → Option ℕ
  | [], _ => none
  | si :: rest, theName =>
    if si.shaderCodeName = theName then some 0
    else (findCodeName rest theName).map (fun k => k + 1)

/-- `GlShaderMgr::AllocateShdrInfo` (GlShaderMgr.cpp, lines 175-194): the returned
`bool` and the table after the call. -/
def AllocateShdrInfo (shdrInfo : List ShaderInfo) (shaderType shaderCodeName : List Char) :
    Bool × List ShaderInfo :=
  let lowered := shaderType.map Char.toLower
  if lowered ∉ shaderTypeName then (false, shdrInfo)
  else if (findCodeName shdrInfo shaderCodeName).isSome then (false, shdrInfo)
  else
    (true, shdrInfo ++
      [{ shaderType := shaderTypeOfIndex (shaderTypeName.indexOf lowered)
         shaderCodeName := shaderCodeName
         shaderCodeArray := []
         shaderOpenGLhandle := 0 }])

/-- The characters `operator>>` skips between tokens: the blank and the
characters 9 to 13. -/
def isSpace (c : Char) : Bool := decide (c.toNat = 32 ∨ (9 ≤ c.toNat ∧ c.toNat ≤ 13))

/-- Token number `k` of a line: what the `k+1`-st `instream >> w` leaves in `w`,
the empty string once the line has no further token. -/
def word (inLine : List Char) (k : ℕ) : List Char :=
  ((inLine.splitOnP isSpace).filter (fun w => !w.isEmpty)).getD k []

/-- The test `w1.substr(0,10).compare("#beginglsl") == 0` (GlShaderMgr.cpp, line
92) on the first token of the line. -/
def isBeginLine (inLine : List Char) : Bool :=
  decide ((word inLine 0).take 10 = "#beginglsl".toList)

/-- The test `w1.substr(0,8).compare("#endglsl") == 0` (GlShaderMgr.cpp, line 106)
on the first token of the line. -/
def isEndLine (inLine : List Char) : Bool :=
  decide ((word inLine 0).take 8 = "#endglsl".toList)

/-- The statements `code += inLine; code += '\n';` on `shdrInfo.back()`
(GlShaderMgr.cpp, lines 118-120). -/
def appendToBack : List ShaderInfo → List Char → List ShaderInfo
  | [], _ => []
  | [si], inLine =>
    [{ si with shaderCodeArray := si.shaderCodeArray ++ inLine ++ [Char.ofNat 10] }]
  | si :: sj :: rest, inLine => si :: appendToBack (sj :: rest) inLine

/-- The reading loop of `GlShaderMgr::LoadShaderSource` (GlShaderMgr.cpp, lines
88-122) on the lines still to read, from the current `shdrIdx` and table; a
`break` ends the recursion. -/
def loadLines : List (List Char) → ℤ → List ShaderInfo → ℤ × List ShaderInfo
  | [], shdrIdx, shdrInfo => (shdrIdx, shdrInfo)
  | inLine :: rest, shdrIdx, shdrInfo =>
    if isBeginLine inLine then
      if shdrIdx ≠ -1 then (-2, shdrInfo)
      else
        let r := AllocateShdrInfo shdrInfo (word inLine 1) (word inLine 2)
        if r.1 = false then (-2, r.2)
        else loadLines rest (shdrInfo.length : ℤ) r.2
    else if isEndLine inLine then
      if shdrIdx = -1 then (-2, shdrInfo)
      else loadLines rest (-1) shdrInfo
    else if shdrIdx = -1 then loadLines rest shdrIdx shdrInfo
    else loadLines rest shdrIdx (appendToBack shdrInfo inLine)

/-- `GlShaderMgr::LoadShaderSource(filename)` (GlShaderMgr.cpp, lines 77-136) on a
file that could be opened, given as its lines: the returned `bool` and the table
after the call. -/
def LoadShaderSource (shdrInfo : List ShaderInfo) (fileLines : List (List Char)) :
    Bool × List ShaderInfo :=
  let beforeCount : ℤ := (shdrInfo.length : ℤ)
  let r := loadLines fileLines (-1) shdrInfo
  let shdrIdx1 := if r.1 ≥ 0 then -2 else r.1
  let shdrIdx2 := if shdrIdx1 ≠ -2 ∧ (r.2.length : ℤ) = beforeCount then -2 else shdrIdx1
  if shdrIdx2 = -2 then (false, r.2) else (true, r.2)

/-- The name loop of `GlShaderMgr::CompileShader` (GlShaderMgr.cpp, lines 256-273)
on the names still to look up, from the current `typeSoFar` and `lastIdx`:
`none` when the loop returns 0. -/
def compileLoop (shdrInfo : List ShaderInfo) :
    List (List Char) → ShaderType → ℤ → Option (ShaderType × ℤ)
  | [], typeSoFar, lastIdx => some (typeSoFar, lastIdx)
  | nameStr :: rest, typeSoFar, _ =>
    match findCodeName shdrInfo nameStr with
    | none => none
    | some k =>
      let itType := ((shdrInfo.get? k).map (fun si => si.shaderType)).getD ShaderType.code_block
      if itType ≠ ShaderType.code_block then
        if typeSoFar ≠ ShaderType.code_block then none
        else compileLoop shdrInfo rest itType (k : ℤ)
      else compileLoop shdrInfo rest typeSoFar (k : ℤ)

/-- What a call of `CompileShader` leaves: the returned handle, the table, and
whether `glCreateShader` was called. -/
structure CompileOutcome where
  result : ℕ
  shdrInfo : List ShaderInfo
  created : Bool
  deriving DecidableEq, Repr

/-- `GlShaderMgr::CompileShader(numcodeBlocks, shaderCodeNames)` (GlShaderMgr.cpp,
lines 250-314), `shaderCodeNames` given as the list of its `numcodeBlocks`
names; `newShader` is the handle `glCreateShader` would return and `compileOk`
the answer of `check_compilation_shader`. -/
def CompileShader (newShader : ℕ) (compileOk : Bool) (shdrInfo : List ShaderInfo)
    (shaderCodeNames : List (List Char)) : CompileOutcome :=
  match compileLoop shdrInfo shaderCodeNames ShaderType.code_block (-1) with
  | none => { result := 0, shdrInfo := shdrInfo, created := false }
  | some (typeSoFar, lastIdx) =>
    if typeSoFar = ShaderType.code_block then
      { result := 0, shdrInfo := shdrInfo, created := false }
    else
      let oldShader :=
        ((shdrInfo.get? lastIdx.toNat).map (fun si => si.shaderOpenGLhandle)).getD 0
      if shaderCodeNames.length = 1 ∧ oldShader ≠ 0 then
        { result := oldShader, shdrInfo := shdrInfo, created := false }
      else if compileOk = false then
        { result := 0, shdrInfo := shdrInfo, created := true }
      else if shaderCodeNames.length = 1 then
        { result := newShader
          shdrInfo := shdrInfo.modify (fun si => { si with shaderOpenGLhandle := newShader })
            lastIdx.toNat
          created := true }
      else
        { result := newShader
          shdrInfo := shdrInfo ++
            [{ shaderType := typeSoFar, shaderCodeName := [], shaderCodeArray := [],
               shaderOpenGLhandle := newShader }]
          created := true }

/-- `GlShaderMgr::FinalizeCompileAndLink` (GlShaderMgr.cpp, lines 198-207): the
table after the call and the handles given to `glDeleteShader`, in order;
`glIsShader` is the answer of OpenGL. The loop variable of
`for (auto si : shdrInfo)` is a copy of the entry, so what the body assigns to
`si` is dropped at the end of each passage and the table is not written. -/
def FinalizeCompileAndLink (glIsShader : ℕ → Bool) (shdrInfo : List ShaderInfo) :
    List ShaderInfo × List ℕ :=
  (shdrInfo,
   shdrInfo.foldl
    (fun deleted entry =>
      let si : ShaderInfo := { entry with shaderCodeArray := [] }
      if glIsShader si.shaderOpenGLhandle then deleted ++ [si.shaderOpenGLhandle]
      else deleted)
    [])

/-! ## MathCustom -/

/-- `outerProduct` (MathCustom.cpp, lines 5-18) when the allocation succeeds: the
stores into `matrix`, in order, each with its position and value; `vec1 i` and
`vec2 j` are the floats read at `vec1[i]` and `vec2[j]`, and `mul` is the
product of two floats. -/
def outerProduct {R : Type} (mul : R → R → R) (vec1 : ℕ → R) (n1 : ℤ) (vec2 : ℕ → R) (n2 : ℤ) :
    List (ℤ × R) :=
  (List.range n1.toNat).flatMap fun (i : ℕ) =>
    (List.range n2.toNat).map fun (j : ℕ) =>
      ((i : ℤ) * n1 + (j : ℤ), mul (vec1 i) (vec2 j))

/-- The number of floats `outerProduct` allocates: `sizeof(float) * n1 * n2`
bytes (MathCustom.cpp, line 6). -/
def outerProductSize (n1 n2 : ℤ) : ℤ := n1 * n2

/-! ## GlGeomCylinder: the partial render calls -/

/-- The part of the element buffer a `glDrawElements(GL_TRIANGLES, count, ...,
first * sizeof(unsigned int))` call draws. -/
def drawnElements (ebo : List ℤ) (first count : ℤ) : List ℤ :=
  (ebo.drop first.toNat).take count.toNat

/-- `GlGeomCylinder::RenderTop` (GlGeomCylinder.cpp, lines 259-267): the first
element and the count given to `glDrawElements`. -/
def GlGeomCylinder.RenderTop (g : GlGeomCylinder) : ℤ × ℤ := (0, g.GetNumElementsDisk)

/-- `GlGeomCylinder::RenderBase` (GlGeomCylinder.cpp, lines 269-277): the first
element and the count given to `glDrawElements`. -/
def GlGeomCylinder.RenderBase (g : GlGeomCylinder) : ℤ × ℤ :=
  (g.GetNumElementsDisk, g.GetNumElementsDisk)

/-! ## Notions used by the statements -/

/-- The positions the sphere numbering is a bijection on: the two poles, taken on
slice 0, and the grid of the slices `0 ≤ i < S'` and the stacks `1 ≤ j ≤ T-1`,
where `S' = numSlices + 1` with texture coordinates and `numSlices` without. -/
def sphereGrid (g : GlGeomSphere) (tex : Bool) : Set (ℤ × ℤ) :=
  {p | (p.1 = 0 ∧ (p.2 = 0 ∨ p.2 = g.numStacks)) ∨
       (0 ≤ p.1 ∧ p.1 < (if tex then g.numSlices + 1 else g.numSlices) ∧
        1 ≤ p.2 ∧ p.2 ≤ g.numStacks - 1)}

/-- The three tight packings documented in GlGeomSphere.h and GlGeomCylinder.h:
positions only, positions and texture coordinates, positions, normals and
texture coordinates. -/
def TightPacking (vertPosOffset vertNormalOffset vertTexCoordsOffset stride : ℤ) : Prop :=
  (vertPosOffset = 0 ∧ vertNormalOffset = -1 ∧ vertTexCoordsOffset = -1 ∧ stride = 3) ∨
  (vertPosOffset = 0 ∧ vertNormalOffset = -1 ∧ vertTexCoordsOffset = 3 ∧ stride = 5) ∨
  (vertPosOffset = 0 ∧ vertNormalOffset = 3 ∧ vertTexCoordsOffset = 6 ∧ stride = 8)

/-- The float positions a trace of stores hits are exactly those of `[0, n)`. -/
def WritesExactly (tr : List VboWrite) (n : ℤ) : Prop :=
  ∀ p : ℤ, (∃ w ∈ tr, w.index = p) ↔ (0 ≤ p ∧ p < n)

/-- Float position `p` lies in the record of vertex `v` of a buffer of `st`
floats a vertex. -/
def InRecord (st v p : ℤ) : Prop := st * v ≤ p ∧ p < st * v + st

/-- A program that has both uniform blocks, a global block of 48 bytes, members 4
bytes apart in both blocks (so `Lights[1].IsEnabled` is 56 bytes after
`Lights[0].IsEnabled`), an alignment of 16 bytes and a light-array block of the
given size. -/
def packedProgram (lightsBlockDataSize : ℤ) : ProgramReflection :=
  { globallightBlockIndex := 0, lightsBlockIndex := 1, globallightBlockDataSize := 48,
    lightsBlockDataSize := lightsBlockDataSize, uboAlign := 16,
    offsetsGlobal := fun i => 4 * ((i : ℕ) : ℤ), offsetsLight := fun i => 4 * ((i : ℕ) : ℤ) }

/-- A program like `packedProgram 448` but without the `phLightArray` block. -/
def programWithoutLights : ProgramReflection :=
  { packedProgram 448 with lightsBlockIndex := GL_INVALID_INDEX }

/-- An enabled directional light over the rationals with the given `PosOrDir`,
white colours and a spot direction pointing down; it is a spot light when asked. -/
def directionalLight (dir : VectorR3 ℚ) (spot : Bool) : phLight ℚ :=
  { IsEnabled := true, IsAttenuated := false, IsSpotLight := spot, IsDirectional := true,
    PosOrDir := dir, AmbientColor := ⟨1, 1, 1⟩, DiffuseColor := ⟨1, 1, 1⟩,
    SpecularColor := ⟨1, 1, 1⟩, SpotDirection := ⟨0, -1, 0⟩, SpotCosCutoff := 1 / 2,
    SpotExponent := 1, ConstantAttenuation := 1, LinearAttenuation := 0,
    QuadraticAttenuation := 0 }

/-- A global lighting record over the rationals with the given number of lights. -/
def globalRecord (numLights : ℤ) : phGlobal ℚ :=
  { GlobalAmbientColor := ⟨1 / 5, 1 / 5, 1 / 5⟩, NumLights := numLights, LocalViewer := true,
    EnableEmissive := true, EnableDiffuse := false, EnableAmbient := true,
    EnableSpecular := false, UseHalfwayVector := false }

/-- A table with one vertex shader named `vs`, loaded with some source and
compiled under the handle 5. -/
def compiledTable : List ShaderInfo :=
  [{ shaderType := ShaderType.vertex_shader, shaderCodeName := "vs".toList,
     shaderCodeArray := "void main()".toList, shaderOpenGLhandle := 5 }]

/-- The floats at `v[0], v[1], ...` for a vector given by the list of its entries
(integers, whose products are exact). -/
def vecOf (l : List ℤ) : ℕ → ℤ := fun i => l.getD i 0

/-- The named block gives the shader type: the table has an entry of that name and
the first such entry has a type other than `codeblock`. -/
def givesType (shdrInfo : List ShaderInfo) (nameStr : List Char) : Bool :=
  match findCodeName shdrInfo nameStr with
  | none => false
  | some k =>
    decide (((shdrInfo.get? k).map (fun si => si.shaderType)).getD ShaderType.code_block
      ≠ ShaderType.code_block)

/-- A table with the vertex shader `vs`, the fragment shader `fs` and the code
block `cb`, none of them compiled. -/
def loadedTable : List ShaderInfo :=
  [{ shaderType := ShaderType.vertex_shader, shaderCodeName := "vs".toList,
     shaderCodeArray := "void main()".toList, shaderOpenGLhandle := 0 },
   { shaderType := ShaderType.fragment_shader, shaderCodeName := "fs".toList,
     shaderCodeArray := "void main()".toList, shaderOpenGLhandle := 0 },
   { shaderType := ShaderType.code_block, shaderCodeName := "cb".toList,
     shaderCodeArray := "float f()".toList, shaderOpenGLhandle := 0 }]

/-- The name under which `shaderTypeName` lists a shader type. -/
def ShaderType.typeName : ShaderType → List Char
  | ShaderType.vertex_shader => "vertexshader".toList
  | ShaderType.fragment_shader => "fragmentshader".toList
  | ShaderType.geometry_shader => "geometryshader".toList
  | ShaderType.code_block => "codeblock".toList

/-- A line is a marker: its first token starts with `#beginglsl` or with
`#endglsl`. -/
def isMarker (inLine : List Char) : Bool := isBeginLine inLine || isEndLine inLine

/-- One region of a source text: its `#beginglsl` line, the lines between the
markers and its `#endglsl` line. -/
structure SourceRegion where
  beginLine : List Char
  body : List (List Char)
  endLine : List Char
  deriving DecidableEq, Repr

/-- The type tag on the `#beginglsl` line of a region, in lower case. -/
def SourceRegion.tag (r : SourceRegion) : List Char := (word r.beginLine 1).map Char.toLower

/-- The name on the `#beginglsl` line of a region. -/
def SourceRegion.name (r : SourceRegion) : List Char := word r.beginLine 2

/-- The lines of a region, markers included. -/
def SourceRegion.lines (r : SourceRegion) : List (List Char) :=
  r.beginLine :: (r.body ++ [r.endLine])

/-- A region is well formed: its first line is a `#beginglsl` line with a valid
type tag, no line between the markers is a marker, and its last line is an
`#endglsl` line. -/
def SourceRegion.WellFormed (r : SourceRegion) : Prop :=
  isBeginLine r.beginLine = true ∧ r.tag ∈ shaderTypeName ∧
  (∀ l ∈ r.body, isMarker l = false) ∧ isEndLine r.endLine = true

/-- The table entry a region stands for: the type of its tag, its name, the lines
between the markers, each followed by a newline, and the handle 0. -/
def SourceRegion.entry (r : SourceRegion) : ShaderInfo :=
  { shaderType := shaderTypeOfIndex (shaderTypeName.indexOf r.tag)
    shaderCodeName := r.name
    shaderCodeArray := (r.body.map (fun l => l ++ [Char.ofNat 10])).flatten
    shaderOpenGLhandle := 0 }

/-- A source text laid out as regions, each preceded by lines outside every
region, followed by further lines outside every region. -/
def sourceText (segs : List (List (List Char) × SourceRegion)) (post : List (List Char)) :
    List (List Char) :=
  segs.flatMap (fun s => s.1 ++ s.2.lines) ++ post

/-- A source text is well formed for a table: it has at least one region, its
lines outside the regions are not markers, its regions are well formed, and the
names of its regions differ from each other and from the names in the table. -/
def WellFormedSource (shdrInfo : List ShaderInfo)
    (segs : List (List (List Char) × SourceRegion)) (post : List (List Char)) : Prop :=
  segs ≠ [] ∧ (∀ s ∈ segs, ∀ l ∈ s.1, isMarker l = false) ∧
  (∀ l ∈ post, isMarker l = false) ∧ (∀ s ∈ segs, s.2.WellFormed) ∧
  (segs.map (fun s => s.2.name)).Nodup ∧
  (∀ s ∈ segs, s.2.name ∉ shdrInfo.map (fun si => si.shaderCodeName))

/-- A region is open after the lines read: the last marker among them is a
`#beginglsl` line. -/
def regionOpen (ls : List (List Char)) : Bool :=
  ls.foldl (fun o l => if isBeginLine l then true else if isEndLine l then false else o) false

/-- The names carried by the `#beginglsl` lines among the lines read. -/
def beginNames (ls : List (List Char)) : List (List Char) :=
  (ls.filter isBeginLine).map (fun l => word l 2)

/-- The conditions under which loading a source text into a table is to fail,
scanning the lines in order: a `#beginglsl` line while a region is open, an
`#endglsl` line while none is open, the end of the text while a region is open,
no `#beginglsl` line at all, a type tag that is, in lower case, none of the four
type names, or a name that is already the name of a block of the table, be it
there before the call or put there by an earlier `#beginglsl` line. -/
def LoadFailure (shdrInfo : List ShaderInfo) (ls : List (List Char)) : Prop :=
  (∃ pre l post, ls = pre ++ l :: post ∧ isBeginLine l = true ∧ regionOpen pre = true) ∨
  (∃ pre l post, ls = pre ++ l :: post ∧ isEndLine l = true ∧ regionOpen pre = false) ∨
  regionOpen ls = true ∨
  (∀ l ∈ ls, isBeginLine l = false) ∨
  (∃ l ∈ ls, isBeginLine l = true ∧ (word l 1).map Char.toLower ∉ shaderTypeName) ∨
  (∃ pre l post, ls = pre ++ l :: post ∧ isBeginLine l = true ∧
    word l 2 ∈ shdrInfo.map (fun si => si.shaderCodeName) ++ beginNames pre)

/-- A source text with a comment, a vertex shader `vs` of two lines, a stray line
and an empty code block `cb`. -/
def sampleSegments : List (List (List Char) × SourceRegion) :=
  [(["// shaders".toList],
    { beginLine := "#beginglsl VertexShader vs".toList,
      body := ["void main()".toList, "  x = 1;".toList],
      endLine := "#endglsl".toList }),
   (["stray".toList],
    { beginLine := "  #beginglsl codeblock cb".toList, body := [],
      endLine := "#endglsl done".toList })]

/-- The line `l`, read after the lines `pre`, is in error: a `#beginglsl` line
while a region is open, or with an invalid type tag, or with a name already in
the table, or an `#endglsl` line while no region is open. -/
def lineInError (shdrInfo : List ShaderInfo) (pre : List (List Char)) (l : List Char) : Prop :=
  (isBeginLine l = true ∧
    (regionOpen pre = true ∨ (word l 1).map Char.toLower ∉ shaderTypeName ∨
      word l 2 ∈ shdrInfo.map (fun si => si.shaderCodeName) ++ beginNames pre)) ∨
  (isEndLine l = true ∧ regionOpen pre = false)

/-- The value of a float term over the rationals, for the terms made of
literals, converted integers and the four operations with no division by zero;
`none` for the others. A quotient `n/n` of a nonzero integer below `2^24` by
itself, and a quotient `0/n`, are computed by float division without rounding,
so for these the rational value is the float that is stored. -/
def FExpr.exactValue : FExpr → Option ℚ
  | FExpr.lit q => some q
  | FExpr.ofInt n => some (n : ℚ)
  | FExpr.PI => none
  | FExpr.PI2 => none
  | FExpr.neg a => (FExpr.exactValue a).map fun x => -x
  | FExpr.add a b =>
    match FExpr.exactValue a, FExpr.exactValue b with
    | some x, some y => some (x + y)
    | _, _ => none
  | FExpr.sub a b =>
    match FExpr.exactValue a, FExpr.exactValue b with
    | some x, some y => some (x - y)
    | _, _ => none
  | FExpr.mul a b =>
    match FExpr.exactValue a, FExpr.exactValue b with
    | some x, some y => some (x * y)
    | _, _ => none
  | FExpr.div a b =>
    match FExpr.exactValue a, FExpr.exactValue b with
    | some x, some y => if y = 0 then none else some (x / y)
    | _, _ => none
  | FExpr.cos _ => none
  | FExpr.sin _ => none

/-- The stores of a trace that go through `tcPtr`, as pairs of float position
and value, in order. -/
def texCoordStores (tr : List VboWrite) : List (ℤ × FExpr) :=
  (tr.filter fun w => decide (w.field = VboField.texCoord)).map fun w => (w.index, w.value)

/-- The values a trace stores through `vPtr`, in order. -/
def posValues (tr : List VboWrite) : List FExpr :=
  (tr.filter fun w => decide (w.field = VboField.pos)).map fun w => w.value

/-- The triangles an element buffer holds when drawn as `GL_TRIANGLES`: its
consecutive index triples, in order. -/
def triangles : List ℤ → List (ℤ × ℤ × ℤ)
  | a :: b :: c :: rest => (a, b, c) :: triangles rest
  | _ => []

/-- The three directed edges of a triangle, in the order of its winding. -/
def directedEdges (t : ℤ × ℤ × ℤ) : List (ℤ × ℤ) :=
  [(t.1, t.2.1), (t.2.1, t.2.2), (t.2.2, t.1)]

/-- The directed edge `k` (0 to 5) of the two triangles that the element loop of
the sphere stores, without texture coordinates, for slice `i` and stack `j`:
edges 0 to 2 are those of `(leftIdxOld, rightIdxOld, leftIdxNew)`, edges 3 to 5
those of `(leftIdxNew, rightIdxOld, rightIdxNew)`. -/
def GlGeomSphere.loopEdge (g : GlGeomSphere) (x : (ℕ × ℕ) × ℕ) : ℤ × ℤ :=
  let i : ℤ := (x.1.1 : ℤ)
  let j : ℤ := (x.1.2 : ℤ)
  let leftIdxOld := (g.GetVertexNumber i j false).2
  let rightIdxOld := (g.GetVertexNumber (i + 1) (j + 1) false).2
  let leftIdxNew := (g.GetVertexNumber i (j + 1) false).2
  let rightIdxNew := (g.GetVertexNumber (i + 1) (j + 2) false).2
  match x.2 with
  | 0 => (leftIdxOld, rightIdxOld)
  | 1 => (rightIdxOld, leftIdxNew)
  | 2 => (leftIdxNew, leftIdxOld)
  | 3 => (leftIdxNew, rightIdxOld)
  | 4 => (rightIdxOld, rightIdxNew)
  | _ => (rightIdxNew, leftIdxNew)

/-! ## Auxiliary facts on lists and integer arithmetic -/

theorem length_flatMap_const {α β : Type} (l : List α) (f : α → List β) (c : ℕ)
    (h : ∀ a ∈ l, (f a).length = c) : (l.flatMap f).length = l.length * c := by
  induction l with
  | nil => simp
  | cons a l ih =>
    have h1 : (f a).length = c := h a (List.mem_cons_self a l)
    have h2 : (l.flatMap f).length = l.length * c :=
      ih (fun b hb => h b (List.mem_cons_of_mem a hb))
    simp only [List.flatMap_cons, List.length_append, List.length_cons, h1, h2]
    ring

theorem tmod_of_nonneg (a b : ℤ) (ha : 0 ≤ a) (hb : 0 < b) :
    0 ≤ Int.tmod a b ∧ Int.tmod a b < b ∧ Int.tmod a b = a % b := by
  rw [Int.tmod_eq_emod ha (le_of_lt hb)]
  exact ⟨Int.emod_nonneg a (ne_of_gt hb), Int.emod_lt_of_pos a hb, rfl⟩

theorem tmod_of_lt (a b : ℤ) (ha : 0 ≤ a) (hb : a < b) : Int.tmod a b = a := by
  rw [Int.tmod_eq_emod ha (by omega)]
  exact Int.emod_eq_of_lt ha hb

/-! ## Sphere: vertex numbering -/

namespace GlGeomSphere

theorem getVertexNumber_south (g : GlGeomSphere) (i : ℤ) (tex : Bool) :
    g.GetVertexNumber i 0 tex = (decide (i = 0), 0) := by
  simp [GetVertexNumber]

theorem getVertexNumber_north (g : GlGeomSphere) (i : ℤ) (tex : Bool)
    (hT : g.numStacks ≠ 0) :
    g.GetVertexNumber i g.numStacks tex = (decide (i = 0), 1) := by
  simp [GetVertexNumber, hT]

theorem getVertexNumber_inner (g : GlGeomSphere) (i j : ℤ) (tex : Bool)
    (h0 : j ≠ 0) (hT : j ≠ g.numStacks) :
    g.GetVertexNumber i j tex =
      (true, (g.numStacks - 1) * (if tex then i else Int.tmod i g.numSlices) + j + 1) := by
  simp [GetVertexNumber, h0, hT]

/-- Every vertex number of a slice `0 ≤ i ≤ numSlices` and a stack
`0 ≤ j ≤ numStacks` is a vertex of the chosen mode. -/
theorem getVertexNumber_bounds (g : GlGeomSphere) (hS : 3 ≤ g.numSlices)
    (hT : 3 ≤ g.numStacks) (tex : Bool) (i j : ℤ) (hi0 : 0 ≤ i) (hi : i ≤ g.numSlices)
    (hj0 : 0 ≤ j) (hj : j ≤ g.numStacks) :
    0 ≤ (g.GetVertexNumber i j tex).2 ∧ (g.GetVertexNumber i j tex).2 < g.numVertices tex := by
  have hN1 : 0 ≤ g.numSlices * (g.numStacks - 1) := by nlinarith
  by_cases h0 : j = 0
  · subst h0
    rw [getVertexNumber_south]
    cases tex <;>
      simp only [numVertices, GetNumVerticesTexCoords, GetNumVerticesNoTexCoords] <;>
      constructor <;> simp <;> nlinarith
  · by_cases h1 : j = g.numStacks
    · subst h1
      rw [getVertexNumber_north g i tex (by omega)]
      cases tex <;>
        simp only [numVertices, GetNumVerticesTexCoords, GetNumVerticesNoTexCoords] <;>
        constructor <;> simp <;> nlinarith
    · rw [getVertexNumber_inner g i j tex h0 h1]
      have hj1 : j ≤ g.numStacks - 1 := by omega
      cases tex
      · obtain ⟨hm0, hm1, _⟩ := tmod_of_nonneg i g.numSlices hi0 (by omega)
        simp only [numVertices, GetNumVerticesNoTexCoords, Bool.false_eq_true, if_false]
        constructor
        · nlinarith [mul_nonneg (show (0 : ℤ) ≤ g.numStacks - 1 by omega) hm0]
        · have : (g.numStacks - 1) * Int.tmod i g.numSlices ≤
              (g.numStacks - 1) * (g.numSlices - 1) :=
            mul_le_mul_of_nonneg_left (by omega) (by omega)
          nlinarith
      · simp only [numVertices, GetNumVerticesTexCoords, if_true]
        constructor
        · nlinarith [mul_nonneg (show (0 : ℤ) ≤ g.numStacks - 1 by omega) hi0]
        · have : (g.numStacks - 1) * i ≤ (g.numStacks - 1) * g.numSlices :=
            mul_le_mul_of_nonneg_left hi (by omega)
          nlinarith

/-- Whatever property the start values and every vertex number looked up by the
inner element loop have, every element it stores has. -/
theorem eboStacks_forall (g : GlGeomSphere) (tex : Bool) (i : ℤ) (P : ℤ → Prop)
    (js : List ℕ)
    (hjs : ∀ j ∈ js, P (g.GetVertexNumber i ((j : ℤ) + 1) tex).2 ∧
      P (g.GetVertexNumber (i + 1) ((j : ℤ) + 2) tex).2) :
    ∀ (l r : ℤ), P l → P r → ∀ x ∈ eboStacks g tex i js l r, P x := by
  induction js with
  | nil => intro l r _ _ x hx; simp [eboStacks] at hx
  | cons j js ih =>
    intro l r hl hr x hx
    have hj := hjs j (List.mem_cons_self j js)
    simp only [eboStacks, List.cons_append, List.nil_append, List.mem_cons] at hx
    rcases hx with rfl | rfl | rfl | rfl | rfl | rfl | hx
    · exact hl
    · exact hr
    · exact hj.1
    · exact hj.1
    · exact hr
    · exact hj.2
    · exact ih (fun k hk => hjs k (List.mem_cons_of_mem j hk)) _ _ hj.1 hj.2 x hx

theorem eboStacks_length (g : GlGeomSphere) (tex : Bool) (i : ℤ) (js : List ℕ) :
    ∀ (l r : ℤ), (eboStacks g tex i js l r).length = 6 * js.length := by
  induction js with
  | nil => intro l r; simp [eboStacks]
  | cons j js ih =>
    intro l r
    simp only [eboStacks, List.cons_append, List.nil_append, List.length_cons, ih]
    omega


theorem sphere_calcEbo_bounds (g : GlGeomSphere) (hS : 3 ≤ g.numSlices) (hT : 3 ≤ g.numStacks)
    (tex : Bool) : ∀ x ∈ g.CalcEbo tex, 0 ≤ x ∧ x < g.numVertices tex := by
  intro x hx
  simp only [CalcEbo, List.mem_flatMap, List.mem_range] at hx
  obtain ⟨i, hi, hx⟩ := hx
  have hi1 : (i : ℤ) < g.numSlices := by omega
  refine eboStacks_forall g tex (i : ℤ) (fun v => 0 ≤ v ∧ v < g.numVertices tex)
    (List.range (g.numStacks - 1).toNat) ?_ _ _ ?_ ?_ x hx
  · intro j hj
    have hj1 : (j : ℤ) < g.numStacks - 1 := by
      have := List.mem_range.1 hj
      omega
    exact ⟨getVertexNumber_bounds g hS hT tex _ _ (by omega) (by omega) (by omega) (by omega),
      getVertexNumber_bounds g hS hT tex _ _ (by omega) (by omega) (by omega) (by omega)⟩
  · exact getVertexNumber_bounds g hS hT tex _ _ (by omega) (by omega) (by omega) (by omega)
  · exact getVertexNumber_bounds g hS hT tex _ _ (by omega) (by omega) (by omega) (by omega)

theorem sphere_calcEbo_length (g : GlGeomSphere) (tex : Bool) :
    (g.CalcEbo tex).length = g.numSlices.toNat * (6 * (g.numStacks - 1).toNat) := by
  unfold CalcEbo
  rw [length_flatMap_const _ _ (6 * (g.numStacks - 1).toNat), List.length_range]
  intro i _
  rw [eboStacks_length, List.length_range]

end GlGeomSphere

/-! ## Sphere: the claims -/

/-- C1: for a sphere with at least 3 slices and 3 stacks, every index that
`CalcVboAndEbo` stores in the element buffer is nonnegative and below the vertex
count of the chosen mode: below `GetNumVerticesNoTexCoords() = S*(T-1)+2` when
the texture-coordinate offset is negative, below
`GetNumVerticesTexCoords() = (S+1)*(T-1)+2` when it is not. -/
theorem sphere_element_indices_below_vertex_count (g : GlGeomSphere)
    (hS : 3 ≤ g.numSlices) (hT : 3 ≤ g.numStacks)
    (vertPosOffset vertNormalOffset vertTexCoordsOffset stride : ℤ) :
    g.GetNumVerticesNoTexCoords = g.numSlices * (g.numStacks - 1) + 2 ∧
    g.GetNumVerticesTexCoords = (g.numSlices + 1) * (g.numStacks - 1) + 2 ∧
    ∀ x ∈ (g.CalcVboAndEbo vertPosOffset vertNormalOffset vertTexCoordsOffset stride).2,
      0 ≤ x ∧
      (vertTexCoordsOffset < 0 → x < g.GetNumVerticesNoTexCoords) ∧
      (0 ≤ vertTexCoordsOffset → x < g.GetNumVerticesTexCoords) := by
  refine ⟨rfl, rfl, ?_⟩
  intro x hx
  have h := GlGeomSphere.sphere_calcEbo_bounds g hS hT _ x hx
  refine ⟨h.1, ?_, ?_⟩
  · intro hneg
    have h2 := h.2
    simp only [GlGeomSphere.numVertices, decide_eq_true_eq, not_le.2 hneg, if_false] at h2
    exact h2
  · intro hpos
    have h2 := h.2
    simp only [GlGeomSphere.numVertices, decide_eq_true_eq, hpos, if_true] at h2
    exact h2

theorem sphere_element_indices_below_vertex_count_witness :
    (3 : ℤ) ≤ (mkSphere 3 4).numSlices ∧ (3 : ℤ) ≤ (mkSphere 3 4).numStacks ∧
    ∀ x ∈ ((mkSphere 3 4).CalcVboAndEbo 0 (-1) 3 5).2,
      0 ≤ x ∧
      ((3 : ℤ) < 0 → x < (mkSphere 3 4).GetNumVerticesNoTexCoords) ∧
      ((0 : ℤ) ≤ 3 → x < (mkSphere 3 4).GetNumVerticesTexCoords) :=
  ⟨by decide, by decide,
    (sphere_element_indices_below_vertex_count (mkSphere 3 4) (by decide) (by decide)
      0 (-1) 3 5).2.2⟩

/-- C2: for a sphere with at least 3 slices and 3 stacks, with or without texture
coordinates, the number of indices `CalcVboAndEbo` stores in the element buffer
is exactly `GetNumElements() = 6*S*(T-1)`, which is what the closing assertion
of `CalcVboAndEbo` compares. -/
theorem sphere_element_count_exact (g : GlGeomSphere)
    (hS : 3 ≤ g.numSlices) (hT : 3 ≤ g.numStacks)
    (vertPosOffset vertNormalOffset vertTexCoordsOffset stride : ℤ) :
    (((g.CalcVboAndEbo vertPosOffset vertNormalOffset vertTexCoordsOffset stride).2.length : ℕ) : ℤ)
        = g.GetNumElements ∧
    g.GetNumElements = 6 * g.numSlices * (g.numStacks - 1) := by
  refine ⟨?_, rfl⟩
  simp only [GlGeomSphere.CalcVboAndEbo, GlGeomSphere.sphere_calcEbo_length,
    GlGeomSphere.GetNumElements]
  have h1 : ((g.numSlices.toNat : ℕ) : ℤ) = g.numSlices := Int.toNat_of_nonneg (by omega)
  have h2 : (((g.numStacks - 1).toNat : ℕ) : ℤ) = g.numStacks - 1 :=
    Int.toNat_of_nonneg (by omega)
  push_cast
  rw [h1, h2]
  ring

theorem sphere_element_count_exact_witness :
    (3 : ℤ) ≤ (mkSphere 5 4).numSlices ∧ (3 : ℤ) ≤ (mkSphere 5 4).numStacks ∧
    ((((mkSphere 5 4).CalcVboAndEbo 0 3 6 8).2.length : ℕ) : ℤ)
        = (mkSphere 5 4).GetNumElements ∧
    (mkSphere 5 4).GetNumElements = 6 * (mkSphere 5 4).numSlices * ((mkSphere 5 4).numStacks - 1) :=
  ⟨by decide, by decide,
    sphere_element_count_exact (mkSphere 5 4) (by decide) (by decide) 0 3 6 8⟩

theorem rowMajor_injective (T i j i' j' : ℤ) (hj : 1 ≤ j) (hjT : j ≤ T - 1)
    (hj' : 1 ≤ j') (hjT' : j' ≤ T - 1)
    (h : (T - 1) * i + j + 1 = (T - 1) * i' + j' + 1) : i = i' ∧ j = j' := by
  have hT : 0 < T - 1 := by omega
  rcases lt_trichotomy i i' with hlt | heq | hgt
  · exfalso
    have : (T - 1) * (i + 1) ≤ (T - 1) * i' := mul_le_mul_of_nonneg_left (by omega) (le_of_lt hT)
    nlinarith
  · subst heq
    exact ⟨rfl, by omega⟩
  · exfalso
    have : (T - 1) * (i' + 1) ≤ (T - 1) * i := mul_le_mul_of_nonneg_left (by omega) (le_of_lt hT)
    nlinarith

theorem rowMajor_surjective (T C n : ℤ) (hT : 0 < T - 1) (hn : 2 ≤ n)
    (hN : n < C * (T - 1) + 2) :
    ∃ i j, 0 ≤ i ∧ i < C ∧ 1 ≤ j ∧ j ≤ T - 1 ∧ (T - 1) * i + j + 1 = n := by
  refine ⟨(n - 2) / (T - 1), (n - 2) % (T - 1) + 1, ?_, ?_, ?_, ?_, ?_⟩
  · exact Int.ediv_nonneg (by omega) (le_of_lt hT)
  · exact Int.ediv_lt_of_lt_mul hT (by omega)
  · have := Int.emod_nonneg (n - 2) (ne_of_gt hT)
    omega
  · have := Int.emod_lt_of_pos (n - 2) hT
    omega
  · have := Int.ediv_add_emod (n - 2) (T - 1)
    omega

/-- C3: for a sphere with at least 3 slices and 3 stacks, `GetVertexNumber(i, j, tex)`
with `0 ≤ i ≤ S` and `0 ≤ j ≤ T` yields 0 exactly when `j = 0`, 1 exactly when
`j = T`, and otherwise the row-major number `(T-1)*ii + j + 1 ≥ 2` (`ii = i mod S`
without texture coordinates, `ii = i` with them); the numbering is a bijection
from the two poles and the grid positions onto `{0, ..., N-1}`, `N` the vertex
count of the mode. -/
theorem sphere_vertex_numbering_bijective (g : GlGeomSphere)
    (hS : 3 ≤ g.numSlices) (hT : 3 ≤ g.numStacks) (tex : Bool) :
    (∀ i j : ℤ, 0 ≤ i → i ≤ g.numSlices → 0 ≤ j → j ≤ g.numStacks →
      ((g.GetVertexNumber i j tex).2 = 0 ↔ j = 0) ∧
      ((g.GetVertexNumber i j tex).2 = 1 ↔ j = g.numStacks) ∧
      (j ≠ 0 → j ≠ g.numStacks →
        (g.GetVertexNumber i j tex).2
          = (g.numStacks - 1) * (if tex then i else i % g.numSlices) + j + 1 ∧
        2 ≤ (g.GetVertexNumber i j tex).2)) ∧
    Set.BijOn (fun p : ℤ × ℤ => (g.GetVertexNumber p.1 p.2 tex).2) (sphereGrid g tex)
      (Set.Ico 0 (if tex then g.GetNumVerticesTexCoords else g.GetNumVerticesNoTexCoords)) ∧
    g.GetNumVerticesNoTexCoords = g.numSlices * (g.numStacks - 1) + 2 ∧
    g.GetNumVerticesTexCoords = (g.numSlices + 1) * (g.numStacks - 1) + 2 := by
  have hT1 : (0 : ℤ) < g.numStacks - 1 := by omega
  -- the value on an inner stack
  have inner : ∀ i j : ℤ, 0 ≤ i → i ≤ g.numSlices → j ≠ 0 → j ≠ g.numStacks → 0 ≤ j →
      (g.GetVertexNumber i j tex).2
          = (g.numStacks - 1) * (if tex then i else i % g.numSlices) + j + 1 ∧
        2 ≤ (g.GetVertexNumber i j tex).2 := by
    intro i j hi0 hi h0 h1 hj0
    rw [GlGeomSphere.getVertexNumber_inner g i j tex h0 h1]
    obtain ⟨hm0, _, hm⟩ := tmod_of_nonneg i g.numSlices hi0 (by omega)
    cases tex
    · simp only [Bool.false_eq_true, if_false]
      refine ⟨by rw [hm], ?_⟩
      have := mul_nonneg (le_of_lt hT1) hm0
      omega
    · simp only [if_true]
      refine ⟨trivial, ?_⟩
      have := mul_nonneg (le_of_lt hT1) hi0
      omega
  -- the value on a grid position
  have grid : ∀ i j : ℤ, 0 ≤ i → i < (if tex then g.numSlices + 1 else g.numSlices) →
      1 ≤ j → j ≤ g.numStacks - 1 →
      (g.GetVertexNumber i j tex).2 = (g.numStacks - 1) * i + j + 1 := by
    intro i j hi0 hi hj1 hjT
    rw [GlGeomSphere.getVertexNumber_inner g i j tex (by omega) (by omega)]
    cases tex
    · simp only [Bool.false_eq_true, if_false] at hi ⊢
      rw [tmod_of_lt i g.numSlices hi0 hi]
    · simp only [if_true]
  refine ⟨?_, ⟨?_, ?_, ?_⟩, rfl, rfl⟩
  · intro i j hi0 hi hj0 hj
    by_cases h0 : j = 0
    · subst h0
      rw [GlGeomSphere.getVertexNumber_south]
      refine ⟨by simp, ?_, fun h => absurd rfl h⟩
      constructor
      · intro h; simp at h
      · intro h; omega
    · by_cases h1 : j = g.numStacks
      · subst h1
        rw [GlGeomSphere.getVertexNumber_north g i tex (by omega)]
        refine ⟨?_, by simp, fun _ h => absurd rfl h⟩
        constructor
        · intro h; simp at h
        · intro h; omega
      · obtain ⟨hv, h2⟩ := inner i j hi0 hi h0 h1 hj0
        refine ⟨?_, ?_, fun _ _ => ⟨hv, h2⟩⟩
        · constructor
          · intro h; omega
          · intro h; exact absurd h h0
        · constructor
          · intro h; omega
          · intro h; exact absurd h h1
  · -- the numbering maps the positions into the vertex range
    rintro ⟨i, j⟩ hp
    have hb : 0 ≤ (g.GetVertexNumber i j tex).2 ∧
        (g.GetVertexNumber i j tex).2 < g.numVertices tex := by
      rcases hp with ⟨hi, hj⟩ | ⟨hi0, hi, hj1, hjT⟩
      · simp only at hi hj
        exact GlGeomSphere.getVertexNumber_bounds g hS hT tex i j (by omega) (by omega)
          (by omega) (by omega)
      · simp only at hi0 hi hj1 hjT
        refine GlGeomSphere.getVertexNumber_bounds g hS hT tex i j hi0 ?_ (by omega) (by omega)
        cases tex
        · simp only [Bool.false_eq_true, if_false] at hi; omega
        · simp only [if_true] at hi; omega
    exact ⟨hb.1, hb.2⟩
  · -- no two positions share a number
    rintro ⟨i, j⟩ hp ⟨i', j'⟩ hq h
    simp only at h
    rcases hp with ⟨hi, hj⟩ | ⟨hi0, hi, hj1, hjT⟩ <;>
      rcases hq with ⟨hi', hj'⟩ | ⟨hi0', hi', hj1', hjT'⟩
    · simp only at hi hj hi' hj'
      subst hi hi'
      rcases hj with rfl | rfl <;> rcases hj' with rfl | rfl
      · rfl
      · rw [GlGeomSphere.getVertexNumber_south,
          GlGeomSphere.getVertexNumber_north g 0 tex (by omega)] at h
        simp at h
      · rw [GlGeomSphere.getVertexNumber_south,
          GlGeomSphere.getVertexNumber_north g 0 tex (by omega)] at h
        simp at h
      · rfl
    · simp only at hi hj hi0' hi' hj1' hjT'
      exfalso
      have h2 := grid i' j' hi0' hi' hj1' hjT'
      have h3 := mul_nonneg (le_of_lt hT1) hi0'
      rcases hj with rfl | rfl
      · rw [GlGeomSphere.getVertexNumber_south] at h
        simp only at h
        omega
      · rw [GlGeomSphere.getVertexNumber_north g i tex (by omega)] at h
        simp only at h
        omega
    · simp only at hi' hj' hi0 hi hj1 hjT
      exfalso
      have h2 := grid i j hi0 hi hj1 hjT
      have h3 := mul_nonneg (le_of_lt hT1) hi0
      rcases hj' with rfl | rfl
      · rw [GlGeomSphere.getVertexNumber_south] at h
        simp only at h
        omega
      · rw [GlGeomSphere.getVertexNumber_north g i' tex (by omega)] at h
        simp only at h
        omega
    · simp only at hi0 hi hj1 hjT hi0' hi' hj1' hjT'
      rw [grid i j hi0 hi hj1 hjT, grid i' j' hi0' hi' hj1' hjT'] at h
      obtain ⟨e1, e2⟩ := rowMajor_injective g.numStacks i j i' j' hj1 hjT hj1' hjT' h
      rw [e1, e2]
  · -- every vertex number is taken
    intro n hn
    obtain ⟨hn0, hnN⟩ := hn
    by_cases h0 : n = 0
    · refine ⟨(0, 0), by simp [sphereGrid], ?_⟩
      simp only [GlGeomSphere.getVertexNumber_south, h0]
    · by_cases h1 : n = 1
      · refine ⟨(0, g.numStacks), by simp [sphereGrid], ?_⟩
        simp only [GlGeomSphere.getVertexNumber_north g 0 tex (by omega), h1]
      · have hN : n < (if tex then g.numSlices + 1 else g.numSlices) * (g.numStacks - 1) + 2 := by
          cases tex
          · simpa [GlGeomSphere.GetNumVerticesNoTexCoords] using hnN
          · simpa [GlGeomSphere.GetNumVerticesTexCoords] using hnN
        obtain ⟨i, j, hi0, hi, hj1, hjT, hv⟩ :=
          rowMajor_surjective g.numStacks _ n hT1 (by omega) hN
        refine ⟨(i, j), by simp only [sphereGrid, Set.mem_setOf_eq]; exact Or.inr ⟨hi0, hi, hj1, hjT⟩, ?_⟩
        simp only
        rw [grid i j hi0 hi hj1 hjT, hv]

theorem sphere_vertex_numbering_bijective_witness :
    (3 : ℤ) ≤ (mkSphere 4 3).numSlices ∧ (3 : ℤ) ≤ (mkSphere 4 3).numStacks ∧
    Set.BijOn (fun p : ℤ × ℤ => ((mkSphere 4 3).GetVertexNumber p.1 p.2 true).2)
      (sphereGrid (mkSphere 4 3) true)
      (Set.Ico 0 (if true = true then (mkSphere 4 3).GetNumVerticesTexCoords
        else (mkSphere 4 3).GetNumVerticesNoTexCoords)) :=
  ⟨by decide, by decide,
    (sphere_vertex_numbering_bijective (mkSphere 4 3) (by decide) (by decide) true).2.1⟩

/-- C4, as stated, fails: with texture coordinates requested, slice 0 and slice 1
of stack 0 on the 3 by 3 sphere both get vertex index 0, so the two are not
distinct. -/
theorem sphere_pole_index_shared_with_texcoords :
    ¬ (((mkSphere 3 3).GetVertexNumber 0 0 false).2 = ((mkSphere 3 3).GetVertexNumber 1 0 false).2 ∧
       ((mkSphere 3 3).GetVertexNumber 0 0 true).2 ≠ ((mkSphere 3 3).GetVertexNumber 1 0 true).2) := by
  decide

/-- C4, amended: for a sphere with at least 3 slices and 3 stacks and every slice
`0 < i < S`, the numbering gives (slice 0, stack 0) and (slice i, stack 0) the
same vertex index, 0, both without and with texture coordinates; the returned
flag is true on slice 0 and false on slice i, which marks the latter a duplicate
of the pole. -/
theorem sphere_pole_index_same_in_both_modes (g : GlGeomSphere)
    (hS : 3 ≤ g.numSlices) (hT : 3 ≤ g.numStacks) (i : ℤ) (hi0 : 0 < i)
    (hi : i < g.numSlices) (tex : Bool) :
    (g.GetVertexNumber 0 0 tex).2 = (g.GetVertexNumber i 0 tex).2 ∧
    (g.GetVertexNumber i 0 tex).2 = 0 ∧
    (g.GetVertexNumber 0 0 tex).1 = true ∧
    (g.GetVertexNumber i 0 tex).1 = false := by
  have hne : i ≠ 0 := by omega
  simp [GlGeomSphere.getVertexNumber_south, hne]

theorem sphere_pole_index_same_in_both_modes_witness :
    (3 : ℤ) ≤ (mkSphere 3 3).numSlices ∧ (3 : ℤ) ≤ (mkSphere 3 3).numStacks ∧
    (0 : ℤ) < 2 ∧ (2 : ℤ) < (mkSphere 3 3).numSlices ∧
    ((mkSphere 3 3).GetVertexNumber 0 0 true).2 = ((mkSphere 3 3).GetVertexNumber 2 0 true).2 ∧
    ((mkSphere 3 3).GetVertexNumber 2 0 true).2 = 0 ∧
    ((mkSphere 3 3).GetVertexNumber 0 0 true).1 = true ∧
    ((mkSphere 3 3).GetVertexNumber 2 0 true).1 = false :=
  ⟨by decide, by decide, by decide, by decide,
    sphere_pole_index_same_in_both_modes (mkSphere 3 3) (by decide) (by decide) 2
      (by decide) (by decide) true⟩

/-! ## Remesh -/

/-- C9: on every sphere state and every cylinder state, `Remesh` called with the
resolution that is already current returns the state unchanged; in particular
the `VboEboLoaded` flag of the cylinder keeps its value, and `loadedSlices` and
`loadedStacks` of the sphere still match `numSlices` and `numStacks` when they
did before. -/
theorem remesh_with_current_resolution_changes_nothing (s : GlGeomSphere)
    (c : GlGeomCylinder) :
    s.Remesh s.numSlices s.numStacks = s ∧
    c.Remesh c.numSlices c.numStacks c.numRings = c ∧
    (c.Remesh c.numSlices c.numStacks c.numRings).VboEboLoaded = c.VboEboLoaded ∧
    ((s.loadedSlices = s.numSlices ∧ s.loadedStacks = s.numStacks) →
      (s.Remesh s.numSlices s.numStacks).loadedSlices
          = (s.Remesh s.numSlices s.numStacks).numSlices ∧
      (s.Remesh s.numSlices s.numStacks).loadedStacks
          = (s.Remesh s.numSlices s.numStacks).numStacks) := by
  have hs : s.Remesh s.numSlices s.numStacks = s := by simp [GlGeomSphere.Remesh]
  have hc : c.Remesh c.numSlices c.numStacks c.numRings = c := by
    simp [GlGeomCylinder.Remesh]
  refine ⟨hs, hc, by rw [hc], ?_⟩
  rw [hs]
  exact id

theorem remesh_with_current_resolution_changes_nothing_witness :
    ({ mkSphere 6 6 with loadedSlices := 6, loadedStacks := 6 } : GlGeomSphere).Remesh 6 6
      = { mkSphere 6 6 with loadedSlices := 6, loadedStacks := 6 } ∧
    ({ mkCylinder 8 2 3 with VboEboLoaded := true } : GlGeomCylinder).Remesh 8 2 3
      = { mkCylinder 8 2 3 with VboEboLoaded := true } :=
  ⟨(remesh_with_current_resolution_changes_nothing
      { mkSphere 6 6 with loadedSlices := 6, loadedStacks := 6 }
      { mkCylinder 8 2 3 with VboEboLoaded := true }).1,
   (remesh_with_current_resolution_changes_nothing
      { mkSphere 6 6 with loadedSlices := 6, loadedStacks := 6 }
      { mkCylinder 8 2 3 with VboEboLoaded := true }).2.1⟩

/-- C10: when the requested resolution differs from the current one, `Remesh`
stores it clamped component by component, `ClampRange(x, lo, hi)` being
`min(max(x, lo), hi)`: the sphere ends with `numSlices = clamp(slices, 3, 255)`
and `numStacks = clamp(stacks, 3, 255)`; the cylinder ends with
`numSlices = clamp(slices, 3, 255)`, `numStacks = clamp(stacks, 1, 255)`,
`numRings = clamp(rings, 1, 255)` and `VboEboLoaded = false`. -/
theorem remesh_stores_clamped_resolution (s : GlGeomSphere) (c : GlGeomCylinder)
    (nSlices nStacks nRings : ℤ)
    (hs : ¬ (nSlices = s.numSlices ∧ nStacks = s.numStacks))
    (hc : ¬ (nSlices = c.numSlices ∧ nStacks = c.numStacks ∧ nRings = c.numRings)) :
    ((s.Remesh nSlices nStacks).numSlices = min (max nSlices 3) 255 ∧
     (s.Remesh nSlices nStacks).numStacks = min (max nStacks 3) 255) ∧
    ((c.Remesh nSlices nStacks nRings).numSlices = min (max nSlices 3) 255 ∧
     (c.Remesh nSlices nStacks nRings).numStacks = min (max nStacks 1) 255 ∧
     (c.Remesh nSlices nStacks nRings).numRings = min (max nRings 1) 255 ∧
     (c.Remesh nSlices nStacks nRings).VboEboLoaded = false) := by
  constructor
  · simp only [GlGeomSphere.Remesh, if_neg hs, ClampRange, and_self]
  · simp only [GlGeomCylinder.Remesh, if_neg hc, ClampRange, and_self]

theorem remesh_stores_clamped_resolution_witness :
    ¬ ((1000 : ℤ) = (mkSphere 6 6).numSlices ∧ (0 : ℤ) = (mkSphere 6 6).numStacks) ∧
    ¬ ((1000 : ℤ) = ({ mkCylinder 8 2 3 with VboEboLoaded := true } : GlGeomCylinder).numSlices ∧
        (0 : ℤ) = ({ mkCylinder 8 2 3 with VboEboLoaded := true } : GlGeomCylinder).numStacks ∧
        (-5 : ℤ) = ({ mkCylinder 8 2 3 with VboEboLoaded := true } : GlGeomCylinder).numRings) ∧
    (((mkSphere 6 6).Remesh 1000 0).numSlices = min (max 1000 3) 255 ∧
     ((mkSphere 6 6).Remesh 1000 0).numStacks = min (max 0 3) 255) ∧
    ((({ mkCylinder 8 2 3 with VboEboLoaded := true } : GlGeomCylinder).Remesh 1000 0 (-5)).numSlices
        = min (max 1000 3) 255 ∧
     (({ mkCylinder 8 2 3 with VboEboLoaded := true } : GlGeomCylinder).Remesh 1000 0 (-5)).numStacks
        = min (max 0 1) 255 ∧
     (({ mkCylinder 8 2 3 with VboEboLoaded := true } : GlGeomCylinder).Remesh 1000 0 (-5)).numRings
        = min (max (-5) 1) 255 ∧
     (({ mkCylinder 8 2 3 with VboEboLoaded := true } : GlGeomCylinder).Remesh 1000 0 (-5)).VboEboLoaded
        = false) :=
  ⟨by decide, by decide,
    remesh_stores_clamped_resolution (mkSphere 6 6)
      { mkCylinder 8 2 3 with VboEboLoaded := true } 1000 0 (-5) (by decide) (by decide)⟩

/-! ## Cylinder: the element buffer -/

namespace GlGeomCylinder

theorem eboBottom_length (g : GlGeomCylinder) :
    g.eboBottom.length = g.numSlices.toNat * (3 + (g.numRings - 1).toNat * 6) := by
  unfold eboBottom
  rw [length_flatMap_const _ _ (3 + (g.numRings - 1).toNat * 6), List.length_range]
  intro i _
  simp only [List.length_append, List.length_cons, List.length_nil]
  rw [length_flatMap_const _ _ 6, List.length_range]
  intro j _
  rfl

theorem eboTop_length (g : GlGeomCylinder) :
    g.eboTop.length = g.numSlices.toNat * (3 + (g.numRings - 1).toNat * 6) := by
  unfold eboTop
  rw [length_flatMap_const _ _ (3 + (g.numRings - 1).toNat * 6), List.length_range]
  intro i _
  simp only [List.length_append, List.length_cons, List.length_nil]
  rw [length_flatMap_const _ _ 6, List.length_range]
  intro j _
  rfl

theorem eboSide_length (g : GlGeomCylinder) (tex : Bool) :
    (g.eboSide tex).length = g.numSlices.toNat * (g.numStacks.toNat * 6) := by
  unfold eboSide
  rw [length_flatMap_const _ _ (g.numStacks.toNat * 6), List.length_range]
  intro i _
  rw [length_flatMap_const _ _ 6, List.length_range]
  intro j _
  rfl

/-- The length of each disk block of the element buffer is `GetNumElementsDisk()`. -/
theorem disk_block_length (g : GlGeomCylinder) (hS : 3 ≤ g.numSlices) (hR : 1 ≤ g.numRings) :
    g.numSlices.toNat * (3 + (g.numRings - 1).toNat * 6) = g.GetNumElementsDisk.toNat := by
  have h1 : ((g.numSlices.toNat : ℕ) : ℤ) = g.numSlices := Int.toNat_of_nonneg (by omega)
  have h2 : (((g.numRings - 1).toNat : ℕ) : ℤ) = g.numRings - 1 :=
    Int.toNat_of_nonneg (by omega)
  have h3 : 0 ≤ g.GetNumElementsDisk := by
    unfold GetNumElementsDisk
    exact mul_nonneg (by omega) (by omega)
  have h4 : ((g.GetNumElementsDisk.toNat : ℕ) : ℤ) = g.GetNumElementsDisk :=
    Int.toNat_of_nonneg h3
  have h5 : ((g.numSlices.toNat * (3 + (g.numRings - 1).toNat * 6) : ℕ) : ℤ)
      = ((g.GetNumElementsDisk.toNat : ℕ) : ℤ) := by
    push_cast
    rw [h1, h2, h4]
    unfold GetNumElementsDisk
    ring
  exact_mod_cast h5

theorem eboBottom_bounds (g : GlGeomCylinder) (hS : 3 ≤ g.numSlices) (hR : 1 ≤ g.numRings) :
    ∀ x ∈ g.eboBottom, 0 ≤ x ∧ x < g.GetNumVerticesDisk := by
  intro x hx
  simp only [eboBottom, List.mem_flatMap, List.mem_range, List.mem_append, List.mem_cons,
    List.mem_singleton, List.not_mem_nil, or_false] at hx
  obtain ⟨i, hi, hx⟩ := hx
  have hi1 : (i : ℤ) + 1 ≤ g.numSlices := by omega
  obtain ⟨hm0, hm1, _⟩ := tmod_of_nonneg ((i : ℤ) + 1) g.numSlices (by omega) (by omega)
  have h1 : (i : ℤ) * g.numRings ≤ (g.numSlices - 1) * g.numRings :=
    mul_le_mul_of_nonneg_right (by omega) (by omega)
  have h2 : Int.tmod ((i : ℤ) + 1) g.numSlices * g.numRings ≤ (g.numSlices - 1) * g.numRings :=
    mul_le_mul_of_nonneg_right (by omega) (by omega)
  have h3 : 0 ≤ (i : ℤ) * g.numRings := mul_nonneg (by omega) (by omega)
  have h4 : 0 ≤ Int.tmod ((i : ℤ) + 1) g.numSlices * g.numRings := mul_nonneg hm0 (by omega)
  unfold GetNumVerticesDisk
  rcases hx with (rfl | rfl | rfl) | ⟨j, hj, hx⟩
  · constructor <;> nlinarith
  · constructor <;> linarith
  · constructor <;> linarith
  · have hj1 : (j : ℤ) + 1 ≤ g.numRings - 1 := by omega
    have hj0 : (0 : ℤ) ≤ j := by omega
    rcases hx with rfl | rfl | rfl | rfl | rfl | rfl <;> constructor <;> linarith

theorem eboTop_bounds (g : GlGeomCylinder) (hS : 3 ≤ g.numSlices) (hR : 1 ≤ g.numRings) :
    ∀ x ∈ g.eboTop, g.GetNumVerticesDisk ≤ x ∧ x < 2 * g.GetNumVerticesDisk := by
  intro x hx
  simp only [eboTop, List.mem_flatMap, List.mem_range, List.mem_append, List.mem_cons,
    List.mem_singleton, List.not_mem_nil, or_false] at hx
  obtain ⟨i, hi, hx⟩ := hx
  have hi1 : (i : ℤ) + 1 ≤ g.numSlices := by omega
  obtain ⟨hm0, hm1, _⟩ := tmod_of_nonneg ((i : ℤ) + 1) g.numSlices (by omega) (by omega)
  have h1 : (i : ℤ) * g.numRings ≤ (g.numSlices - 1) * g.numRings :=
    mul_le_mul_of_nonneg_right (by omega) (by omega)
  have h2 : Int.tmod ((i : ℤ) + 1) g.numSlices * g.numRings ≤ (g.numSlices - 1) * g.numRings :=
    mul_le_mul_of_nonneg_right (by omega) (by omega)
  have h3 : 0 ≤ (i : ℤ) * g.numRings := mul_nonneg (by omega) (by omega)
  have h4 : 0 ≤ Int.tmod ((i : ℤ) + 1) g.numSlices * g.numRings := mul_nonneg hm0 (by omega)
  have h5 : 0 ≤ g.numRings * g.numSlices := mul_nonneg (by omega) (by omega)
  simp only [GetNumVerticesDisk] at hx ⊢
  rcases hx with (rfl | rfl | rfl) | ⟨j, hj, hx⟩
  · constructor <;> linarith
  · constructor <;> linarith
  · constructor <;> linarith
  · have hj1 : (j : ℤ) + 1 ≤ g.numRings - 1 := by omega
    have hj0 : (0 : ℤ) ≤ j := by omega
    rcases hx with rfl | rfl | rfl | rfl | rfl | rfl <;> constructor <;> linarith

theorem eboSide_bounds (g : GlGeomCylinder) (hS : 3 ≤ g.numSlices) (hK : 1 ≤ g.numStacks)
    (tex : Bool) :
    ∀ x ∈ g.eboSide tex, 2 * g.GetNumVerticesDisk ≤ x ∧
      x < 2 * g.GetNumVerticesDisk + g.numVerticesSide tex := by
  intro x hx
  simp only [eboSide, List.mem_flatMap, List.mem_range, List.mem_cons,
    List.mem_singleton, List.not_mem_nil, or_false] at hx
  obtain ⟨i, hi, j, hj, hx⟩ := hx
  have hi1 : (i : ℤ) + 1 ≤ g.numSlices := by omega
  have hj1 : (j : ℤ) + 1 ≤ g.numStacks := by omega
  have hj0 : (0 : ℤ) ≤ j := by omega
  obtain ⟨hm0, hm1, _⟩ := tmod_of_nonneg ((i : ℤ) + 1) g.numSlices (by omega) (by omega)
  have h1 : (i : ℤ) * (g.numStacks + 1) ≤ (g.numSlices - 1) * (g.numStacks + 1) :=
    mul_le_mul_of_nonneg_right (by omega) (by omega)
  have h3 : 0 ≤ (i : ℤ) * (g.numStacks + 1) := mul_nonneg (by omega) (by omega)
  simp only [GetNumVerticesDisk] at hx ⊢
  cases tex
  · have h2 : Int.tmod ((i : ℤ) + 1) g.numSlices * (g.numStacks + 1)
        ≤ (g.numSlices - 1) * (g.numStacks + 1) :=
      mul_le_mul_of_nonneg_right (by omega) (by omega)
    have h4 : 0 ≤ Int.tmod ((i : ℤ) + 1) g.numSlices * (g.numStacks + 1) :=
      mul_nonneg hm0 (by omega)
    simp only [Bool.false_eq_true, if_false] at hx
    simp only [numVerticesSide, GetNumVerticesSideNoTexCoords, Bool.false_eq_true, if_false]
    rcases hx with rfl | rfl | rfl | rfl | rfl | rfl <;> constructor <;> linarith
  · have h2 : ((i : ℤ) + 1) * (g.numStacks + 1) ≤ g.numSlices * (g.numStacks + 1) :=
      mul_le_mul_of_nonneg_right (by omega) (by omega)
    have h4 : 0 ≤ ((i : ℤ) + 1) * (g.numStacks + 1) := mul_nonneg (by omega) (by omega)
    simp only [if_true] at hx
    simp only [numVerticesSide, GetNumVerticesSideTexCoords, if_true]
    rcases hx with rfl | rfl | rfl | rfl | rfl | rfl <;> constructor <;> linarith

end GlGeomCylinder

theorem split_three_blocks {α : Type} (a b c : List α) (n : ℕ) (ha : a.length = n)
    (hb : b.length = n) :
    List.take n (a ++ b ++ c) = a ∧ List.take n (List.drop n (a ++ b ++ c)) = b ∧
      List.drop (2 * n) (a ++ b ++ c) = c := by
  subst ha
  refine ⟨?_, ?_, ?_⟩
  · rw [List.append_assoc, List.take_left]
  · rw [List.append_assoc, List.drop_left, ← hb, List.take_left]
  · have h : 2 * a.length = (a ++ b).length := by
      rw [List.length_append, hb]; omega
    rw [h, List.drop_left]

namespace GlGeomCylinder

theorem side_block_length (g : GlGeomCylinder) (hS : 3 ≤ g.numSlices) (hK : 1 ≤ g.numStacks) :
    ((g.numSlices.toNat * (g.numStacks.toNat * 6) : ℕ) : ℤ) = g.GetNumElementsSide := by
  have h1 : ((g.numSlices.toNat : ℕ) : ℤ) = g.numSlices := Int.toNat_of_nonneg (by omega)
  have h2 : ((g.numStacks.toNat : ℕ) : ℤ) = g.numStacks := Int.toNat_of_nonneg (by omega)
  push_cast
  rw [h1, h2]
  unfold GetNumElementsSide
  ring

theorem numElementsDisk_nonneg (g : GlGeomCylinder) (hS : 3 ≤ g.numSlices)
    (hR : 1 ≤ g.numRings) : 0 ≤ g.GetNumElementsDisk := by
  unfold GetNumElementsDisk
  exact mul_nonneg (by omega) (by omega)

end GlGeomCylinder

/-! ## Cylinder: the claims on the element buffer -/

/-- C5: for a cylinder with `S ≥ 3` slices, `K ≥ 1` stacks and `R ≥ 1` rings, with
`D = GetNumVerticesDisk() = 1 + R*S`: every index among the first
`GetNumElementsDisk()` entries of the element buffer lies in `[0, D)`, every index
among the next `GetNumElementsDisk()` entries in `[D, 2D)`, and the remaining
`GetNumElementsSide()` entries, the side quads, lie in `[2D, 2D + M)` with
`M = (K+1)*S` without texture coordinates and `(K+1)*(S+1)` with them, so below
the total vertex count of the mode. -/
theorem cylinder_element_blocks_within_vertex_blocks (g : GlGeomCylinder)
    (hS : 3 ≤ g.numSlices) (hK : 1 ≤ g.numStacks) (hR : 1 ≤ g.numRings)
    (vertPosOffset vertNormalOffset vertTexCoordsOffset stride : ℤ) :
    g.GetNumVerticesDisk = 1 + g.numRings * g.numSlices ∧
    (∀ x ∈ List.take g.GetNumElementsDisk.toNat
        (g.CalcVboAndEbo vertPosOffset vertNormalOffset vertTexCoordsOffset stride).2,
      0 ≤ x ∧ x < g.GetNumVerticesDisk) ∧
    (∀ x ∈ List.take g.GetNumElementsDisk.toNat (List.drop g.GetNumElementsDisk.toNat
        (g.CalcVboAndEbo vertPosOffset vertNormalOffset vertTexCoordsOffset stride).2),
      g.GetNumVerticesDisk ≤ x ∧ x < 2 * g.GetNumVerticesDisk) ∧
    (((List.drop (2 * g.GetNumElementsDisk.toNat)
        (g.CalcVboAndEbo vertPosOffset vertNormalOffset vertTexCoordsOffset stride).2).length : ℕ) : ℤ)
      = g.GetNumElementsSide ∧
    (∀ x ∈ List.drop (2 * g.GetNumElementsDisk.toNat)
        (g.CalcVboAndEbo vertPosOffset vertNormalOffset vertTexCoordsOffset stride).2,
      2 * g.GetNumVerticesDisk ≤ x ∧
      (vertTexCoordsOffset < 0 →
        x < 2 * g.GetNumVerticesDisk + (g.numStacks + 1) * g.numSlices ∧
        x < g.GetNumVerticesNoTexCoords) ∧
      (0 ≤ vertTexCoordsOffset →
        x < 2 * g.GetNumVerticesDisk + (g.numStacks + 1) * (g.numSlices + 1) ∧
        x < g.GetNumVerticesTexCoords)) := by
  obtain ⟨e1, e2, e3⟩ := split_three_blocks g.eboBottom g.eboTop
    (g.eboSide (decide (0 ≤ vertTexCoordsOffset))) g.GetNumElementsDisk.toNat
    ((GlGeomCylinder.eboBottom_length g).trans (GlGeomCylinder.disk_block_length g hS hR))
    ((GlGeomCylinder.eboTop_length g).trans (GlGeomCylinder.disk_block_length g hS hR))
  simp only [GlGeomCylinder.CalcVboAndEbo, GlGeomCylinder.CalcEbo]
  rw [e1, e2, e3]
  refine ⟨rfl, GlGeomCylinder.eboBottom_bounds g hS hR, GlGeomCylinder.eboTop_bounds g hS hR,
    ?_, ?_⟩
  · rw [GlGeomCylinder.eboSide_length]
    exact GlGeomCylinder.side_block_length g hS hK
  · intro x hx
    have h := GlGeomCylinder.eboSide_bounds g hS hK _ x hx
    refine ⟨h.1, ?_, ?_⟩
    · intro hneg
      have h2 := h.2
      simp only [GlGeomCylinder.numVerticesSide, decide_eq_true_eq, not_le.2 hneg, if_false,
        GlGeomCylinder.GetNumVerticesSideNoTexCoords] at h2
      exact ⟨h2, h2⟩
    · intro hpos
      have h2 := h.2
      simp only [GlGeomCylinder.numVerticesSide, decide_eq_true_eq, hpos, if_true,
        GlGeomCylinder.GetNumVerticesSideTexCoords] at h2
      exact ⟨h2, h2⟩

theorem cylinder_element_blocks_within_vertex_blocks_witness :
    (3 : ℤ) ≤ (mkCylinder 4 2 3).numSlices ∧ (1 : ℤ) ≤ (mkCylinder 4 2 3).numStacks ∧
    (1 : ℤ) ≤ (mkCylinder 4 2 3).numRings ∧
    (∀ x ∈ List.take (mkCylinder 4 2 3).GetNumElementsDisk.toNat
        (List.drop (mkCylinder 4 2 3).GetNumElementsDisk.toNat
          ((mkCylinder 4 2 3).CalcVboAndEbo 0 3 6 8).2),
      (mkCylinder 4 2 3).GetNumVerticesDisk ≤ x ∧ x < 2 * (mkCylinder 4 2 3).GetNumVerticesDisk) :=
  ⟨by decide, by decide, by decide,
    (cylinder_element_blocks_within_vertex_blocks (mkCylinder 4 2 3) (by decide) (by decide)
      (by decide) 0 3 6 8).2.2.1⟩

/-- C6: for a cylinder with `S ≥ 3`, `K ≥ 1`, `R ≥ 1`, with or without texture
coordinates, the number of indices `CalcVboAndEbo` stores in the element buffer
is exactly `GetNumElements() = 2*GetNumElementsDisk() + GetNumElementsSide()
= 2*3*(2R-1)*S + 6*K*S`. -/
theorem cylinder_element_count_exact (g : GlGeomCylinder)
    (hS : 3 ≤ g.numSlices) (hK : 1 ≤ g.numStacks) (hR : 1 ≤ g.numRings)
    (vertPosOffset vertNormalOffset vertTexCoordsOffset stride : ℤ) :
    (((g.CalcVboAndEbo vertPosOffset vertNormalOffset vertTexCoordsOffset stride).2.length : ℕ) : ℤ)
        = g.GetNumElements ∧
    g.GetNumElements = 2 * g.GetNumElementsDisk + g.GetNumElementsSide ∧
    g.GetNumElements
        = 2 * 3 * (2 * g.numRings - 1) * g.numSlices + 6 * g.numStacks * g.numSlices := by
  refine ⟨?_, rfl, ?_⟩
  · simp only [GlGeomCylinder.CalcVboAndEbo, GlGeomCylinder.CalcEbo, List.length_append,
      GlGeomCylinder.eboBottom_length, GlGeomCylinder.eboTop_length,
      GlGeomCylinder.eboSide_length, GlGeomCylinder.disk_block_length g hS hR]
    have h1 := GlGeomCylinder.side_block_length g hS hK
    have h2 : ((g.GetNumElementsDisk.toNat : ℕ) : ℤ) = g.GetNumElementsDisk :=
      Int.toNat_of_nonneg (GlGeomCylinder.numElementsDisk_nonneg g hS hR)
    rw [Nat.cast_add, Nat.cast_add, h1, h2]
    unfold GlGeomCylinder.GetNumElements
    ring
  · simp only [GlGeomCylinder.GetNumElements, GlGeomCylinder.GetNumElementsDisk,
      GlGeomCylinder.GetNumElementsSide]
    ring

theorem cylinder_element_count_exact_witness :
    (3 : ℤ) ≤ (mkCylinder 5 2 2).numSlices ∧ (1 : ℤ) ≤ (mkCylinder 5 2 2).numStacks ∧
    (1 : ℤ) ≤ (mkCylinder 5 2 2).numRings ∧
    ((((mkCylinder 5 2 2).CalcVboAndEbo 0 (-1) (-1) 3).2.length : ℕ) : ℤ)
        = (mkCylinder 5 2 2).GetNumElements :=
  ⟨by decide, by decide, by decide,
    (cylinder_element_count_exact (mkCylinder 5 2 2) (by decide) (by decide) (by decide)
      0 (-1) (-1) 3).1⟩

/-! ## The vertex buffer -/

/-- Records of `stride` floats, one for each vertex number of `[0, N)`, fill
exactly the floats of `[0, stride * N)`. -/
theorem records_fill_buffer (st N : ℤ) (hst : 0 < st) (V : ℤ → Prop)
    (hV : ∀ v, V v ↔ 0 ≤ v ∧ v < N) (p : ℤ) :
    (∃ v, V v ∧ st * v ≤ p ∧ p < st * v + st) ↔ 0 ≤ p ∧ p < st * N := by
  constructor
  · rintro ⟨v, hv, h1, h2⟩
    obtain ⟨hv0, hvN⟩ := (hV v).1 hv
    have h3 : 0 ≤ st * v := mul_nonneg (le_of_lt hst) hv0
    have h4 : st * (v + 1) ≤ st * N := mul_le_mul_of_nonneg_left (by omega) (le_of_lt hst)
    constructor <;> linarith
  · rintro ⟨h0, h1⟩
    refine ⟨p / st, (hV _).2 ⟨Int.ediv_nonneg h0 (le_of_lt hst), ?_⟩, ?_, ?_⟩
    · exact Int.ediv_lt_of_lt_mul hst (by linarith [mul_comm st N])
    · have := Int.emod_nonneg p (ne_of_gt hst)
      have := Int.ediv_add_emod p st
      linarith
    · have := Int.emod_lt_of_pos p hst
      have := Int.ediv_add_emod p st
      linarith

namespace GlGeomSphere

/-- Under a tight packing the stores of one passage through the vertex loop body
fill the record of the vertex, and there is none when the vertex is skipped. -/
theorem vboVertex_indices (g : GlGeomSphere) (po no tc st : ℤ)
    (hp : TightPacking po no tc st) (i j p : ℤ) :
    (∃ w ∈ g.vboVertex po no tc st i j, w.index = p) ↔
      (g.GetVertexNumber i j (decide (0 ≤ tc))).1 = true ∧
      st * (g.GetVertexNumber i j (decide (0 ≤ tc))).2 ≤ p ∧
      p < st * (g.GetVertexNumber i j (decide (0 ≤ tc))).2 + st := by
  rcases hp with ⟨rfl, rfl, rfl, rfl⟩ | ⟨rfl, rfl, rfl, rfl⟩ | ⟨rfl, rfl, rfl, rfl⟩ <;>
  · simp only [vboVertex]
    generalize g.GetVertexNumber i j _ = r
    obtain ⟨b, v⟩ := r
    cases b
    · simp
    · simp
      omega


/-- The vertex loops reach exactly the vertex numbers of `[0, N)`. -/
theorem sphere_written_vertices (g : GlGeomSphere) (hS : 3 ≤ g.numSlices) (hT : 3 ≤ g.numStacks)
    (tex : Bool) (v : ℤ) :
    (∃ i j : ℕ, i < (g.numSlices + 1).toNat ∧ j < (g.numStacks + 1).toNat ∧
        (g.GetVertexNumber (i : ℤ) (j : ℤ) tex).1 = true ∧
        (g.GetVertexNumber (i : ℤ) (j : ℤ) tex).2 = v) ↔
      0 ≤ v ∧ v < g.numVertices tex := by
  constructor
  · rintro ⟨i, j, hi, hj, _, rfl⟩
    exact getVertexNumber_bounds g hS hT tex _ _ (by omega) (by omega) (by omega) (by omega)
  · rintro ⟨h0, hN⟩
    by_cases hv0 : v = 0
    · refine ⟨0, 0, by omega, by omega, ?_, ?_⟩ <;>
        simp [getVertexNumber_south, hv0]
    · by_cases hv1 : v = 1
      · refine ⟨0, g.numStacks.toNat, by omega, by omega, ?_, ?_⟩
        · rw [Int.toNat_of_nonneg (by omega), getVertexNumber_north g _ tex (by omega)]
          simp
        · rw [Int.toNat_of_nonneg (by omega), getVertexNumber_north g _ tex (by omega)]
          simp [hv1]
      · have hT1 : (0 : ℤ) < g.numStacks - 1 := by omega
        have hN2 : v < (if tex then g.numSlices + 1 else g.numSlices) * (g.numStacks - 1) + 2 := by
          cases tex
          · simpa [numVertices, GetNumVerticesNoTexCoords] using hN
          · simpa [numVertices, GetNumVerticesTexCoords] using hN
        obtain ⟨i, j, hi0, hi, hj1, hjT, hv⟩ :=
          rowMajor_surjective g.numStacks _ v hT1 (by omega) hN2
        have hiS : i ≤ g.numSlices := by
          cases tex
          · simp only [Bool.false_eq_true, if_false] at hi; omega
          · simp only [if_true] at hi; omega
        refine ⟨i.toNat, j.toNat, by omega, by omega, ?_, ?_⟩
        · rw [Int.toNat_of_nonneg hi0, Int.toNat_of_nonneg (by omega),
            getVertexNumber_inner g i j tex (by omega) (by omega)]
        · rw [Int.toNat_of_nonneg hi0, Int.toNat_of_nonneg (by omega),
            getVertexNumber_inner g i j tex (by omega) (by omega)]
          cases tex
          · simp only [Bool.false_eq_true, if_false] at hi ⊢
            rw [tmod_of_lt i g.numSlices hi0 hi]
            exact hv
          · simp only [if_true]
            exact hv

theorem tightPacking_stride_pos (po no tc st : ℤ) (hp : TightPacking po no tc st) : 0 < st := by
  rcases hp with ⟨_, _, _, rfl⟩ | ⟨_, _, _, rfl⟩ | ⟨_, _, _, rfl⟩ <;> decide

/-- Under a tight packing the stores of the sphere's vertex loops hit exactly the
floats of a buffer of `stride` floats for each vertex of the mode. -/
theorem sphere_calcVbo_writesExactly (g : GlGeomSphere) (hS : 3 ≤ g.numSlices)
    (hT : 3 ≤ g.numStacks) (po no tc st : ℤ) (hp : TightPacking po no tc st) :
    WritesExactly (g.CalcVbo po no tc st) (st * g.numVertices (decide (0 ≤ tc))) := by
  intro p
  rw [← records_fill_buffer st _ (tightPacking_stride_pos po no tc st hp) _
    (sphere_written_vertices g hS hT (decide (0 ≤ tc))) p]
  constructor
  · rintro ⟨w, hw, rfl⟩
    simp only [CalcVbo, List.mem_flatMap, List.mem_range] at hw
    obtain ⟨i, hi, j, hj, hw⟩ := hw
    obtain ⟨h1, h2, h3⟩ := (vboVertex_indices g po no tc st hp i j w.index).1 ⟨w, hw, rfl⟩
    exact ⟨_, ⟨i, j, hi, hj, h1, rfl⟩, h2, h3⟩
  · rintro ⟨v, ⟨i, j, hi, hj, h1, rfl⟩, h2, h3⟩
    obtain ⟨w, hw, hwp⟩ := (vboVertex_indices g po no tc st hp i j p).2 ⟨h1, h2, h3⟩
    refine ⟨w, ?_, hwp⟩
    simp only [CalcVbo, List.mem_flatMap, List.mem_range]
    exact ⟨i, hi, j, hj, hw⟩

/-- A field whose offset is negative is never stored by the sphere's vertex loops. -/
theorem sphere_calcVbo_fields (g : GlGeomSphere) (po no tc st : ℤ) :
    ∀ w ∈ g.CalcVbo po no tc st,
      (w.field = VboField.normal → 0 ≤ no) ∧ (w.field = VboField.texCoord → 0 ≤ tc) := by
  intro w hw
  simp only [CalcVbo, List.mem_flatMap, List.mem_range] at hw
  obtain ⟨i, _, j, _, hw⟩ := hw
  simp only [vboVertex] at hw
  split at hw
  · simp at hw
  · simp only [List.mem_append] at hw
    rcases hw with (hw | hw) | hw
    · simp only [List.mem_cons, List.mem_singleton, List.not_mem_nil, or_false] at hw
      rcases hw with rfl | rfl | rfl <;> simp
    · split at hw
      · rename_i hc
        have hno : 0 ≤ no := by simpa using hc
        simp only [List.mem_cons, List.mem_singleton, List.not_mem_nil, or_false] at hw
        rcases hw with rfl | rfl | rfl <;> simp [hno]
      · simp at hw
    · split at hw
      · rename_i hc
        have htc : 0 ≤ tc := by simpa using hc
        simp only [List.mem_cons, List.mem_singleton, List.not_mem_nil, or_false] at hw
        rcases hw with rfl | rfl <;> simp [htc]
      · simp at hw

end GlGeomSphere

theorem grid_decompose (W C n : ℤ) (hW : 0 < W) (hn : 0 ≤ n) (hN : n < C * W) :
    ∃ i j, 0 ≤ i ∧ i < C ∧ 0 ≤ j ∧ j < W ∧ W * i + j = n :=
  ⟨n / W, n % W, Int.ediv_nonneg hn (le_of_lt hW), Int.ediv_lt_of_lt_mul hW hN,
    Int.emod_nonneg n (ne_of_gt hW), Int.emod_lt_of_pos n hW, Int.ediv_add_emod n W⟩

namespace GlGeomCylinder

/-- Under a tight packing one call of `SetDiscVerts` fills the record of vertex
`i*numRings + j` and the record `GetNumVerticesDisk()` vertices further on. -/
theorem setDiscVerts_indices (g : GlGeomCylinder) (x z : FExpr) (i j po no tc st : ℤ)
    (hp : TightPacking po no tc st) (p : ℤ) :
    (∃ w ∈ g.SetDiscVerts x z i j po no tc st, w.index = p) ↔
      InRecord st (i * g.numRings + j) p ∨
      InRecord st (g.GetNumVerticesDisk + (i * g.numRings + j)) p := by
  rcases hp with ⟨rfl, rfl, rfl, rfl⟩ | ⟨rfl, rfl, rfl, rfl⟩ | ⟨rfl, rfl, rfl, rfl⟩ <;>
  · simp only [SetDiscVerts, InRecord]
    generalize i * g.numRings + j = b
    generalize g.GetNumVerticesDisk = D
    simp
    omega

/-- Under a tight packing one passage through the side-vertex loop body fills
the record of vertex `2*GetNumVerticesDisk() + i*(numStacks+1) + j`. -/
theorem vboSideVertex_indices (g : GlGeomCylinder) (s c : FExpr) (i j po no tc st : ℤ)
    (hp : TightPacking po no tc st) (p : ℤ) :
    (∃ w ∈ g.vboSideVertex po no tc st s c i j, w.index = p) ↔
      InRecord st (2 * g.GetNumVerticesDisk + i * (g.numStacks + 1) + j) p := by
  rcases hp with ⟨rfl, rfl, rfl, rfl⟩ | ⟨rfl, rfl, rfl, rfl⟩ | ⟨rfl, rfl, rfl, rfl⟩ <;>
  · simp only [vboSideVertex, InRecord]
    generalize i * (g.numStacks + 1) = b
    generalize g.GetNumVerticesDisk = D
    simp
    omega


theorem cylinder_calcVbo_indices (g : GlGeomCylinder) (po no tc st : ℤ)
    (hp : TightPacking po no tc st) (p : ℤ) :
    (∃ w ∈ g.CalcVbo po no tc st, w.index = p) ↔
      ∃ v, g.writtenVertex (decide (0 ≤ tc)) v ∧ InRecord st v p := by
  constructor
  · rintro ⟨w, hw, rfl⟩
    simp only [CalcVbo, List.mem_append, List.mem_flatMap, List.mem_range] at hw
    rcases hw with hw | ⟨i, hi, hw⟩
    · rcases (setDiscVerts_indices g _ _ 0 0 po no tc st hp w.index).1 ⟨w, hw, rfl⟩ with h | h
      · exact ⟨0, Or.inl rfl, by simpa using h⟩
      · exact ⟨g.GetNumVerticesDisk, Or.inr (Or.inl rfl), by simpa using h⟩
    · simp only [vboSlice, List.mem_append, List.mem_flatMap, List.mem_range] at hw
      rcases hw with hw | ⟨j, hj, hw⟩
      · by_cases hiS : (i : ℤ) < g.numSlices
        · rw [if_pos hiS] at hw
          simp only [List.mem_flatMap, List.mem_range] at hw
          obtain ⟨k, hk, hw⟩ := hw
          rcases (setDiscVerts_indices g _ _ _ _ po no tc st hp w.index).1 ⟨w, hw, rfl⟩
            with h | h
          · exact ⟨_, Or.inr (Or.inr ⟨i, hi, Or.inl ⟨hiS, k, hk, Or.inl rfl⟩⟩), h⟩
          · exact ⟨_, Or.inr (Or.inr ⟨i, hi, Or.inl ⟨hiS, k, hk, Or.inr rfl⟩⟩), h⟩
        · rw [if_neg hiS] at hw
          simp at hw
      · have h := (vboSideVertex_indices g _ _ _ _ po no tc st hp w.index).1 ⟨w, hw, rfl⟩
        exact ⟨_, Or.inr (Or.inr ⟨i, hi, Or.inr ⟨j, hj, rfl⟩⟩), h⟩
  · rintro ⟨v, hv, hrec⟩
    rcases hv with rfl | rfl | ⟨i, hi, ⟨hiS, k, hk, hv⟩ | ⟨j, hj, rfl⟩⟩
    · obtain ⟨w, hw, hwp⟩ := (setDiscVerts_indices g (FExpr.lit 0) (FExpr.lit 0) 0 0
        po no tc st hp p).2 (Or.inl (by simpa using hrec))
      refine ⟨w, ?_, hwp⟩
      simp only [CalcVbo, List.mem_append]
      exact Or.inl hw
    · obtain ⟨w, hw, hwp⟩ := (setDiscVerts_indices g (FExpr.lit 0) (FExpr.lit 0) 0 0
        po no tc st hp p).2 (Or.inr (by simpa using hrec))
      refine ⟨w, ?_, hwp⟩
      simp only [CalcVbo, List.mem_append]
      exact Or.inl hw
    · have hrec2 : InRecord st ((i : ℤ) * g.numRings + ((k : ℤ) + 1)) p ∨
          InRecord st (g.GetNumVerticesDisk + ((i : ℤ) * g.numRings + ((k : ℤ) + 1))) p := by
        rcases hv with rfl | rfl
        · exact Or.inl hrec
        · exact Or.inr hrec
      obtain ⟨w, hw, hwp⟩ := (setDiscVerts_indices g _ _ _ _ po no tc st hp p).2 hrec2
      refine ⟨w, ?_, hwp⟩
      simp only [CalcVbo, List.mem_append, List.mem_flatMap, List.mem_range]
      refine Or.inr ⟨i, hi, ?_⟩
      simp only [vboSlice, List.mem_append]
      refine Or.inl ?_
      rw [if_pos hiS]
      simp only [List.mem_flatMap, List.mem_range]
      exact ⟨k, hk, hw⟩
    · obtain ⟨w, hw, hwp⟩ := (vboSideVertex_indices g _ _ _ _ po no tc st hp p).2 hrec
      refine ⟨w, ?_, hwp⟩
      simp only [CalcVbo, List.mem_append, List.mem_flatMap, List.mem_range]
      refine Or.inr ⟨i, hi, ?_⟩
      simp only [vboSlice, List.mem_append, List.mem_flatMap, List.mem_range]
      exact Or.inr ⟨j, hj, hw⟩


/-- The cylinder's vertex loops reach exactly the vertex numbers below the vertex
count of the mode. -/
theorem writtenVertex_iff (g : GlGeomCylinder) (hS : 3 ≤ g.numSlices) (hK : 1 ≤ g.numStacks)
    (hR : 1 ≤ g.numRings) (tex : Bool) (v : ℤ) :
    g.writtenVertex tex v ↔
      0 ≤ v ∧ v < 2 * g.GetNumVerticesDisk + g.numVerticesSide tex := by
  have hD : g.GetNumVerticesDisk = 1 + g.numRings * g.numSlices := rfl
  have hRS : 0 ≤ g.numRings * g.numSlices := mul_nonneg (by omega) (by omega)
  have hstop : (if tex then g.numSlices else g.numSlices - 1) + 1
      = if tex then g.numSlices + 1 else g.numSlices := by
    cases tex <;> simp
  have hside : g.numVerticesSide tex
      = (if tex then g.numSlices + 1 else g.numSlices) * (g.numStacks + 1) := by
    cases tex
    · simp only [numVerticesSide, GetNumVerticesSideNoTexCoords, Bool.false_eq_true, if_false]
      ring
    · simp only [numVerticesSide, GetNumVerticesSideTexCoords, if_true]
      ring
  have hC : g.numSlices ≤ (if tex then g.numSlices + 1 else g.numSlices) := by
    cases tex <;> simp
  have hside0 : 0 ≤ g.numVerticesSide tex := by
    rw [hside]
    exact mul_nonneg (by omega) (by omega)
  rw [hside]
  constructor
  · rintro (rfl | rfl | ⟨i, hi, ⟨hiS, k, hk, hv⟩ | ⟨j, hj, rfl⟩⟩)
    · rw [← hside]; constructor <;> omega
    · rw [← hside]; constructor <;> omega
    · have h1 : (i : ℤ) * g.numRings ≤ (g.numSlices - 1) * g.numRings :=
        mul_le_mul_of_nonneg_right (by omega) (by omega)
      have h2 : 0 ≤ (i : ℤ) * g.numRings := mul_nonneg (by omega) (by omega)
      have h3 : (k : ℤ) + 1 ≤ g.numRings := by omega
      have h4 : (g.numSlices - 1) * g.numRings = g.numRings * g.numSlices - g.numRings := by
        ring
      rw [← hside]
      rcases hv with rfl | rfl <;> constructor <;> omega
    · rw [hstop] at hi
      have hi1 : (i : ℤ) + 1 ≤ (if tex then g.numSlices + 1 else g.numSlices) := by omega
      have h1 : ((i : ℤ) + 1) * (g.numStacks + 1)
          ≤ (if tex then g.numSlices + 1 else g.numSlices) * (g.numStacks + 1) :=
        mul_le_mul_of_nonneg_right hi1 (by omega)
      have h2 : 0 ≤ (i : ℤ) * (g.numStacks + 1) := mul_nonneg (by omega) (by omega)
      have h3 : (j : ℤ) < g.numStacks + 1 := by omega
      have h4 : ((i : ℤ) + 1) * (g.numStacks + 1)
          = (i : ℤ) * (g.numStacks + 1) + (g.numStacks + 1) := by ring
      constructor <;> omega
  · rintro ⟨h0, hN⟩
    by_cases hv0 : v = 0
    · exact Or.inl hv0
    · by_cases hvD : v = g.GetNumVerticesDisk
      · exact Or.inr (Or.inl hvD)
      · refine Or.inr (Or.inr ?_)
        by_cases hlow : v < 2 * g.GetNumVerticesDisk
        · -- a ring vertex of one of the two faces
          have key : ∀ u : ℤ, 1 ≤ u → u < g.GetNumVerticesDisk →
              ∃ i k : ℕ, (i : ℤ) < g.numSlices ∧ k < g.numRings.toNat ∧
                u = (i : ℤ) * g.numRings + ((k : ℤ) + 1) := by
            intro u hu1 huD
            obtain ⟨i, j, hi0, hi, hj0, hj, hu⟩ :=
              grid_decompose g.numRings g.numSlices (u - 1) (by omega) (by omega)
                (by rw [hD] at huD; linarith [mul_comm g.numRings g.numSlices])
            refine ⟨i.toNat, j.toNat, by omega, by omega, ?_⟩
            rw [Int.toNat_of_nonneg hi0, Int.toNat_of_nonneg hj0]
            linarith [mul_comm g.numRings i]
          by_cases hbot : v < g.GetNumVerticesDisk
          · obtain ⟨i, k, hi, hk, hv⟩ := key v (by omega) hbot
            exact ⟨i, by rw [hstop]; omega, Or.inl ⟨hi, k, hk, Or.inl hv⟩⟩
          · obtain ⟨i, k, hi, hk, hv⟩ := key (v - g.GetNumVerticesDisk) (by omega) (by omega)
            exact ⟨i, by rw [hstop]; omega, Or.inl ⟨hi, k, hk, Or.inr (by omega)⟩⟩
        · -- a side vertex
          obtain ⟨i, j, hi0, hi, hj0, hj, hu⟩ :=
            grid_decompose (g.numStacks + 1) (if tex then g.numSlices + 1 else g.numSlices)
              (v - 2 * g.GetNumVerticesDisk) (by omega) (by omega) (by omega)
          refine ⟨i.toNat, by rw [hstop]; omega, Or.inr ⟨j.toNat, by omega, ?_⟩⟩
          rw [Int.toNat_of_nonneg hi0, Int.toNat_of_nonneg hj0]
          linarith [mul_comm (g.numStacks + 1) i]

/-- Under a tight packing the stores of the cylinder's vertex loops hit exactly
the floats of a buffer of `stride` floats for each vertex of the mode. -/
theorem cylinder_calcVbo_writesExactly (g : GlGeomCylinder) (hS : 3 ≤ g.numSlices)
    (hK : 1 ≤ g.numStacks) (hR : 1 ≤ g.numRings) (po no tc st : ℤ)
    (hp : TightPacking po no tc st) :
    WritesExactly (g.CalcVbo po no tc st)
      (st * (2 * g.GetNumVerticesDisk + g.numVerticesSide (decide (0 ≤ tc)))) := by
  intro p
  rw [cylinder_calcVbo_indices g po no tc st hp p]
  exact records_fill_buffer st _ (GlGeomSphere.tightPacking_stride_pos po no tc st hp) _
    (writtenVertex_iff g hS hK hR (decide (0 ≤ tc))) p


theorem setDiscVerts_fields (g : GlGeomCylinder) (x z : FExpr) (i j po no tc st : ℤ) :
    ∀ w ∈ g.SetDiscVerts x z i j po no tc st,
      (w.field = VboField.normal → 0 ≤ no) ∧ (w.field = VboField.texCoord → 0 ≤ tc) := by
  intro w hw
  simp only [SetDiscVerts, List.mem_append] at hw
  rcases hw with (hw | hw) | hw
  · simp only [List.mem_cons, List.mem_singleton, List.not_mem_nil, or_false] at hw
    rcases hw with rfl | rfl | rfl | rfl | rfl | rfl <;> simp
  · split at hw
    · rename_i hc
      simp only [List.mem_cons, List.mem_singleton, List.not_mem_nil, or_false] at hw
      rcases hw with rfl | rfl | rfl | rfl | rfl | rfl <;> simp [hc]
    · simp at hw
  · split at hw
    · rename_i hc
      simp only [List.mem_cons, List.mem_singleton, List.not_mem_nil, or_false] at hw
      rcases hw with rfl | rfl | rfl | rfl <;> simp [hc]
    · simp at hw

theorem vboSideVertex_fields (g : GlGeomCylinder) (s c : FExpr) (i j po no tc st : ℤ) :
    ∀ w ∈ g.vboSideVertex po no tc st s c i j,
      (w.field = VboField.normal → 0 ≤ no) ∧ (w.field = VboField.texCoord → 0 ≤ tc) := by
  intro w hw
  simp only [vboSideVertex, List.mem_append] at hw
  rcases hw with (hw | hw) | hw
  · simp only [List.mem_cons, List.mem_singleton, List.not_mem_nil, or_false] at hw
    rcases hw with rfl | rfl | rfl <;> simp
  · split at hw
    · rename_i hc
      have hno : 0 ≤ no := by simpa using hc
      simp only [List.mem_cons, List.mem_singleton, List.not_mem_nil, or_false] at hw
      rcases hw with rfl | rfl | rfl <;> simp [hno]
    · simp at hw
  · split at hw
    · rename_i hc
      have htc : 0 ≤ tc := by simpa using hc
      simp only [List.mem_cons, List.mem_singleton, List.not_mem_nil, or_false] at hw
      rcases hw with rfl | rfl <;> simp [htc]
    · simp at hw

/-- A field whose offset is negative is never stored by the cylinder's vertex
loops. -/
theorem cylinder_calcVbo_fields (g : GlGeomCylinder) (po no tc st : ℤ) :
    ∀ w ∈ g.CalcVbo po no tc st,
      (w.field = VboField.normal → 0 ≤ no) ∧ (w.field = VboField.texCoord → 0 ≤ tc) := by
  intro w hw
  simp only [CalcVbo, List.mem_append, List.mem_flatMap, List.mem_range] at hw
  rcases hw with hw | ⟨i, _, hw⟩
  · exact setDiscVerts_fields g _ _ _ _ po no tc st w hw
  · simp only [vboSlice, List.mem_append, List.mem_flatMap, List.mem_range] at hw
    rcases hw with hw | ⟨j, _, hw⟩
    · split at hw
      · simp only [List.mem_flatMap, List.mem_range] at hw
        obtain ⟨k, _, hw⟩ := hw
        exact setDiscVerts_fields g _ _ _ _ po no tc st w hw
      · simp at hw
    · exact vboSideVertex_fields g _ _ _ _ po no tc st w hw

end GlGeomCylinder

/-! ## The claims on the vertex buffer -/

/-- C8: for a sphere with `S ≥ 3`, `T ≥ 3`, a cylinder with `S ≥ 3`, `K ≥ 1`,
`R ≥ 1`, and each documented tight packing (position offset, normal offset,
texture-coordinate offset, stride) of `(0,-1,-1,3)`, `(0,-1,3,5)`, `(0,3,6,8)`,
the float positions `CalcVboAndEbo` stores to in the vertex buffer are exactly
those of `[0, stride*N)`, with `N = GetNumVerticesTexCoords()` when the
texture-coordinate offset is nonnegative and `GetNumVerticesNoTexCoords()`
otherwise; and no store goes through the pointer of a field whose offset is -1. -/
theorem vertex_stores_fill_exactly_the_sized_buffer (s : GlGeomSphere) (c : GlGeomCylinder)
    (hsS : 3 ≤ s.numSlices) (hsT : 3 ≤ s.numStacks)
    (hcS : 3 ≤ c.numSlices) (hcK : 1 ≤ c.numStacks) (hcR : 1 ≤ c.numRings)
    (po no tc st : ℤ) (hp : TightPacking po no tc st) :
    (WritesExactly (s.CalcVboAndEbo po no tc st).1
        (st * (if 0 ≤ tc then s.GetNumVerticesTexCoords else s.GetNumVerticesNoTexCoords)) ∧
     ∀ w ∈ (s.CalcVboAndEbo po no tc st).1,
        (no = -1 → w.field ≠ VboField.normal) ∧ (tc = -1 → w.field ≠ VboField.texCoord)) ∧
    (WritesExactly (c.CalcVboAndEbo po no tc st).1
        (st * (if 0 ≤ tc then c.GetNumVerticesTexCoords else c.GetNumVerticesNoTexCoords)) ∧
     ∀ w ∈ (c.CalcVboAndEbo po no tc st).1,
        (no = -1 → w.field ≠ VboField.normal) ∧ (tc = -1 → w.field ≠ VboField.texCoord)) := by
  refine ⟨⟨?_, ?_⟩, ⟨?_, ?_⟩⟩
  · have h := GlGeomSphere.sphere_calcVbo_writesExactly s hsS hsT po no tc st hp
    by_cases htc : 0 ≤ tc
    · simpa [GlGeomSphere.CalcVboAndEbo, GlGeomSphere.numVertices, htc] using h
    · simpa [GlGeomSphere.CalcVboAndEbo, GlGeomSphere.numVertices, htc] using h
  · intro w hw
    obtain ⟨h1, h2⟩ := GlGeomSphere.sphere_calcVbo_fields s po no tc st w hw
    exact ⟨fun hno hf => by have := h1 hf; omega, fun htc hf => by have := h2 hf; omega⟩
  · have h := GlGeomCylinder.cylinder_calcVbo_writesExactly c hcS hcK hcR po no tc st hp
    by_cases htc : 0 ≤ tc
    · simpa [GlGeomCylinder.CalcVboAndEbo, GlGeomCylinder.numVerticesSide,
        GlGeomCylinder.GetNumVerticesTexCoords, htc] using h
    · simpa [GlGeomCylinder.CalcVboAndEbo, GlGeomCylinder.numVerticesSide,
        GlGeomCylinder.GetNumVerticesNoTexCoords, htc] using h
  · intro w hw
    obtain ⟨h1, h2⟩ := GlGeomCylinder.cylinder_calcVbo_fields c po no tc st w hw
    exact ⟨fun hno hf => by have := h1 hf; omega, fun htc hf => by have := h2 hf; omega⟩

theorem vertex_stores_fill_exactly_the_sized_buffer_witness :
    (3 : ℤ) ≤ (mkSphere 3 3).numSlices ∧ (3 : ℤ) ≤ (mkSphere 3 3).numStacks ∧
    (3 : ℤ) ≤ (mkCylinder 3 1 1).numSlices ∧ (1 : ℤ) ≤ (mkCylinder 3 1 1).numStacks ∧
    (1 : ℤ) ≤ (mkCylinder 3 1 1).numRings ∧ TightPacking 0 (-1) 3 5 ∧
    WritesExactly ((mkSphere 3 3).CalcVboAndEbo 0 (-1) 3 5).1
      (5 * (if (0 : ℤ) ≤ 3 then (mkSphere 3 3).GetNumVerticesTexCoords
        else (mkSphere 3 3).GetNumVerticesNoTexCoords)) ∧
    WritesExactly ((mkCylinder 3 1 1).CalcVboAndEbo 0 (-1) 3 5).1
      (5 * (if (0 : ℤ) ≤ 3 then (mkCylinder 3 1 1).GetNumVerticesTexCoords
        else (mkCylinder 3 1 1).GetNumVerticesNoTexCoords)) :=
  ⟨by decide, by decide, by decide, by decide, by decide,
    Or.inr (Or.inl ⟨rfl, rfl, rfl, rfl⟩),
    (vertex_stores_fill_exactly_the_sized_buffer (mkSphere 3 3) (mkCylinder 3 1 1)
      (by decide) (by decide) (by decide) (by decide) (by decide) 0 (-1) 3 5
      (Or.inr (Or.inl ⟨rfl, rfl, rfl, rfl⟩))).1.1,
    (vertex_stores_fill_exactly_the_sized_buffer (mkSphere 3 3) (mkCylinder 3 1 1)
      (by decide) (by decide) (by decide) (by decide) (by decide) 0 (-1) 3 5
      (Or.inr (Or.inl ⟨rfl, rfl, rfl, rfl⟩))).2.1⟩

/-! ## Cylinder: which face comes first in the vertex buffer -/

theorem inRecord_second_float (st u v : ℤ) (hst : 1 < st) (h : InRecord st u (st * v + 1)) :
    u = v := by
  obtain ⟨h1, h2⟩ := h
  rcases lt_trichotomy u v with hlt | heq | hgt
  · exfalso
    have : st * (u + 1) ≤ st * v := mul_le_mul_of_nonneg_left (by omega) (by omega)
    linarith
  · exact heq
  · exfalso
    have : st * (v + 1) ≤ st * u := mul_le_mul_of_nonneg_left (by omega) (by omega)
    linarith

namespace GlGeomCylinder

/-- Under a tight packing, a store of `SetDiscVerts` to the second float of the
record of vertex `v` is the `-1.0` of the face at `i*numRings + j` or the `1.0`
of the face `GetNumVerticesDisk()` vertices further on. -/
theorem setDiscVerts_second_float (g : GlGeomCylinder) (x z : FExpr) (i j po no tc st : ℤ)
    (hp : TightPacking po no tc st) (v : ℤ) :
    ∀ w ∈ g.SetDiscVerts x z i j po no tc st, w.index = st * v + 1 →
      (v = i * g.numRings + j ∧ w.value = FExpr.lit (-1)) ∨
      (v = g.GetNumVerticesDisk + (i * g.numRings + j) ∧ w.value = FExpr.lit 1) := by
  intro w hw hidx
  rcases hp with ⟨rfl, rfl, rfl, rfl⟩ | ⟨rfl, rfl, rfl, rfl⟩ | ⟨rfl, rfl, rfl, rfl⟩ <;>
  · simp only [SetDiscVerts] at hw
    generalize i * g.numRings + j = b at hw ⊢
    generalize g.GetNumVerticesDisk = D at hw ⊢
    simp at hw
    casesm* _ ∨ _ <;> subst w <;> simp only at hidx <;>
      first
        | (exfalso; omega)
        | (left; exact ⟨by omega, rfl⟩)
        | (right; exact ⟨by omega, rfl⟩)

/-- What `CalcVboAndEbo` does on every cylinder with `S ≥ 3`, `K ≥ 1`, `R ≥ 1` under
a tight packing: whatever it stores as the height (second float) of a vertex of
`[0, D)` is `-1.0`, the bottom face, and of a vertex of `[D, 2D)` is `1.0`, the
top face. -/
theorem disc_heights_bottom_face_first (g : GlGeomCylinder) (hS : 3 ≤ g.numSlices)
    (hK : 1 ≤ g.numStacks) (hR : 1 ≤ g.numRings) (po no tc st : ℤ)
    (hp : TightPacking po no tc st) (v : ℤ) :
    ∀ w ∈ g.CalcVbo po no tc st, w.index = st * v + 1 →
      (v < g.GetNumVerticesDisk → w.value = FExpr.lit (-1)) ∧
      (g.GetNumVerticesDisk ≤ v → v < 2 * g.GetNumVerticesDisk → w.value = FExpr.lit 1) := by
  intro w hw hidx
  have hD : g.GetNumVerticesDisk = 1 + g.numRings * g.numSlices := rfl
  have hRS : 0 ≤ g.numRings * g.numSlices := mul_nonneg (by omega) (by omega)
  have hst : 1 < st := by
    rcases hp with ⟨_, _, _, rfl⟩ | ⟨_, _, _, rfl⟩ | ⟨_, _, _, rfl⟩ <;> decide
  have disc : ∀ b : ℤ, 0 ≤ b → b < g.GetNumVerticesDisk →
      ((v = b ∧ w.value = FExpr.lit (-1)) ∨
        (v = g.GetNumVerticesDisk + b ∧ w.value = FExpr.lit 1)) →
      (v < g.GetNumVerticesDisk → w.value = FExpr.lit (-1)) ∧
      (g.GetNumVerticesDisk ≤ v → v < 2 * g.GetNumVerticesDisk → w.value = FExpr.lit 1) := by
    intro b hb0 hbD h
    rcases h with ⟨hv, hval⟩ | ⟨hv, hval⟩
    · exact ⟨fun _ => hval, fun h1 _ => by omega⟩
    · exact ⟨fun h1 => by omega, fun _ _ => hval⟩
  simp only [CalcVbo, List.mem_append, List.mem_flatMap, List.mem_range] at hw
  rcases hw with hw | ⟨i, hi, hw⟩
  · have h := setDiscVerts_second_float g _ _ 0 0 po no tc st hp v w hw hidx
    simp only [zero_mul, add_zero] at h
    exact disc 0 (le_refl 0) (by omega) (by simpa using h)
  · simp only [vboSlice, List.mem_append, List.mem_flatMap, List.mem_range] at hw
    rcases hw with hw | ⟨j, hj, hw⟩
    · split at hw
      · rename_i hiS
        simp only [List.mem_flatMap, List.mem_range] at hw
        obtain ⟨k, hk, hw⟩ := hw
        have h := setDiscVerts_second_float g _ _ _ _ po no tc st hp v w hw hidx
        have h1 : (i : ℤ) * g.numRings ≤ (g.numSlices - 1) * g.numRings :=
          mul_le_mul_of_nonneg_right (by omega) (by omega)
        have h2 : 0 ≤ (i : ℤ) * g.numRings := mul_nonneg (by omega) (by omega)
        have h3 : (k : ℤ) + 1 ≤ g.numRings := by omega
        have h4 : (g.numSlices - 1) * g.numRings = g.numRings * g.numSlices - g.numRings := by
          ring
        exact disc _ (by omega) (by omega) h
      · simp at hw
    · have h := (vboSideVertex_indices g _ _ _ _ po no tc st hp w.index).1 ⟨w, hw, rfl⟩
      rw [hidx] at h
      have hv := inRecord_second_float st _ v hst h
      have h2 : 0 ≤ (i : ℤ) * (g.numStacks + 1) := mul_nonneg (by omega) (by omega)
      exact ⟨fun h1 => by omega, fun _ h1 => by omega⟩

end GlGeomCylinder

/-- C7 fails on the code: on the cylinder with 3 slices, 1 stack and 1 ring
(`D = 4`), positions only and tightly packed, the heights stored for the vertices
0 to 3 (floats 1, 4, 7, 10) are all `-1.0`, the bottom face, and those stored
for the vertices 4 to 7 (floats 13, 16, 19, 22) are all `1.0`, the top face: the
bottom face comes first, against the layout `top, bottom, side` announced in
`CalcVboAndEbo`; the first side store goes to float `3 * 2 * D = 24`. -/
theorem cylinder_vertex_buffer_starts_with_bottom_face :
    (mkCylinder 3 1 1).GetNumVerticesDisk = 4 ∧
    ((((mkCylinder 3 1 1).CalcVboAndEbo 0 (-1) (-1) 3).1.filter
        (fun w => decide (w.index % 3 = 1 ∧ w.index < 3 * (2 * 4)))).map
          (fun w => (w.index, w.value))
      = [(1, FExpr.lit (-1)), (13, FExpr.lit 1), (4, FExpr.lit (-1)), (16, FExpr.lit 1),
         (7, FExpr.lit (-1)), (19, FExpr.lit 1), (10, FExpr.lit (-1)), (22, FExpr.lit 1)]) ∧
    ((((mkCylinder 3 1 1).CalcVboAndEbo 0 (-1) (-1) 3).1.filter
        (fun w => decide (3 * (2 * 4) ≤ w.index))).map (fun w => w.index)).head? = some 24 := by
  refine ⟨by decide, by decide, by decide⟩

/-! ## Reachable mesh states: the claim -/

/-- A `Remesh` call of the sphere that changes the resolution leaves at least 3
slices and 3 stacks, at most 255 of each. -/
theorem sphere_remesh_changed_in_range (g : GlGeomSphere) (nSlices nStacks : ℤ)
    (h : ¬ (nSlices = g.numSlices ∧ nStacks = g.numStacks)) :
    3 ≤ (g.Remesh nSlices nStacks).numSlices ∧ (g.Remesh nSlices nStacks).numSlices ≤ 255 ∧
    3 ≤ (g.Remesh nSlices nStacks).numStacks ∧ (g.Remesh nSlices nStacks).numStacks ≤ 255 := by
  simp only [GlGeomSphere.Remesh, if_neg h, ClampRange]
  omega

/-- A `Remesh` call of the cylinder that changes the resolution leaves at least 3
slices, 1 stack and 1 ring, at most 255 of each. -/
theorem cylinder_remesh_changed_in_range (g : GlGeomCylinder) (nSlices nStacks nRings : ℤ)
    (h : ¬ (nSlices = g.numSlices ∧ nStacks = g.numStacks ∧ nRings = g.numRings)) :
    3 ≤ (g.Remesh nSlices nStacks nRings).numSlices ∧
    1 ≤ (g.Remesh nSlices nStacks nRings).numStacks ∧
    1 ≤ (g.Remesh nSlices nStacks nRings).numRings := by
  simp only [GlGeomCylinder.Remesh, if_neg h, ClampRange]
  omega

/-- Once the sphere has at least 3 slices and 1 stack, every sequence of `Remesh`
calls keeps it so: what can break the invariant is the constructor alone. -/
theorem sphere_valid_resolution_preserved (calls : List (ℤ × ℤ)) :
    ∀ g : GlGeomSphere, 3 ≤ g.numSlices → 1 ≤ g.numStacks →
      3 ≤ (calls.foldl (fun g c => g.Remesh c.1 c.2) g).numSlices ∧
      1 ≤ (calls.foldl (fun g c => g.Remesh c.1 c.2) g).numStacks := by
  induction calls with
  | nil => intro g h1 h2; exact ⟨h1, h2⟩
  | cons c cs ih =>
    intro g h1 h2
    rw [List.foldl_cons]
    by_cases h : c.1 = g.numSlices ∧ c.2 = g.numStacks
    · have e : g.Remesh c.1 c.2 = g := by simp [GlGeomSphere.Remesh, h]
      rw [e]
      exact ih g h1 h2
    · obtain ⟨a1, _, a2, _⟩ := sphere_remesh_changed_in_range g c.1 c.2 h
      exact ih _ a1 (by omega)

/-- C11 fails on the code: the constructors store their arguments as they are,
while `Remesh` clamps; the sphere built by `GlGeomSphere(1, 0)` has 1 slice and 0
stacks, and still has after `Remesh(1, 0)`, which returns at once because the
resolution is the current one; likewise the cylinder built by
`GlGeomCylinder(0, 0, 0)` has 0 slices, stacks and rings, before and after
`Remesh(0, 0, 0)`. -/
theorem constructor_stores_unclamped_resolution :
    (sphereAfter 1 0 []).numSlices = 1 ∧ (sphereAfter 1 0 []).numStacks = 0 ∧
    (sphereAfter 1 0 [(1, 0)]).numSlices = 1 ∧ (sphereAfter 1 0 [(1, 0)]).numStacks = 0 ∧
    (cylinderAfter 0 0 0 []).numSlices = 0 ∧ (cylinderAfter 0 0 0 []).numStacks = 0 ∧
    (cylinderAfter 0 0 0 []).numRings = 0 ∧
    (cylinderAfter 0 0 0 [(0, 0, 0)]).numSlices = 0 ∧
    (cylinderAfter 0 0 0 [(0, 0, 0)]).numStacks = 0 ∧
    (cylinderAfter 0 0 0 [(0, 0, 0)]).numRings = 0 := by
  decide

/-! ## Layout discovery: the claims -/

/-- C12: on a call of `phRegisterShaderProgram` made while no layout is known yet,
for a program that has both uniform blocks, whatever the 15 reported member
offsets and the reported size of the light-array block: `lightStride` is set to
the last offset minus the first, and the call returns false when
`phMaxNumLights * lightStride` differs from the reported block size and true
when they are equal. -/
theorem first_registration_sets_stride_and_checks_size (phMaxNumLights : ℤ) (st : LayoutState)
    (p : ProgramReflection) (hfirst : st.shaderLayoutInfoKnown = false)
    (hg : p.globallightBlockIndex ≠ GL_INVALID_INDEX)
    (hl : p.lightsBlockIndex ≠ GL_INVALID_INDEX) :
    (phRegisterShaderProgram phMaxNumLights st p).2.1.lightStride
        = p.offsetsLight 14 - p.offsetsLight 0 ∧
    (phMaxNumLights * (p.offsetsLight 14 - p.offsetsLight 0) ≠ p.lightsBlockDataSize →
      (phRegisterShaderProgram phMaxNumLights st p).1 = false) ∧
    (phMaxNumLights * (p.offsetsLight 14 - p.offsetsLight 0) = p.lightsBlockDataSize →
      (phRegisterShaderProgram phMaxNumLights st p).1 = true) := by
  have hb : ¬ (p.globallightBlockIndex = GL_INVALID_INDEX ∨
      p.lightsBlockIndex = GL_INVALID_INDEX) := by
    rintro (h | h)
    · exact hg h
    · exact hl h
  refine ⟨?_, ?_, ?_⟩
  · simp only [phRegisterShaderProgram, if_neg hb, hfirst, Bool.false_eq_true, if_false]
    split <;> rfl
  · intro hne
    simp only [phRegisterShaderProgram, if_neg hb, hfirst, Bool.false_eq_true, if_false]
    rw [if_pos hne]
  · intro heq
    simp only [phRegisterShaderProgram, if_neg hb, hfirst, Bool.false_eq_true, if_false]
    rw [if_neg (not_not.2 heq)]

theorem first_registration_sets_stride_and_checks_size_witness :
    initialLayout.shaderLayoutInfoKnown = false ∧
    (packedProgram 448).globallightBlockIndex ≠ GL_INVALID_INDEX ∧
    (packedProgram 448).lightsBlockIndex ≠ GL_INVALID_INDEX ∧
    (phRegisterShaderProgram 8 initialLayout (packedProgram 448)).2.1.lightStride
        = (packedProgram 448).offsetsLight 14 - (packedProgram 448).offsetsLight 0 ∧
    (phRegisterShaderProgram 8 initialLayout (packedProgram 448)).1 = true :=
  ⟨rfl, by decide, by decide,
    (first_registration_sets_stride_and_checks_size 8 initialLayout (packedProgram 448) rfl
      (by decide) (by decide)).1,
    (first_registration_sets_stride_and_checks_size 8 initialLayout (packedProgram 448) rfl
      (by decide) (by decide)).2.2 (by decide)⟩

/-- What the code does on a stride and size mismatch, on every input: the call
returns false and has marked the layout as known, so every later call for a
program with both blocks returns true without any check. -/
theorem mismatch_marks_layout_known (phMaxNumLights : ℤ) (st : LayoutState)
    (p q : ProgramReflection) (hfirst : st.shaderLayoutInfoKnown = false)
    (hg : p.globallightBlockIndex ≠ GL_INVALID_INDEX)
    (hl : p.lightsBlockIndex ≠ GL_INVALID_INDEX)
    (hne : phMaxNumLights * (p.offsetsLight 14 - p.offsetsLight 0) ≠ p.lightsBlockDataSize)
    (hqg : q.globallightBlockIndex ≠ GL_INVALID_INDEX)
    (hql : q.lightsBlockIndex ≠ GL_INVALID_INDEX) :
    (phRegisterShaderProgram phMaxNumLights st p).1 = false ∧
    (phRegisterShaderProgram phMaxNumLights st p).2.1.shaderLayoutInfoKnown = true ∧
    (phRegisterShaderProgram phMaxNumLights
      (phRegisterShaderProgram phMaxNumLights st p).2.1 q).1 = true ∧
    phMaxNumLights * (phRegisterShaderProgram phMaxNumLights
      (phRegisterShaderProgram phMaxNumLights st p).2.1 q).2.1.lightStride
      ≠ (phRegisterShaderProgram phMaxNumLights
          (phRegisterShaderProgram phMaxNumLights st p).2.1 q).2.1.lightsBlockSize := by
  have hb : ¬ (p.globallightBlockIndex = GL_INVALID_INDEX ∨
      p.lightsBlockIndex = GL_INVALID_INDEX) := by
    rintro (h | h)
    · exact hg h
    · exact hl h
  have hqb : ¬ (q.globallightBlockIndex = GL_INVALID_INDEX ∨
      q.lightsBlockIndex = GL_INVALID_INDEX) := by
    rintro (h | h)
    · exact hqg h
    · exact hql h
  have e1 : phRegisterShaderProgram phMaxNumLights st p =
      (false,
        { shaderLayoutInfoKnown := true, offsetsGlobal := p.offsetsGlobal,
          offsetsLight := p.offsetsLight,
          globallightBlockSize := p.globallightBlockDataSize,
          lightsBlockSize := p.lightsBlockDataSize,
          lightsBlockOffset :=
            p.uboAlign * (1 + Int.tdiv (p.globallightBlockDataSize - 1) p.uboAlign),
          lightStride := p.offsetsLight 14 - p.offsetsLight 0 },
        [GlCall.uniformBlockBinding p.globallightBlockIndex 0,
          GlCall.uniformBlockBinding p.lightsBlockIndex 1] ++
        [GlCall.bufferData
            (p.uboAlign * (1 + Int.tdiv (p.globallightBlockDataSize - 1) p.uboAlign)
              + p.lightsBlockDataSize),
          GlCall.bindBufferRange 0 0 p.globallightBlockDataSize,
          GlCall.bindBufferRange 1
            (p.uboAlign * (1 + Int.tdiv (p.globallightBlockDataSize - 1) p.uboAlign))
            p.lightsBlockDataSize]) := by
    simp only [phRegisterShaderProgram, if_neg hb, hfirst, Bool.false_eq_true, if_false]
    rw [if_pos hne]
  rw [e1]
  refine ⟨rfl, rfl, ?_, ?_⟩
  · simp only [phRegisterShaderProgram, if_neg hqb, if_true]
  · simp only [phRegisterShaderProgram, if_neg hqb, if_true]
    exact hne

/-- C13 fails on the code: with `phMaxNumLights = 8`, the first call from the
initial state, for a program with both blocks, a stride of 56 bytes and a
light-array block of 100 bytes (not `8 * 56`), returns false but has already set
`shaderLayoutInfoKnown`; the next call returns true although the stored layout
has `phMaxNumLights * lightStride` different from `lightsBlockSize`. -/
theorem failed_discovery_is_marked_known :
    (phRegisterShaderProgram 8 initialLayout (packedProgram 100)).1 = false ∧
    (phRegisterShaderProgram 8 initialLayout (packedProgram 100)).2.1.shaderLayoutInfoKnown
      = true ∧
    (phRegisterShaderProgram 8 (registerAll 8 initialLayout [packedProgram 100])
      (packedProgram 448)).1 = true ∧
    8 * (registerAll 8 initialLayout [packedProgram 100, packedProgram 448]).lightStride
      ≠ (registerAll 8 initialLayout [packedProgram 100, packedProgram 448]).lightsBlockSize := by
  decide

/-- C14: for a program that lacks the `phGlobal` block or the `phLightArray` block
(the block index query answers `GL_INVALID_INDEX`), `phRegisterShaderProgram`
returns false and leaves every layout variable as it was: the flag, both offset
tables, both block sizes, `lightStride` and `lightsBlockOffset`; it makes none
of its binding or buffer calls either. -/
theorem registration_without_block_changes_nothing (phMaxNumLights : ℤ) (st : LayoutState)
    (p : ProgramReflection)
    (h : p.globallightBlockIndex = GL_INVALID_INDEX ∨ p.lightsBlockIndex = GL_INVALID_INDEX) :
    (phRegisterShaderProgram phMaxNumLights st p).1 = false ∧
    (phRegisterShaderProgram phMaxNumLights st p).2.1 = st ∧
    (phRegisterShaderProgram phMaxNumLights st p).2.2 = [] := by
  simp only [phRegisterShaderProgram, if_pos h, and_self]

theorem registration_without_block_changes_nothing_witness :
    (programWithoutLights.globallightBlockIndex = GL_INVALID_INDEX ∨
      programWithoutLights.lightsBlockIndex = GL_INVALID_INDEX) ∧
    (phRegisterShaderProgram 8 (registerAll 8 initialLayout [packedProgram 448])
      programWithoutLights).1 = false ∧
    (phRegisterShaderProgram 8 (registerAll 8 initialLayout [packedProgram 448])
      programWithoutLights).2.1 = registerAll 8 initialLayout [packedProgram 448] :=
  ⟨Or.inr rfl,
    (registration_without_block_changes_nothing 8
      (registerAll 8 initialLayout [packedProgram 448]) programWithoutLights (Or.inr rfl)).1,
    (registration_without_block_changes_nothing 8
      (registerAll 8 initialLayout [packedProgram 448]) programWithoutLights (Or.inr rfl)).2.1⟩

theorem round_up_least_multiple (g a : ℤ) (hg : 1 ≤ g) (ha : 1 ≤ a) :
    a * (1 + Int.tdiv (g - 1) a) = a * (1 + (g - 1) / a) ∧
    a ∣ a * (1 + Int.tdiv (g - 1) a) ∧ g ≤ a * (1 + Int.tdiv (g - 1) a) ∧
    ∀ m, a ∣ m → g ≤ m → a * (1 + Int.tdiv (g - 1) a) ≤ m := by
  rw [Int.tdiv_eq_ediv (by omega) (by omega)]
  have h1 := Int.ediv_add_emod (g - 1) a
  have h2 := Int.emod_nonneg (g - 1) (show a ≠ 0 by omega)
  have h3 := Int.emod_lt_of_pos (g - 1) (show 0 < a by omega)
  refine ⟨rfl, Dvd.intro _ rfl, by linarith, ?_⟩
  rintro m ⟨k, rfl⟩ hm
  have h4 : a * ((g - 1) / a) < a * k := by linarith
  have h5 : (g - 1) / a < k := lt_of_mul_lt_mul_left h4 (by omega)
  have h6 : a * ((g - 1) / a + 1) ≤ a * k := mul_le_mul_of_nonneg_left (by omega) (by omega)
  linarith

/-- C15: on a call of `phRegisterShaderProgram` that discovers the layout, for a
reported global block size `g ≥ 1` and alignment `a ≥ 1` (and a light-array
block size that is not negative), the stored `lightsBlockOffset` is
`a * (1 + (g - 1) / a)`, the least multiple of `a` that is at least `g`; the
buffer is given `lightsBlockOffset + lightsBlockSize` bytes, block 0 is bound to
`[0, g)` and block 1 to `[lightsBlockOffset, lightsBlockOffset + lightsBlockSize)`;
the two ranges share no byte and lie inside the buffer. -/
theorem light_block_offset_is_aligned_round_up (phMaxNumLights : ℤ) (st : LayoutState)
    (p : ProgramReflection) (hfirst : st.shaderLayoutInfoKnown = false)
    (hg : p.globallightBlockIndex ≠ GL_INVALID_INDEX)
    (hl : p.lightsBlockIndex ≠ GL_INVALID_INDEX)
    (hsize : 1 ≤ p.globallightBlockDataSize) (halign : 1 ≤ p.uboAlign)
    (hlsize : 0 ≤ p.lightsBlockDataSize) :
    (phRegisterShaderProgram phMaxNumLights st p).2.1.lightsBlockOffset
        = p.uboAlign * (1 + (p.globallightBlockDataSize - 1) / p.uboAlign) ∧
    p.uboAlign ∣ (phRegisterShaderProgram phMaxNumLights st p).2.1.lightsBlockOffset ∧
    p.globallightBlockDataSize
        ≤ (phRegisterShaderProgram phMaxNumLights st p).2.1.lightsBlockOffset ∧
    (∀ m : ℤ, p.uboAlign ∣ m → p.globallightBlockDataSize ≤ m →
        (phRegisterShaderProgram phMaxNumLights st p).2.1.lightsBlockOffset ≤ m) ∧
    (phRegisterShaderProgram phMaxNumLights st p).2.2 =
      [GlCall.uniformBlockBinding p.globallightBlockIndex 0,
       GlCall.uniformBlockBinding p.lightsBlockIndex 1,
       GlCall.bufferData
         ((phRegisterShaderProgram phMaxNumLights st p).2.1.lightsBlockOffset
           + p.lightsBlockDataSize),
       GlCall.bindBufferRange 0 0 p.globallightBlockDataSize,
       GlCall.bindBufferRange 1
         (phRegisterShaderProgram phMaxNumLights st p).2.1.lightsBlockOffset
         p.lightsBlockDataSize] ∧
    (phRegisterShaderProgram phMaxNumLights st p).2.1.globallightBlockSize
        = p.globallightBlockDataSize ∧
    (phRegisterShaderProgram phMaxNumLights st p).2.1.lightsBlockSize
        = p.lightsBlockDataSize ∧
    (∀ b : ℤ, ¬ ((0 ≤ b ∧ b < p.globallightBlockDataSize) ∧
        ((phRegisterShaderProgram phMaxNumLights st p).2.1.lightsBlockOffset ≤ b ∧
          b < (phRegisterShaderProgram phMaxNumLights st p).2.1.lightsBlockOffset
            + p.lightsBlockDataSize))) ∧
    (∀ b : ℤ, ((0 ≤ b ∧ b < p.globallightBlockDataSize) ∨
        ((phRegisterShaderProgram phMaxNumLights st p).2.1.lightsBlockOffset ≤ b ∧
          b < (phRegisterShaderProgram phMaxNumLights st p).2.1.lightsBlockOffset
            + p.lightsBlockDataSize)) →
        0 ≤ b ∧ b < (phRegisterShaderProgram phMaxNumLights st p).2.1.lightsBlockOffset
            + p.lightsBlockDataSize) := by
  have hb : ¬ (p.globallightBlockIndex = GL_INVALID_INDEX ∨
      p.lightsBlockIndex = GL_INVALID_INDEX) := by
    rintro (h | h)
    · exact hg h
    · exact hl h
  obtain ⟨r1, r2, r3, r4⟩ :=
    round_up_least_multiple p.globallightBlockDataSize p.uboAlign hsize halign
  have eoff : (phRegisterShaderProgram phMaxNumLights st p).2.1.lightsBlockOffset
      = p.uboAlign * (1 + Int.tdiv (p.globallightBlockDataSize - 1) p.uboAlign) := by
    simp only [phRegisterShaderProgram, if_neg hb, hfirst, Bool.false_eq_true, if_false]
    split <;> rfl
  have ecalls : (phRegisterShaderProgram phMaxNumLights st p).2.2 =
      [GlCall.uniformBlockBinding p.globallightBlockIndex 0,
       GlCall.uniformBlockBinding p.lightsBlockIndex 1,
       GlCall.bufferData
         (p.uboAlign * (1 + Int.tdiv (p.globallightBlockDataSize - 1) p.uboAlign)
           + p.lightsBlockDataSize),
       GlCall.bindBufferRange 0 0 p.globallightBlockDataSize,
       GlCall.bindBufferRange 1
         (p.uboAlign * (1 + Int.tdiv (p.globallightBlockDataSize - 1) p.uboAlign))
         p.lightsBlockDataSize] := by
    simp only [phRegisterShaderProgram, if_neg hb, hfirst, Bool.false_eq_true, if_false]
    split <;> rfl
  have eg : (phRegisterShaderProgram phMaxNumLights st p).2.1.globallightBlockSize
      = p.globallightBlockDataSize := by
    simp only [phRegisterShaderProgram, if_neg hb, hfirst, Bool.false_eq_true, if_false]
    split <;> rfl
  have el : (phRegisterShaderProgram phMaxNumLights st p).2.1.lightsBlockSize
      = p.lightsBlockDataSize := by
    simp only [phRegisterShaderProgram, if_neg hb, hfirst, Bool.false_eq_true, if_false]
    split <;> rfl
  rw [ecalls, eoff]
  refine ⟨r1, r2, r3, r4, rfl, eg, el, ?_, ?_⟩
  · intro b hb2
    omega
  · intro b hb2
    omega

theorem light_block_offset_is_aligned_round_up_witness :
    initialLayout.shaderLayoutInfoKnown = false ∧
    (packedProgram 448).globallightBlockIndex ≠ GL_INVALID_INDEX ∧
    (packedProgram 448).lightsBlockIndex ≠ GL_INVALID_INDEX ∧
    (1 : ℤ) ≤ (packedProgram 448).globallightBlockDataSize ∧
    (1 : ℤ) ≤ (packedProgram 448).uboAlign ∧
    (0 : ℤ) ≤ (packedProgram 448).lightsBlockDataSize ∧
    (phRegisterShaderProgram 8 initialLayout (packedProgram 448)).2.1.lightsBlockOffset
        = (packedProgram 448).uboAlign
            * (1 + ((packedProgram 448).globallightBlockDataSize - 1)
                / (packedProgram 448).uboAlign) ∧
    (packedProgram 448).globallightBlockDataSize
        ≤ (phRegisterShaderProgram 8 initialLayout (packedProgram 448)).2.1.lightsBlockOffset :=
  ⟨rfl, by decide, by decide, by decide, by decide, by decide,
    (light_block_offset_is_aligned_round_up 8 initialLayout (packedProgram 448) rfl
      (by decide) (by decide) (by decide) (by decide) (by decide)).1,
    (light_block_offset_is_aligned_round_up 8 initialLayout (packedProgram 448) rfl
      (by decide) (by decide) (by decide) (by decide) (by decide)).2.2.1⟩

/-! ## Uploads: the claims -/

/-- C16: `phLight::LoadIntoShaders(n)` fails its assertion exactly when `n < 0` or
`n ≥ phMaxNumLights`, and `n` is never clamped; when `0 ≤ n < phMaxNumLights`
and the stored layout has `phMaxNumLights * lightStride = lightsBlockSize` with
`lightStride > 0`, the byte range it updates is
`[lightsBlockOffset + n*lightStride, lightsBlockOffset + (n+1)*lightStride)`,
which lies inside the light-array block and shares no byte with the range of
any other light index. -/
theorem light_upload_range_within_block {R : Type} (phMaxNumLights : ℤ) (st : LayoutState)
    (l : phLight R) (n : ℤ) :
    (l.LoadIntoShaders phMaxNumLights st n = none ↔ (n < 0 ∨ phMaxNumLights ≤ n)) ∧
    (0 ≤ n → n < phMaxNumLights →
      phMaxNumLights * st.lightStride = st.lightsBlockSize → 0 < st.lightStride →
      ∃ u, l.LoadIntoShaders phMaxNumLights st n = some u ∧
        u.offset = st.lightsBlockOffset + n * st.lightStride ∧
        u.offset + u.size = st.lightsBlockOffset + (n + 1) * st.lightStride ∧
        st.lightsBlockOffset ≤ u.offset ∧
        u.offset + u.size ≤ st.lightsBlockOffset + st.lightsBlockSize ∧
        ∀ (l' : phLight R) (m : ℤ) (u' : Upload R), m ≠ n →
          l'.LoadIntoShaders phMaxNumLights st m = some u' →
          u'.offset + u'.size ≤ u.offset ∨ u.offset + u.size ≤ u'.offset) := by
  constructor
  · unfold phLight.LoadIntoShaders
    split
    · rename_i h
      simp only [reduceCtorEq, false_iff]
      omega
    · rename_i h
      simp only [true_iff]
      omega
  · intro h0 h1 hsize hstride
    have hn : 0 ≤ n ∧ n < phMaxNumLights := ⟨h0, h1⟩
    obtain ⟨u, hu, hoff, hsz⟩ : ∃ u, l.LoadIntoShaders phMaxNumLights st n = some u ∧
        u.offset = st.lightsBlockOffset + n * st.lightStride ∧ u.size = st.lightStride := by
      unfold phLight.LoadIntoShaders
      rw [if_pos hn]
      exact ⟨_, rfl, rfl, rfl⟩
    refine ⟨u, hu, hoff, ?_, ?_, ?_, ?_⟩
    · rw [hoff, hsz]
      ring
    · rw [hoff]
      have := mul_nonneg h0 (le_of_lt hstride)
      linarith
    · rw [hoff, hsz]
      have h2 : (n + 1) * st.lightStride ≤ phMaxNumLights * st.lightStride :=
        mul_le_mul_of_nonneg_right (by omega) (le_of_lt hstride)
      linarith
    · intro l' m u' hm hu'
      unfold phLight.LoadIntoShaders at hu'
      split at hu'
      · rename_i hmr
        simp only [Option.some.injEq] at hu'
        subst hu'
        simp only
        rw [hoff, hsz]
        rcases lt_or_gt_of_ne hm with hlt | hgt
        · left
          have h2 : (m + 1) * st.lightStride ≤ n * st.lightStride :=
            mul_le_mul_of_nonneg_right (by omega) (le_of_lt hstride)
          linarith
        · right
          have h2 : (n + 1) * st.lightStride ≤ m * st.lightStride :=
            mul_le_mul_of_nonneg_right (by omega) (le_of_lt hstride)
          linarith
      · simp at hu'

theorem light_upload_range_within_block_witness :
    (directionalLight ⟨0, 0, 1⟩ false).LoadIntoShaders 8
        (registerAll 8 initialLayout [packedProgram 448]) 8 = none ∧
    ∃ u, (directionalLight ⟨0, 0, 1⟩ false).LoadIntoShaders 8
        (registerAll 8 initialLayout [packedProgram 448]) 3 = some u ∧
      u.offset = (registerAll 8 initialLayout [packedProgram 448]).lightsBlockOffset
        + 3 * (registerAll 8 initialLayout [packedProgram 448]).lightStride :=
  ⟨(light_upload_range_within_block 8 (registerAll 8 initialLayout [packedProgram 448])
      (directionalLight ⟨0, 0, 1⟩ false) 8).1.2 (Or.inr (by decide)),
    Exists.imp (fun _ h => ⟨h.1, h.2.1⟩)
      ((light_upload_range_within_block 8 (registerAll 8 initialLayout [packedProgram 448])
        (directionalLight ⟨0, 0, 1⟩ false) 3).2 (by decide) (by decide) (by decide)
        (by decide))⟩

/-- C18: `phLight::CheckCorrectness` returns false for every light record with
`IsDirectional = true` and `PosOrDir = (0,0,0)`, whatever its other fields, and
true for every light record with `IsDirectional = true`, `PosOrDir = (0,0,1)`
and `IsSpotLight = false`; the arithmetic is any that is exact on `0.0` and
`1.0` and has `0.0 < 0.000001 ≤ 1.0`. -/
theorem directional_light_needs_nonzero_direction {R : Type} (o : SqNormOps R)
    (ho : o.ExactOnZeroOne) (l : phLight R) (hd : l.IsDirectional = true) :
    (l.PosOrDir = ⟨o.zero, o.zero, o.zero⟩ → l.CheckCorrectness o = false) ∧
    (l.PosOrDir = ⟨o.zero, o.zero, o.one⟩ → l.IsSpotLight = false →
      l.CheckCorrectness o = true) := by
  obtain ⟨m0, m1, a0, a1, e0, e1⟩ := ho
  constructor
  · intro hp
    have hs : o.sqNorm l.PosOrDir = o.zero := by
      rw [hp]
      simp only [SqNormOps.sqNorm, m0, a0]
    simp [phLight.CheckCorrectness, hd, hs, e0]
  · intro hp hspot
    have hs : o.sqNorm l.PosOrDir = o.one := by
      rw [hp]
      simp only [SqNormOps.sqNorm, m0, m1, a0, a1]
    simp [phLight.CheckCorrectness, hd, hs, e1, hspot]

theorem ratOps_exactOnZeroOne : ratOps.ExactOnZeroOne := by
  simp only [SqNormOps.ExactOnZeroOne, ratOps]
  refine ⟨by norm_num, by norm_num, by norm_num, by norm_num, by norm_num, by norm_num⟩

theorem directional_light_needs_nonzero_direction_witness :
    ratOps.ExactOnZeroOne ∧ (directionalLight ⟨0, 0, 0⟩ true).IsDirectional = true ∧
    (directionalLight ⟨0, 0, 1⟩ false).IsDirectional = true ∧
    (directionalLight ⟨0, 0, 0⟩ true).CheckCorrectness ratOps = false ∧
    (directionalLight ⟨0, 0, 1⟩ false).CheckCorrectness ratOps = true :=
  ⟨ratOps_exactOnZeroOne, rfl, rfl,
    (directional_light_needs_nonzero_direction ratOps ratOps_exactOnZeroOne
      (directionalLight ⟨0, 0, 0⟩ true) rfl).1 rfl,
    (directional_light_needs_nonzero_direction ratOps ratOps_exactOnZeroOne
      (directionalLight ⟨0, 0, 1⟩ false) rfl).2 rfl rfl⟩

/-- C19: for every light record with `IsSpotLight = true` and
`IsDirectional = true`, `phLight::CheckCorrectness` returns false, whatever
`SpotDirection`, `PosOrDir` and the other fields are, and whatever the
floating-point tests answer. -/
theorem directional_spot_light_is_rejected {R : Type} (o : SqNormOps R) (l : phLight R)
    (hs : l.IsSpotLight = true) (hd : l.IsDirectional = true) :
    l.CheckCorrectness o = false := by
  simp [phLight.CheckCorrectness, hs, hd]

theorem directional_spot_light_is_rejected_witness :
    (directionalLight ⟨0, 0, 1⟩ true).IsSpotLight = true ∧
    (directionalLight ⟨0, 0, 1⟩ true).IsDirectional = true ∧
    (directionalLight ⟨0, 0, 1⟩ true).CheckCorrectness ratOps = false :=
  ⟨rfl, rfl, directional_spot_light_is_rejected ratOps (directionalLight ⟨0, 0, 1⟩ true) rfl rfl⟩

/-- C20: `phGlobal::CheckCorrectness` returns false if and only if
`NumLights > phMaxNumLights`; it returns true when `NumLights` equals
`phMaxNumLights` and false when `NumLights = phMaxNumLights + 1`. -/
theorem global_record_rejected_iff_too_many_lights {R : Type} (phMaxNumLights : ℤ)
    (g : phGlobal R) :
    (g.CheckCorrectness phMaxNumLights = false ↔ g.NumLights > phMaxNumLights) ∧
    (g.NumLights = phMaxNumLights → g.CheckCorrectness phMaxNumLights = true) ∧
    (g.NumLights = phMaxNumLights + 1 → g.CheckCorrectness phMaxNumLights = false) := by
  refine ⟨?_, ?_, ?_⟩
  · unfold phGlobal.CheckCorrectness
    split <;> simp [*]
  · intro h
    simp [phGlobal.CheckCorrectness, h]
  · intro h
    simp [phGlobal.CheckCorrectness, h]

theorem global_record_rejected_iff_too_many_lights_witness :
    ((globalRecord 8).CheckCorrectness 8 = false ↔ (globalRecord 8).NumLights > 8) ∧
    (globalRecord 8).CheckCorrectness 8 = true ∧
    (globalRecord 9).CheckCorrectness 8 = false :=
  ⟨(global_record_rejected_iff_too_many_lights 8 (globalRecord 8)).1,
    (global_record_rejected_iff_too_many_lights 8 (globalRecord 8)).2.1 rfl,
    (global_record_rejected_iff_too_many_lights 8 (globalRecord 9)).2.2 rfl⟩

/-! ## FinalizeCompileAndLink, outerProduct, RenderTop and RenderBase: the claims -/

/-- `FinalizeCompileAndLink` returns the table it was given, on every table. -/
theorem finalize_keeps_table (glIsShader : ℕ → Bool) (shdrInfo : List ShaderInfo) :
    (FinalizeCompileAndLink glIsShader shdrInfo).1 = shdrInfo := rfl

/-- C24 fails on the code: on a table whose only entry has the source
`void main()` and the live handle 5, `FinalizeCompileAndLink` gives handle 5 to
`glDeleteShader` and leaves the entry as it was, with its source and with
handle 5, because the loop clears and resets a copy of the entry. -/
theorem finalize_leaves_source_and_handle :
    (FinalizeCompileAndLink (fun h => decide (h = 5)) compiledTable).1 = compiledTable ∧
    (FinalizeCompileAndLink (fun h => decide (h = 5)) compiledTable).2 = [5] ∧
    ((FinalizeCompileAndLink (fun h => decide (h = 5)) compiledTable).1.map
        (fun si => (si.shaderCodeArray, si.shaderOpenGLhandle)))
      = [("void main()".toList, 5)] := by
  decide

/-- What `outerProduct` stores, on every input: the product `vec1[i] * vec2[j]` at
position `i*n1 + j`, for `0 ≤ i < n1` and `0 ≤ j < n2`. -/
theorem outerProduct_stores {R : Type} (mul : R → R → R) (vec1 : ℕ → R) (n1 : ℤ)
    (vec2 : ℕ → R) (n2 : ℤ) (p : ℤ) (v : R) :
    (p, v) ∈ outerProduct mul vec1 n1 vec2 n2 ↔
      ∃ i j : ℕ, (i : ℤ) < n1 ∧ (j : ℤ) < n2 ∧ p = (i : ℤ) * n1 + (j : ℤ) ∧
        v = mul (vec1 i) (vec2 j) := by
  simp only [outerProduct, List.mem_flatMap, List.mem_map, List.mem_range, Prod.mk.injEq]
  constructor
  · rintro ⟨i, hi, j, hj, rfl, rfl⟩
    exact ⟨i, j, by omega, by omega, rfl, rfl⟩
  · rintro ⟨i, j, hi, hj, rfl, rfl⟩
    exact ⟨i, by omega, j, by omega, rfl, rfl⟩

/-- C25 fails on the code: for `vec1 = <1, 2>` and `vec2 = <3, 5>` the array
announced is `[3*vec1, 5*vec1] = [3, 6, 5, 10]`, with `vec1[1] * vec2[0] = 6` at
position `0*2 + 1`; `outerProduct` stores `[3, 5, 6, 10]`, with
`vec1[0] * vec2[1] = 5` at position 1. -/
theorem outer_product_stored_transposed :
    outerProduct (fun a b => a * b) (vecOf [1, 2]) 2 (vecOf [3, 5]) 2
      = [(0, 3), (1, 5), (2, 6), (3, 10)] ∧
    ((0 : ℤ) * 2 + 1, vecOf [1, 2] 1 * vecOf [3, 5] 0)
      ∉ outerProduct (fun a b => a * b) (vecOf [1, 2]) 2 (vecOf [3, 5]) 2 ∧
    ((0 : ℤ) * 2 + 1, vecOf [1, 2] 0 * vecOf [3, 5] 1)
      ∈ outerProduct (fun a b => a * b) (vecOf [1, 2]) 2 (vecOf [3, 5]) 2 := by
  decide

/-- C30 fails on the code: with `n1 = 3` and `n2 = 1` the array has 3 floats and
`outerProduct` stores at the positions 0, 3 and 6, two of them past its end,
leaving the positions 1 and 2 unwritten; with `n1 = 2` and `n2 = 3` it stores
twice at position 2 and never at position 5 of the 6 floats. -/
theorem outer_product_stores_outside_array :
    outerProductSize 3 1 = 3 ∧
    (outerProduct (fun a b => a * b) (vecOf [1, 2, 4]) 3 (vecOf [3]) 1).map (fun w => w.1)
      = [0, 3, 6] ∧
    outerProductSize 2 3 = 6 ∧
    (outerProduct (fun a b => a * b) (vecOf [1, 2]) 2 (vecOf [3, 5, 7]) 3).map (fun w => w.1)
      = [0, 1, 2, 2, 3, 4] := by
  decide

/-- What `RenderTop` and `RenderBase` draw on every cylinder with `S ≥ 3`, `K ≥ 1`,
`R ≥ 1` under a tight packing: every element `RenderTop` draws is a vertex of
`[0, D)`, whose stored height is `-1.0`, and every element `RenderBase` draws is
a vertex of `[D, 2D)`, whose stored height is `1.0`. -/
theorem render_top_draws_bottom_face (g : GlGeomCylinder) (hS : 3 ≤ g.numSlices)
    (hK : 1 ≤ g.numStacks) (hR : 1 ≤ g.numRings) (po no tc st : ℤ)
    (hp : TightPacking po no tc st) :
    (∀ x ∈ drawnElements (g.CalcVboAndEbo po no tc st).2 g.RenderTop.1 g.RenderTop.2,
      (0 ≤ x ∧ x < g.GetNumVerticesDisk) ∧
      ∀ w ∈ (g.CalcVboAndEbo po no tc st).1, w.index = st * x + 1 →
        w.value = FExpr.lit (-1)) ∧
    (∀ x ∈ drawnElements (g.CalcVboAndEbo po no tc st).2 g.RenderBase.1 g.RenderBase.2,
      (g.GetNumVerticesDisk ≤ x ∧ x < 2 * g.GetNumVerticesDisk) ∧
      ∀ w ∈ (g.CalcVboAndEbo po no tc st).1, w.index = st * x + 1 →
        w.value = FExpr.lit 1) := by
  obtain ⟨e1, e2, _⟩ := split_three_blocks g.eboBottom g.eboTop
    (g.eboSide (decide (0 ≤ tc))) g.GetNumElementsDisk.toNat
    ((GlGeomCylinder.eboBottom_length g).trans (GlGeomCylinder.disk_block_length g hS hR))
    ((GlGeomCylinder.eboTop_length g).trans (GlGeomCylinder.disk_block_length g hS hR))
  simp only [drawnElements, GlGeomCylinder.RenderTop, GlGeomCylinder.RenderBase,
    GlGeomCylinder.CalcVboAndEbo, GlGeomCylinder.CalcEbo, Int.toNat_zero, List.drop_zero]
  rw [e1, e2]
  constructor
  · intro x hx
    have hb := GlGeomCylinder.eboBottom_bounds g hS hR x hx
    refine ⟨hb, fun w hw hidx => ?_⟩
    exact (GlGeomCylinder.disc_heights_bottom_face_first g hS hK hR po no tc st hp x
      w hw hidx).1 hb.2
  · intro x hx
    have hb := GlGeomCylinder.eboTop_bounds g hS hR x hx
    refine ⟨hb, fun w hw hidx => ?_⟩
    exact (GlGeomCylinder.disc_heights_bottom_face_first g hS hK hR po no tc st hp x
      w hw hidx).2 hb.1 hb.2

/-- C29 fails on the code: on the cylinder with 3 slices, 1 stack and 1 ring,
positions only and tightly packed, `RenderTop` draws the elements
`0 2 1 0 3 2 0 1 3`, vertices whose stored heights (floats `3*x + 1`) are all
`-1.0`, the bottom face, and `RenderBase` draws `4 5 6 4 6 7 4 7 5`, vertices
whose stored heights are all `1.0`, the top face. -/
theorem render_top_draws_the_face_at_minus_one :
    drawnElements ((mkCylinder 3 1 1).CalcVboAndEbo 0 (-1) (-1) 3).2
        (mkCylinder 3 1 1).RenderTop.1 (mkCylinder 3 1 1).RenderTop.2
      = [0, 2, 1, 0, 3, 2, 0, 1, 3] ∧
    (∀ x ∈ drawnElements ((mkCylinder 3 1 1).CalcVboAndEbo 0 (-1) (-1) 3).2
        (mkCylinder 3 1 1).RenderTop.1 (mkCylinder 3 1 1).RenderTop.2,
      (((mkCylinder 3 1 1).CalcVboAndEbo 0 (-1) (-1) 3).1.filter
        (fun w => decide (w.index = 3 * x + 1))).map (fun w => w.value)
          = [FExpr.lit (-1)]) ∧
    drawnElements ((mkCylinder 3 1 1).CalcVboAndEbo 0 (-1) (-1) 3).2
        (mkCylinder 3 1 1).RenderBase.1 (mkCylinder 3 1 1).RenderBase.2
      = [4, 5, 6, 4, 6, 7, 4, 7, 5] ∧
    (∀ x ∈ drawnElements ((mkCylinder 3 1 1).CalcVboAndEbo 0 (-1) (-1) 3).2
        (mkCylinder 3 1 1).RenderBase.1 (mkCylinder 3 1 1).RenderBase.2,
      (((mkCylinder 3 1 1).CalcVboAndEbo 0 (-1) (-1) 3).1.filter
        (fun w => decide (w.index = 3 * x + 1))).map (fun w => w.value)
          = [FExpr.lit 1]) := by
  refine ⟨by decide, by decide, by decide, by decide⟩

/-! ## The light record invariant: the claim -/

theorem long_direction_sqNorm :
    ratOps.sqNorm (directionalLight ⟨0, 0, 2⟩ false).PosOrDir = 4 := by
  simp only [SqNormOps.sqNorm, ratOps, directionalLight]
  norm_num

theorem long_direction_check :
    (directionalLight ⟨0, 0, 2⟩ false).CheckCorrectness ratOps = true := by
  have h := long_direction_sqNorm
  simp only [phLight.CheckCorrectness, h]
  simp only [directionalLight, ratOps]
  norm_num

/-- On every light that is directional and not a spot light, whatever the
arithmetic, `CheckCorrectness` returns true exactly when the squared norm of
`PosOrDir` is not below `0.000001`: the bounds `0.999` and `1.001` are not
looked at. -/
theorem directional_check_is_the_epsilon_test {R : Type} (o : SqNormOps R) (l : phLight R)
    (hd : l.IsDirectional = true) (hs : l.IsSpotLight = false) :
    l.CheckCorrectness o = !o.ltEps (o.sqNorm l.PosOrDir) := by
  simp only [phLight.CheckCorrectness, hd, hs, true_and, Bool.false_eq_true, false_and,
    if_false]
  cases o.ltEps (o.sqNorm l.PosOrDir) <;> simp

/-- C28 fails on the code: the directional light with `PosOrDir = (0, 0, 2)`,
not a spot light, passes `CheckCorrectness` although the squared norm of its
direction is 4, which is above `1.001` and so not within `[0.999, 1.001]`: what
is stated of a direction that "should be a unit vector" is tested against
`0.000001` only. -/
theorem long_direction_passes_validation :
    (directionalLight ⟨0, 0, 2⟩ false).CheckCorrectness ratOps = true ∧
    (directionalLight ⟨0, 0, 2⟩ false).IsDirectional = true ∧
    (directionalLight ⟨0, 0, 2⟩ false).IsSpotLight = false ∧
    ratOps.sqNorm (directionalLight ⟨0, 0, 2⟩ false).PosOrDir = 4 ∧
    ratOps.gtHigh (ratOps.sqNorm (directionalLight ⟨0, 0, 2⟩ false).PosOrDir) = true := by
  refine ⟨long_direction_check, rfl, rfl, long_direction_sqNorm, ?_⟩
  rw [long_direction_sqNorm]
  simp only [ratOps]
  norm_num

/-! ## CompileShader: the claim -/

theorem compileLoop_spec (shdrInfo : List ShaderInfo) (names : List (List Char)) :
    ∀ (typeSoFar : ShaderType) (lastIdx : ℤ),
      (compileLoop shdrInfo names typeSoFar lastIdx = none ↔
        ((∃ n ∈ names, findCodeName shdrInfo n = none) ∨
          2 ≤ names.countP (givesType shdrInfo)
            + (if typeSoFar = ShaderType.code_block then 0 else 1))) ∧
      (∀ r, compileLoop shdrInfo names typeSoFar lastIdx = some r →
        (r.1 = ShaderType.code_block ↔
          (typeSoFar = ShaderType.code_block ∧ names.countP (givesType shdrInfo) = 0))) := by
  induction names with
  | nil =>
    intro t last
    constructor
    · simp only [compileLoop, reduceCtorEq, List.not_mem_nil, false_and, exists_false,
        List.countP_nil, zero_add, false_or, false_iff]
      split <;> omega
    · intro r hr
      simp only [compileLoop, Option.some.injEq] at hr
      subst hr
      simp
  | cons n rest ih =>
    intro t last
    cases hf : findCodeName shdrInfo n with
    | none =>
      constructor
      · simp only [compileLoop, hf, true_iff]
        exact Or.inl ⟨n, List.mem_cons_self n rest, hf⟩
      · intro r hr
        simp [compileLoop, hf] at hr
    | some k =>
      have hmiss : (∃ m ∈ n :: rest, findCodeName shdrInfo m = none) ↔
          (∃ m ∈ rest, findCodeName shdrInfo m = none) := by
        constructor
        · rintro ⟨m, hm, hmn⟩
          rcases List.mem_cons.1 hm with rfl | hm
          · rw [hf] at hmn
            exact absurd hmn (by simp)
          · exact ⟨m, hm, hmn⟩
        · rintro ⟨m, hm, hmn⟩
          exact ⟨m, List.mem_cons_of_mem n hm, hmn⟩
      by_cases hty : ((shdrInfo.get? k).map (fun si => si.shaderType)).getD
          ShaderType.code_block ≠ ShaderType.code_block
      · have hg : givesType shdrInfo n = true := by
          simp only [givesType, hf, decide_eq_true_eq]
          exact hty
        have hc : (n :: rest).countP (givesType shdrInfo)
            = rest.countP (givesType shdrInfo) + 1 := by
          rw [List.countP_cons_of_pos _ _ hg]
        by_cases ht : t = ShaderType.code_block
        · subst ht
          have e : compileLoop shdrInfo (n :: rest) ShaderType.code_block last
              = compileLoop shdrInfo rest
                  (((shdrInfo.get? k).map (fun si => si.shaderType)).getD
                    ShaderType.code_block) (k : ℤ) := by
            simp only [compileLoop, hf, if_pos hty, ne_eq, not_true_eq_false, if_false]
          rw [e, hmiss, hc]
          obtain ⟨i1, i2⟩ := ih (((shdrInfo.get? k).map (fun si => si.shaderType)).getD
            ShaderType.code_block) (k : ℤ)
          constructor
          · rw [i1, if_neg hty]
            simp only [if_true, add_zero]
          · intro r hr
            rw [i2 r hr]
            constructor
            · intro h
              exact absurd h.1 hty
            · intro h
              omega
        · have e : compileLoop shdrInfo (n :: rest) t last = none := by
            simp only [compileLoop, hf, if_pos hty, ne_eq, ht, not_false_eq_true, if_true]
          rw [e, hc]
          constructor
          · simp only [true_iff, if_neg ht]
            right
            omega
          · intro r hr
            exact absurd hr (by simp)
      · have hg : givesType shdrInfo n = false := by
          simp only [givesType, hf, decide_eq_false_iff_not]
          exact hty
        have hc : (n :: rest).countP (givesType shdrInfo)
            = rest.countP (givesType shdrInfo) := by
          rw [List.countP_cons_of_neg _ _ (by simp [hg])]
        have e : compileLoop shdrInfo (n :: rest) t last
            = compileLoop shdrInfo rest t (k : ℤ) := by
          simp only [compileLoop, hf, if_neg hty]
        rw [e, hmiss, hc]
        exact ih t (k : ℤ)

/-- C23: `CompileShader(numcodeBlocks, names)` returns 0 without calling
`glCreateShader`, and leaves the table as it was, whenever some name is not the
name of a loaded block, or the number of named blocks whose type is not
`codeblock` is not exactly one (none, or more than one); and when every name is
loaded and exactly one named block gives the type, it gets past these checks:
it calls `glCreateShader` or returns the handle of the already compiled block. -/
theorem compile_needs_exactly_one_typed_block (newShader : ℕ) (compileOk : Bool)
    (shdrInfo : List ShaderInfo) (names : List (List Char)) :
    (((∃ n ∈ names, findCodeName shdrInfo n = none) ∨
        names.countP (givesType shdrInfo) ≠ 1) →
      (CompileShader newShader compileOk shdrInfo names).result = 0 ∧
      (CompileShader newShader compileOk shdrInfo names).created = false ∧
      (CompileShader newShader compileOk shdrInfo names).shdrInfo = shdrInfo) ∧
    (((∀ n ∈ names, findCodeName shdrInfo n ≠ none) ∧
        names.countP (givesType shdrInfo) = 1) →
      (CompileShader newShader compileOk shdrInfo names).created = true ∨
      (CompileShader newShader compileOk shdrInfo names).result ≠ 0) := by
  obtain ⟨h1, h2⟩ := compileLoop_spec shdrInfo names ShaderType.code_block (-1)
  simp only [if_true, add_zero, true_and] at h1 h2
  constructor
  · intro h
    cases hl : compileLoop shdrInfo names ShaderType.code_block (-1) with
    | none => simp [CompileShader, hl]
    | some r =>
      have hnot : ¬ ((∃ n ∈ names, findCodeName shdrInfo n = none) ∨
          2 ≤ names.countP (givesType shdrInfo)) := by
        rw [← h1, hl]
        simp
      have hcb : r.1 = ShaderType.code_block := by
        rw [h2 r hl]
        rcases h with h | h
        · exact absurd (Or.inl h) hnot
        · have : ¬ 2 ≤ names.countP (givesType shdrInfo) := fun hh => hnot (Or.inr hh)
          omega
      obtain ⟨t, l⟩ := r
      simp only at hcb
      subst hcb
      simp [CompileShader, hl]
  · rintro ⟨hall, hone⟩
    cases hl : compileLoop shdrInfo names ShaderType.code_block (-1) with
    | none =>
      exfalso
      rcases h1.1 hl with ⟨n, hn, hmiss⟩ | h
      · exact hall n hn hmiss
      · omega
    | some r =>
      have hcb : r.1 ≠ ShaderType.code_block := by
        rw [Ne, h2 r hl]
        omega
      obtain ⟨t, l⟩ := r
      simp only at hcb
      simp only [CompileShader, hl, if_neg hcb]
      split
      · rename_i hold
        right
        exact hold.2
      · split
        · left; rfl
        · split
          · left; rfl
          · left; rfl

theorem compile_needs_exactly_one_typed_block_witness :
    ["vs".toList, "fs".toList].countP (givesType loadedTable) ≠ 1 ∧
    (CompileShader 7 true loadedTable ["vs".toList, "fs".toList]).result = 0 ∧
    ((∀ n ∈ ["vs".toList, "cb".toList], findCodeName loadedTable n ≠ none) ∧
      ["vs".toList, "cb".toList].countP (givesType loadedTable) = 1) ∧
    ((CompileShader 7 true loadedTable ["vs".toList, "cb".toList]).created = true ∨
      (CompileShader 7 true loadedTable ["vs".toList, "cb".toList]).result ≠ 0) :=
  ⟨by decide,
    ((compile_needs_exactly_one_typed_block 7 true loadedTable
      ["vs".toList, "fs".toList]).1 (Or.inr (by decide))).1,
    ⟨by decide, by decide⟩,
    (compile_needs_exactly_one_typed_block 7 true loadedTable
      ["vs".toList, "cb".toList]).2 ⟨by decide, by decide⟩⟩

/-! ## LoadShaderSource: auxiliary facts -/

theorem begin_line_is_not_end_line (l : List Char) (h : isBeginLine l = true) :
    isEndLine l = false := by
  simp only [isBeginLine, decide_eq_true_eq] at h
  simp only [isEndLine, decide_eq_false_iff_not]
  intro h8
  have h2 : List.take 8 (List.take 10 (word l 0)) = List.take 8 (word l 0) := by
    rw [List.take_take]
    rfl
  rw [h, h8] at h2
  exact absurd h2 (by decide)

theorem findCodeName_eq_none_iff (t : List ShaderInfo) (n : List Char) :
    findCodeName t n = none ↔ n ∉ t.map (fun si => si.shaderCodeName) := by
  induction t with
  | nil => simp [findCodeName]
  | cons si rest ih =>
    simp only [findCodeName, List.map_cons, List.mem_cons, not_or]
    by_cases h : si.shaderCodeName = n
    · simp [h]
    · rw [if_neg h]
      simp only [Option.map_eq_none', ih]
      constructor
      · intro h2
        exact ⟨fun e => h e.symm, h2⟩
      · intro h2
        exact h2.2

theorem appendToBack_snoc (t : List ShaderInfo) (e : ShaderInfo) (l : List Char) :
    appendToBack (t ++ [e]) l
      = t ++ [{ e with shaderCodeArray := e.shaderCodeArray ++ l ++ [Char.ofNat 10] }] := by
  induction t with
  | nil => rfl
  | cons a rest ih =>
    cases rest with
    | nil => rfl
    | cons b rest2 =>
      have : appendToBack (a :: b :: rest2 ++ [e]) l
          = a :: appendToBack (b :: rest2 ++ [e]) l := rfl
      rw [this, ih]
      rfl

theorem appendToBack_names (t : List ShaderInfo) (l : List Char) :
    (appendToBack t l).map (fun si => si.shaderCodeName)
      = t.map (fun si => si.shaderCodeName) := by
  induction t with
  | nil => rfl
  | cons a rest ih =>
    cases rest with
    | nil => rfl
    | cons b rest2 =>
      have : appendToBack (a :: b :: rest2) l = a :: appendToBack (b :: rest2) l := rfl
      rw [this, List.map_cons, ih]
      rfl

/-- `AllocateShdrInfo` succeeds exactly on a valid tag and an unused name, and
then appends the new entry. -/
theorem allocate_ok (t : List ShaderInfo) (w2 w3 : List Char)
    (htag : w2.map Char.toLower ∈ shaderTypeName)
    (hname : w3 ∉ t.map (fun si => si.shaderCodeName)) :
    AllocateShdrInfo t w2 w3 =
      (true, t ++ [{ shaderType := shaderTypeOfIndex (shaderTypeName.indexOf (w2.map Char.toLower))
                     shaderCodeName := w3, shaderCodeArray := [], shaderOpenGLhandle := 0 }]) := by
  have hf : findCodeName t w3 = none := (findCodeName_eq_none_iff t w3).2 hname
  simp only [AllocateShdrInfo, htag, not_true_eq_false, if_false, hf, Option.isSome_none,
    Bool.false_eq_true]

theorem allocate_fails (t : List ShaderInfo) (w2 w3 : List Char)
    (h : w2.map Char.toLower ∉ shaderTypeName ∨ w3 ∈ t.map (fun si => si.shaderCodeName)) :
    AllocateShdrInfo t w2 w3 = (false, t) := by
  by_cases htag : w2.map Char.toLower ∈ shaderTypeName
  · have hname : w3 ∈ t.map (fun si => si.shaderCodeName) := by
      rcases h with h | h
      · exact absurd htag h
      · exact h
    have hf : (findCodeName t w3).isSome = true := by
      cases hc : findCodeName t w3 with
      | none => exact absurd hname ((findCodeName_eq_none_iff t w3).1 hc)
      | some k => rfl
    simp only [AllocateShdrInfo, htag, not_true_eq_false, if_false, hf, if_true]
  · simp only [AllocateShdrInfo, htag, not_false_eq_true, if_true]

/-- Lines outside every region are skipped. -/
theorem loadLines_outside (out rest : List (List Char)) (t : List ShaderInfo)
    (hout : ∀ l ∈ out, isMarker l = false) :
    loadLines (out ++ rest) (-1) t = loadLines rest (-1) t := by
  induction out with
  | nil => rfl
  | cons l out ih =>
    have hl := hout l (List.mem_cons_self l out)
    simp only [isMarker, Bool.or_eq_false_iff] at hl
    rw [List.cons_append]
    simp only [loadLines, hl.1, hl.2, Bool.false_eq_true, if_false, if_true]
    exact ih (fun m hm => hout m (List.mem_cons_of_mem l hm))

/-- The lines between the markers are appended to the last entry, each followed
by a newline. -/
theorem loadLines_body (body rest : List (List Char)) (idx : ℤ) (hidx : idx ≠ -1)
    (hbody : ∀ l ∈ body, isMarker l = false) :
    ∀ (t : List ShaderInfo) (e : ShaderInfo),
      loadLines (body ++ rest) idx (t ++ [e])
        = loadLines rest idx
            (t ++ [{ e with shaderCodeArray :=
              e.shaderCodeArray ++ (body.map (fun l => l ++ [Char.ofNat 10])).flatten }]) := by
  induction body with
  | nil =>
    intro t e
    simp
  | cons l body ih =>
    intro t e
    have hl := hbody l (List.mem_cons_self l body)
    simp only [isMarker, Bool.or_eq_false_iff] at hl
    rw [List.cons_append]
    simp only [loadLines, hl.1, hl.2, Bool.false_eq_true, if_false, if_neg hidx]
    rw [appendToBack_snoc, ih (fun m hm => hbody m (List.mem_cons_of_mem l hm))]
    simp only [List.map_cons, List.flatten_cons, List.append_assoc]

/-- A `#beginglsl` line with a valid tag and an unused name, read while no region
is open, appends an entry without source and opens a region. -/
theorem loadLines_begin (l : List Char) (rest : List (List Char)) (t : List ShaderInfo)
    (hb : isBeginLine l = true) (htag : (word l 1).map Char.toLower ∈ shaderTypeName)
    (hname : word l 2 ∉ t.map (fun si => si.shaderCodeName)) :
    loadLines (l :: rest) (-1) t
      = loadLines rest (t.length : ℤ)
          (t ++ [{ shaderType :=
                     shaderTypeOfIndex (shaderTypeName.indexOf ((word l 1).map Char.toLower))
                   shaderCodeName := word l 2, shaderCodeArray := [],
                   shaderOpenGLhandle := 0 }]) := by
  have hal := allocate_ok t (word l 1) (word l 2) htag hname
  simp only [loadLines, hb, if_true, ne_eq, not_true_eq_false, if_false, hal,
    Bool.true_eq_false]

/-- An `#endglsl` line read while a region is open closes it. -/
theorem loadLines_end (l : List Char) (rest : List (List Char)) (idx : ℤ)
    (t : List ShaderInfo) (he : isEndLine l = true) (hidx : idx ≠ -1) :
    loadLines (l :: rest) idx t = loadLines rest (-1) t := by
  have hnb : isBeginLine l = false := by
    cases hc : isBeginLine l with
    | false => rfl
    | true =>
      have := begin_line_is_not_end_line l hc
      rw [he] at this
      exact absurd this (by simp)
  simp only [loadLines, hnb, Bool.false_eq_true, if_false, he, if_true, if_neg hidx]

/-- A well-formed region read while no region is open appends its entry and
leaves no region open. -/
theorem loadLines_region (r : SourceRegion) (hr : r.WellFormed) (rest : List (List Char))
    (t : List ShaderInfo) (hname : r.name ∉ t.map (fun si => si.shaderCodeName)) :
    loadLines (r.lines ++ rest) (-1) t = loadLines rest (-1) (t ++ [r.entry]) := by
  obtain ⟨hb, htag, hbody, he⟩ := hr
  have hne : ((t.length : ℕ) : ℤ) ≠ -1 := by omega
  have e0 : r.lines ++ rest = r.beginLine :: (r.body ++ (r.endLine :: rest)) := by
    simp [SourceRegion.lines]
  rw [e0, loadLines_begin r.beginLine _ t hb htag hname,
    loadLines_body r.body _ _ hne hbody, loadLines_end r.endLine rest _ _ he hne]
  rfl

theorem sourceText_cons (s : List (List Char) × SourceRegion)
    (segs : List (List (List Char) × SourceRegion)) (post : List (List Char)) :
    sourceText (s :: segs) post = s.1 ++ (s.2.lines ++ sourceText segs post) := by
  simp [sourceText, List.flatMap_cons]

/-- Reading a well-formed text while no region is open appends the entries of its
regions, in order, and ends with no region open. -/
theorem loadLines_sourceText (post : List (List Char)) (hpost : ∀ l ∈ post, isMarker l = false)
    (segs : List (List (List Char) × SourceRegion)) :
    ∀ t : List ShaderInfo,
      (∀ s ∈ segs, ∀ l ∈ s.1, isMarker l = false) → (∀ s ∈ segs, s.2.WellFormed) →
      (segs.map (fun s => s.2.name)).Nodup →
      (∀ s ∈ segs, s.2.name ∉ t.map (fun si => si.shaderCodeName)) →
      loadLines (sourceText segs post) (-1) t
        = (-1, t ++ (segs.map Prod.snd).map SourceRegion.entry) := by
  induction segs with
  | nil =>
    intro t _ _ _ _
    have h := loadLines_outside post [] t hpost
    simp only [List.append_nil] at h
    simp only [sourceText, List.flatMap_nil, List.nil_append, h, loadLines, List.map_nil,
      List.append_nil]
  | cons s segs ih =>
    intro t hout hwf hnd hnames
    rw [sourceText_cons, loadLines_outside s.1 _ t (hout s (List.mem_cons_self s segs)),
      loadLines_region s.2 (hwf s (List.mem_cons_self s segs)) _ t
        (hnames s (List.mem_cons_self s segs))]
    rw [List.map_cons, List.nodup_cons] at hnd
    rw [ih (t ++ [s.2.entry]) (fun x hx => hout x (List.mem_cons_of_mem s hx))
      (fun x hx => hwf x (List.mem_cons_of_mem s hx)) hnd.2]
    · simp only [List.map_cons, List.append_assoc, List.singleton_append]
    · intro x hx hmem
      simp only [List.map_append, List.map_cons, List.map_nil, List.mem_append,
        List.mem_singleton] at hmem
      rcases hmem with hmem | hmem
      · exact hnames x (List.mem_cons_of_mem s hx) hmem
      · apply hnd.1
        have : x.2.name ∈ segs.map (fun s => s.2.name) := List.mem_map_of_mem _ hx
        rw [hmem] at this
        exact this

theorem load_wellFormedSource (shdrInfo : List ShaderInfo)
    (segs : List (List (List Char) × SourceRegion)) (post : List (List Char))
    (h : WellFormedSource shdrInfo segs post) :
    LoadShaderSource shdrInfo (sourceText segs post)
      = (true, shdrInfo ++ (segs.map Prod.snd).map SourceRegion.entry) := by
  obtain ⟨hne, hout, hpost, hwf, hnd, hnames⟩ := h
  have hl := loadLines_sourceText post hpost segs shdrInfo hout hwf hnd hnames
  have hlen : 0 < segs.length := List.length_pos.2 hne
  simp only [LoadShaderSource, hl, List.length_append, List.length_map]
  have h1 : ¬ ((-1 : ℤ) ≥ 0) := by omega
  have h2 : ¬ ((((shdrInfo.length + segs.length : ℕ) : ℤ)) = (shdrInfo.length : ℤ)) := by
    omega
  simp only [h1, if_false, h2, and_false]
  rfl

theorem typeName_of_tag (tag : List Char) (h : tag ∈ shaderTypeName) :
    (shaderTypeOfIndex (shaderTypeName.indexOf tag)).typeName = tag := by
  simp only [shaderTypeName, List.mem_cons, List.mem_singleton, List.not_mem_nil,
    or_false] at h
  rcases h with rfl | rfl | rfl | rfl <;> decide

/-- C21: on a well-formed source text (at least one region; every `#beginglsl`
line carries a valid type tag and a name not used before, and is closed by an
`#endglsl` line, without nesting; no other line is a marker),
`LoadShaderSource` returns true and appends to the table one entry for each
region, in file order, whose type is the tag, whose name is the given name, whose
handle is 0 and whose source is the lines between the two markers, each
followed by a newline; the lines outside the regions contribute nothing, so two
well-formed texts with the same regions give the same result. -/
theorem well_formed_source_is_loaded (shdrInfo : List ShaderInfo)
    (segs : List (List (List Char) × SourceRegion)) (post : List (List Char))
    (h : WellFormedSource shdrInfo segs post) :
    LoadShaderSource shdrInfo (sourceText segs post)
      = (true, shdrInfo ++ (segs.map Prod.snd).map SourceRegion.entry) ∧
    (∀ s ∈ segs,
      s.2.entry.shaderType.typeName = (word s.2.beginLine 1).map Char.toLower ∧
      s.2.entry.shaderCodeName = word s.2.beginLine 2 ∧
      s.2.entry.shaderOpenGLhandle = 0 ∧
      s.2.entry.shaderCodeArray = (s.2.body.map (fun l => l ++ [Char.ofNat 10])).flatten) ∧
    (∀ (segs2 : List (List (List Char) × SourceRegion)) (post2 : List (List Char)),
      WellFormedSource shdrInfo segs2 post2 → segs2.map Prod.snd = segs.map Prod.snd →
      LoadShaderSource shdrInfo (sourceText segs2 post2)
        = LoadShaderSource shdrInfo (sourceText segs post)) := by
  refine ⟨load_wellFormedSource shdrInfo segs post h, ?_, ?_⟩
  · intro s hs
    exact ⟨typeName_of_tag _ (h.2.2.2.1 s hs).2.1, rfl, rfl, rfl⟩
  · intro segs2 post2 h2 heq
    rw [load_wellFormedSource shdrInfo segs2 post2 h2, load_wellFormedSource shdrInfo segs post h,
      heq]

theorem sampleSegments_wellFormed :
    WellFormedSource [] sampleSegments ["tail".toList] := by
  simp only [WellFormedSource, SourceRegion.WellFormed]
  decide

theorem well_formed_source_is_loaded_witness :
    WellFormedSource [] sampleSegments ["tail".toList] ∧
    LoadShaderSource [] (sourceText sampleSegments ["tail".toList])
      = (true, [] ++ (sampleSegments.map Prod.snd).map SourceRegion.entry) :=
  ⟨sampleSegments_wellFormed,
    (well_formed_source_is_loaded [] sampleSegments ["tail".toList]
      sampleSegments_wellFormed).1⟩

/-! ## LoadShaderSource: when it fails -/

theorem regionOpen_snoc (pre : List (List Char)) (l : List Char) :
    regionOpen (pre ++ [l])
      = if isBeginLine l then true else if isEndLine l then false else regionOpen pre := by
  simp only [regionOpen, List.foldl_append, List.foldl_cons, List.foldl_nil]

theorem beginNames_snoc (pre : List (List Char)) (l : List Char) :
    beginNames (pre ++ [l])
      = beginNames pre ++ (if isBeginLine l then [word l 2] else []) := by
  simp only [beginNames, List.filter_append, List.map_append]
  cases h : isBeginLine l <;> simp [List.filter, h]

theorem exists_split_cons {P : List (List Char) → List Char → Prop} (l : List Char)
    (rest : List (List Char)) :
    (∃ a m b, l :: rest = a ++ m :: b ∧ P a m) ↔
      (P [] l ∨ ∃ a m b, rest = a ++ m :: b ∧ P (l :: a) m) := by
  constructor
  · rintro ⟨a, m, b, h, hp⟩
    cases a with
    | nil =>
      simp only [List.nil_append, List.cons.injEq] at h
      obtain ⟨rfl, _⟩ := h
      exact Or.inl hp
    | cons x a =>
      simp only [List.cons_append, List.cons.injEq] at h
      obtain ⟨rfl, h⟩ := h
      exact Or.inr ⟨a, m, b, h, hp⟩
  · rintro (hp | ⟨a, m, b, h, hp⟩)
    · exact ⟨[], l, rest, rfl, hp⟩
    · exact ⟨l :: a, m, b, by rw [h]; rfl, hp⟩

/-- The state the reading loop is in after the lines `pre`, read without error:
`shdrIdx` tells whether a region is open, and the names of the table are those
it had, followed by the names of the `#beginglsl` lines read. -/
theorem loadLines_scan (shdrInfo : List ShaderInfo) (rest : List (List Char)) :
    ∀ (pre : List (List Char)) (idx : ℤ) (t : List ShaderInfo),
      ((idx = -1 ∧ regionOpen pre = false) ∨ (0 ≤ idx ∧ regionOpen pre = true)) →
      t.map (fun si => si.shaderCodeName)
        = shdrInfo.map (fun si => si.shaderCodeName) ++ beginNames pre →
      ((loadLines rest idx t).1 = -2 ↔
        ∃ a l b, rest = a ++ l :: b ∧ lineInError shdrInfo (pre ++ a) l) ∧
      ((loadLines rest idx t).1 ≠ -2 →
        (((loadLines rest idx t).1 = -1 ∧ regionOpen (pre ++ rest) = false) ∨
          (0 ≤ (loadLines rest idx t).1 ∧ regionOpen (pre ++ rest) = true)) ∧
        (loadLines rest idx t).2.map (fun si => si.shaderCodeName)
          = shdrInfo.map (fun si => si.shaderCodeName) ++ beginNames (pre ++ rest)) := by
  induction rest with
  | nil =>
    intro pre idx t hidx hnames
    simp only [loadLines, List.append_nil]
    refine ⟨?_, fun _ => ⟨hidx, hnames⟩⟩
    constructor
    · intro h
      omega
    · rintro ⟨a, l, b, h, _⟩
      exact absurd h (by simp)
  | cons l rest ih =>
    intro pre idx t hidx hnames
    have hsplit : (∃ a m b, l :: rest = a ++ m :: b ∧ lineInError shdrInfo (pre ++ a) m) ↔
        (lineInError shdrInfo pre l ∨
          ∃ a m b, rest = a ++ m :: b ∧ lineInError shdrInfo ((pre ++ [l]) ++ a) m) := by
      have h := @exists_split_cons (fun a m => lineInError shdrInfo (pre ++ a) m) l rest
      simpa [List.append_assoc] using h
    have hrest : pre ++ l :: rest = (pre ++ [l]) ++ rest := by simp
    rw [hsplit, hrest]
    by_cases hb : isBeginLine l = true
    · -- a `#beginglsl` line
      have hne : isEndLine l = false := begin_line_is_not_end_line l hb
      by_cases hopen : idx = -1
      · have hclosed : regionOpen pre = false := by
          rcases hidx with h | h
          · exact h.2
          · omega
        by_cases hok : (word l 1).map Char.toLower ∈ shaderTypeName ∧
            word l 2 ∉ t.map (fun si => si.shaderCodeName)
        · -- the entry is allocated
          have e := loadLines_begin l rest t hb hok.1 hok.2
          rw [hopen, e]
          have hnoerr : ¬ lineInError shdrInfo pre l := by
            rintro (⟨_, h | h | h⟩ | ⟨h, _⟩)
            · rw [hclosed] at h; exact absurd h (by simp)
            · exact h hok.1
            · rw [← hnames] at h; exact hok.2 h
            · rw [hne] at h; exact absurd h (by simp)
          have hidx2 : (((t.length : ℕ) : ℤ) = -1 ∧ regionOpen (pre ++ [l]) = false) ∨
              (0 ≤ ((t.length : ℕ) : ℤ) ∧ regionOpen (pre ++ [l]) = true) := by
            right
            refine ⟨by omega, ?_⟩
            rw [regionOpen_snoc, if_pos hb]
          have hnames2 : ∀ e : ShaderInfo, e.shaderCodeName = word l 2 →
              (t ++ [e]).map (fun si => si.shaderCodeName)
                = shdrInfo.map (fun si => si.shaderCodeName) ++ beginNames (pre ++ [l]) := by
            intro e he
            rw [beginNames_snoc, if_pos hb, List.map_append, hnames]
            simp [he]
          obtain ⟨i1, i2⟩ := ih (pre ++ [l]) (t.length : ℤ)
            (t ++ [ShaderInfo.mk
              (shaderTypeOfIndex (shaderTypeName.indexOf ((word l 1).map Char.toLower)))
              (word l 2) [] 0]) hidx2 (hnames2 _ rfl)
          refine ⟨?_, i2⟩
          rw [i1]
          constructor
          · intro h; exact Or.inr h
          · rintro (h | h)
            · exact absurd h hnoerr
            · exact h
        · -- the allocation fails
          have hfail : (word l 1).map Char.toLower ∉ shaderTypeName ∨
              word l 2 ∈ t.map (fun si => si.shaderCodeName) := by
            by_cases h1 : (word l 1).map Char.toLower ∈ shaderTypeName
            · right
              by_contra h2
              exact hok ⟨h1, h2⟩
            · exact Or.inl h1
          have e : loadLines (l :: rest) (-1) t = (-2, t) := by
            simp only [loadLines, hb, if_true, ne_eq, not_true_eq_false, if_false,
              allocate_fails t _ _ hfail]
          rw [hopen, e]
          refine ⟨?_, fun h => absurd rfl h⟩
          simp only [true_iff]
          left
          left
          refine ⟨hb, ?_⟩
          rcases hfail with h | h
          · exact Or.inr (Or.inl h)
          · exact Or.inr (Or.inr (by rw [← hnames]; exact h))
      · -- a region is open already
        have hop : regionOpen pre = true := by
          rcases hidx with h | h
          · exact absurd h.1 hopen
          · exact h.2
        have e : loadLines (l :: rest) idx t = (-2, t) := by
          simp only [loadLines, hb, if_true, ne_eq, hopen, not_false_eq_true]
        rw [e]
        refine ⟨?_, fun h => absurd rfl h⟩
        simp only [true_iff]
        exact Or.inl (Or.inl ⟨hb, Or.inl hop⟩)
    · have hb2 : isBeginLine l = false := by
        cases hc : isBeginLine l with
        | false => rfl
        | true => exact absurd hc hb
      have hnames2 : t.map (fun si => si.shaderCodeName)
          = shdrInfo.map (fun si => si.shaderCodeName) ++ beginNames (pre ++ [l]) := by
        rw [beginNames_snoc, hb2]
        simp [hnames]
      by_cases he : isEndLine l = true
      · -- an `#endglsl` line
        by_cases hopen : idx = -1
        · have hclosed : regionOpen pre = false := by
            rcases hidx with h | h
            · exact h.2
            · omega
          have e : loadLines (l :: rest) idx t = (-2, t) := by
            simp only [loadLines, hb2, Bool.false_eq_true, if_false, he, if_true, hopen]
          rw [e]
          refine ⟨?_, fun h => absurd rfl h⟩
          simp only [true_iff]
          exact Or.inl (Or.inr ⟨he, hclosed⟩)
        · have hop : regionOpen pre = true := by
            rcases hidx with h | h
            · exact absurd h.1 hopen
            · exact h.2
          have e := loadLines_end l rest idx t he hopen
          rw [e]
          have hnoerr : ¬ lineInError shdrInfo pre l := by
            rintro (⟨h, _⟩ | ⟨_, h⟩)
            · exact hb h
            · rw [hop] at h; exact absurd h (by simp)
          have hidx2 : ((-1 : ℤ) = -1 ∧ regionOpen (pre ++ [l]) = false) ∨
              (0 ≤ (-1 : ℤ) ∧ regionOpen (pre ++ [l]) = true) := by
            left
            refine ⟨rfl, ?_⟩
            rw [regionOpen_snoc, hb2, he]
            simp
          obtain ⟨i1, i2⟩ := ih (pre ++ [l]) (-1) t hidx2 hnames2
          refine ⟨?_, i2⟩
          rw [i1]
          constructor
          · intro h; exact Or.inr h
          · rintro (h | h)
            · exact absurd h hnoerr
            · exact h
      · -- any other line
        have he2 : isEndLine l = false := by
          cases hc : isEndLine l with
          | false => rfl
          | true => exact absurd hc he
        have hnoerr : ¬ lineInError shdrInfo pre l := by
          rintro (⟨h, _⟩ | ⟨h, _⟩)
          · exact hb h
          · exact he h
        have hidx2 : ((idx = -1 ∧ regionOpen (pre ++ [l]) = false) ∨
            (0 ≤ idx ∧ regionOpen (pre ++ [l]) = true)) := by
          rw [regionOpen_snoc, hb2, he2]
          simpa using hidx
        by_cases hopen : idx = -1
        · have e : loadLines (l :: rest) idx t = loadLines rest idx t := by
            simp only [loadLines, hb2, Bool.false_eq_true, if_false, he2, hopen, if_true]
          rw [e]
          obtain ⟨i1, i2⟩ := ih (pre ++ [l]) idx t hidx2 hnames2
          refine ⟨?_, i2⟩
          rw [i1]
          constructor
          · intro h; exact Or.inr h
          · rintro (h | h)
            · exact absurd h hnoerr
            · exact h
        · have e : loadLines (l :: rest) idx t
              = loadLines rest idx (appendToBack t l) := by
            simp only [loadLines, hb2, Bool.false_eq_true, if_false, he2, if_neg hopen]
          rw [e]
          have hnames3 : (appendToBack t l).map (fun si => si.shaderCodeName)
              = shdrInfo.map (fun si => si.shaderCodeName) ++ beginNames (pre ++ [l]) := by
            rw [appendToBack_names]
            exact hnames2
          obtain ⟨i1, i2⟩ := ih (pre ++ [l]) idx (appendToBack t l) hidx2 hnames3
          refine ⟨?_, i2⟩
          rw [i1]
          constructor
          · intro h; exact Or.inr h
          · rintro (h | h)
            · exact absurd h hnoerr
            · exact h

/-- The failure conditions, with those on a single line gathered in
`lineInError`. -/
theorem loadFailure_iff (shdrInfo : List ShaderInfo) (ls : List (List Char)) :
    LoadFailure shdrInfo ls ↔
      ((∃ a l b, ls = a ++ l :: b ∧ lineInError shdrInfo a l) ∨ regionOpen ls = true ∨
        (∀ l ∈ ls, isBeginLine l = false)) := by
  constructor
  · rintro (⟨a, l, b, h, hb, ho⟩ | ⟨a, l, b, h, he, ho⟩ | h | h | ⟨l, hl, hb, ht⟩ |
      ⟨a, l, b, h, hb, hn⟩)
    · exact Or.inl ⟨a, l, b, h, Or.inl ⟨hb, Or.inl ho⟩⟩
    · exact Or.inl ⟨a, l, b, h, Or.inr ⟨he, ho⟩⟩
    · exact Or.inr (Or.inl h)
    · exact Or.inr (Or.inr h)
    · obtain ⟨a, b, h⟩ := List.append_of_mem hl
      exact Or.inl ⟨a, l, b, h, Or.inl ⟨hb, Or.inr (Or.inl ht)⟩⟩
    · exact Or.inl ⟨a, l, b, h, Or.inl ⟨hb, Or.inr (Or.inr hn)⟩⟩
  · rintro (⟨a, l, b, h, (⟨hb, ho | ht | hn⟩ | ⟨he, ho⟩)⟩ | h | h)
    · exact Or.inl ⟨a, l, b, h, hb, ho⟩
    · refine Or.inr (Or.inr (Or.inr (Or.inr (Or.inl ⟨l, ?_, hb, ht⟩))))
      rw [h]
      simp
    · exact Or.inr (Or.inr (Or.inr (Or.inr (Or.inr ⟨a, l, b, h, hb, hn⟩))))
    · exact Or.inr (Or.inl ⟨a, l, b, h, he, ho⟩)
    · exact Or.inr (Or.inr (Or.inl h))
    · exact Or.inr (Or.inr (Or.inr (Or.inl h)))

theorem beginNames_eq_nil_iff (ls : List (List Char)) :
    beginNames ls = [] ↔ ∀ l ∈ ls, isBeginLine l = false := by
  simp only [beginNames, List.map_eq_nil_iff, List.filter_eq_nil_iff, Bool.not_eq_true]

/-- C22: `LoadShaderSource` on the lines of a readable source text returns false
if and only if, scanning the lines in order, a `#beginglsl` line occurs while a
region is open, or an `#endglsl` line occurs while none is open, or the text
ends while a region is open, or the text has no `#beginglsl` line, or the type
tag of a `#beginglsl` line is, in lower case, none of the four type names, or the
name of a `#beginglsl` line is the name of a block already in the table. -/
theorem load_returns_false_iff_failure (shdrInfo : List ShaderInfo) (ls : List (List Char)) :
    (LoadShaderSource shdrInfo ls).1 = false ↔ LoadFailure shdrInfo ls := by
  rw [loadFailure_iff]
  obtain ⟨i1, i2⟩ := loadLines_scan shdrInfo ls [] (-1) shdrInfo (Or.inl ⟨rfl, rfl⟩)
    (by simp [beginNames])
  simp only [List.nil_append] at i1 i2
  by_cases herr : (loadLines ls (-1) shdrInfo).1 = -2
  · have hf : (LoadShaderSource shdrInfo ls).1 = false := by
      simp only [LoadShaderSource, herr]
      simp
    exact ⟨fun _ => Or.inl (i1.1 herr), fun _ => hf⟩
  · obtain ⟨hidx, hnames⟩ := i2 herr
    have hnoerr : ¬ ∃ a l b, ls = a ++ l :: b ∧ lineInError shdrInfo a l :=
      fun h => herr (i1.2 h)
    have hlen : ((loadLines ls (-1) shdrInfo).2.length : ℤ) = (shdrInfo.length : ℤ) ↔
        ∀ l ∈ ls, isBeginLine l = false := by
      rw [← beginNames_eq_nil_iff]
      have := congrArg List.length hnames
      simp only [List.length_map, List.length_append] at this
      rw [← List.length_eq_zero]
      omega
    rcases hidx with ⟨hm, hclosed⟩ | ⟨hpos, hop⟩
    · by_cases hnb : ∀ l ∈ ls, isBeginLine l = false
      · have hf : (LoadShaderSource shdrInfo ls).1 = false := by
          simp only [LoadShaderSource, hm, hlen.2 hnb]
          simp
        exact ⟨fun _ => Or.inr (Or.inr hnb), fun _ => hf⟩
      · have ht : (LoadShaderSource shdrInfo ls).1 = true := by
          have hl := mt hlen.1 hnb
          simp only [LoadShaderSource, hm, hl]
          simp
        constructor
        · intro h
          rw [ht] at h
          exact absurd h (by simp)
        · rintro (h | h | h)
          · exact absurd h hnoerr
          · rw [hclosed] at h
            exact absurd h (by simp)
          · exact absurd h hnb
    · have hf : (LoadShaderSource shdrInfo ls).1 = false := by
        simp only [LoadShaderSource, ge_iff_le, hpos, if_true]
        simp
      exact ⟨fun _ => Or.inr (Or.inl hop), fun _ => hf⟩

/-! ## Sphere: texture coordinates and the seam column -/

/-- The stores of the loop body for a slice and a stack of the loop ranges are
stores of `CalcVbo`. -/
theorem GlGeomSphere.vboVertex_subset_calcVbo (g : GlGeomSphere) (vp vn tc st i j : ℤ)
    (hi0 : 0 ≤ i) (hi : i ≤ g.numSlices) (hj0 : 0 ≤ j) (hj : j ≤ g.numStacks) :
    ∀ w ∈ g.vboVertex vp vn tc st i j, w ∈ g.CalcVbo vp vn tc st := by
  intro w hw
  simp only [GlGeomSphere.CalcVbo, List.mem_flatMap, List.mem_range]
  refine ⟨i.toNat, by omega, j.toNat, by omega, ?_⟩
  rw [Int.toNat_of_nonneg hi0, Int.toNat_of_nonneg hj0]
  exact hw

/-- The texture-coordinate stores of the loop body where the vertex is written:
`s` is `i/numSlices` off the poles and `0.5` on them, `t` is `j/numStacks`. -/
theorem GlGeomSphere.vboVertex_texCoordStores (g : GlGeomSphere) (vp vn tc st i j v : ℤ)
    (htc : 0 ≤ tc) (hv : g.GetVertexNumber i j true = (true, v)) :
    texCoordStores (g.vboVertex vp vn tc st i j)
      = [(st * v + tc, if j ≠ 0 ∧ j ≠ g.numStacks
            then FExpr.div (FExpr.ofInt i) (FExpr.ofInt g.numSlices) else FExpr.lit (1 / 2)),
         (st * v + tc + 1, FExpr.div (FExpr.ofInt j) (FExpr.ofInt g.numStacks))] := by
  have hd : decide (0 ≤ tc) = true := decide_eq_true htc
  simp only [GlGeomSphere.vboVertex, hd, hv, texCoordStores]
  by_cases hn : 0 ≤ vn <;> simp [hn, List.filter]

/-- The position values of the loop body where the vertex is written. -/
theorem GlGeomSphere.vboVertex_posValues (g : GlGeomSphere) (vp vn tc st i j v : ℤ)
    (htc : 0 ≤ tc) (hv : g.GetVertexNumber i j true = (true, v)) :
    posValues (g.vboVertex vp vn tc st i j)
      = [FExpr.mul (FExpr.neg (FExpr.sin (FExpr.div (FExpr.mul
            (FExpr.ofInt (Int.tmod i g.numSlices)) FExpr.PI2) (FExpr.ofInt g.numSlices))))
           (if j < g.numStacks
            then FExpr.sin (FExpr.mul (FExpr.div (FExpr.ofInt j) (FExpr.ofInt g.numStacks))
              FExpr.PI)
            else FExpr.lit 0),
         FExpr.neg (FExpr.cos (FExpr.mul (FExpr.div (FExpr.ofInt j) (FExpr.ofInt g.numStacks))
           FExpr.PI)),
         FExpr.mul (FExpr.neg (FExpr.cos (FExpr.div (FExpr.mul
            (FExpr.ofInt (Int.tmod i g.numSlices)) FExpr.PI2) (FExpr.ofInt g.numSlices))))
           (if j < g.numStacks
            then FExpr.sin (FExpr.mul (FExpr.div (FExpr.ofInt j) (FExpr.ofInt g.numStacks))
              FExpr.PI)
            else FExpr.lit 0)] := by
  have hd : decide (0 ≤ tc) = true := decide_eq_true htc
  simp only [GlGeomSphere.vboVertex, hd, hv, posValues]
  by_cases hn : 0 ≤ vn <;> simp [hn, List.filter]

theorem exactValue_div_self (n : ℤ) (hn : n ≠ 0) :
    (FExpr.div (FExpr.ofInt n) (FExpr.ofInt n)).exactValue = some 1 := by
  have h : (n : ℚ) ≠ 0 := by exact_mod_cast hn
  simp [FExpr.exactValue, h]

theorem exactValue_zero_div (n : ℤ) (hn : n ≠ 0) :
    (FExpr.div (FExpr.ofInt 0) (FExpr.ofInt n)).exactValue = some 0 := by
  have h : (n : ℚ) ≠ 0 := by exact_mod_cast hn
  simp [FExpr.exactValue, h]

/-- C27: with texture coordinates requested on a sphere of at least 3 slices and
3 stacks, the loop body for slice `i` and stack `j` (`0 ≤ i ≤ S`, `1 ≤ j ≤ T-1`)
writes vertex `(T-1)*i + j + 1` and stores for it the texture coordinate
`(i/S, j/T)`; at the poles, written on slice 0 only, it stores `s = 0.5` with
`t = 0/T = 0` at stack 0 and `t = T/T = 1` at stack `T`; and the seam column
`i = S` is a vertex other than that of column 0 of the same stack, with the same
three position values, and with `s = S/S = 1` where column 0 has `s = 0/S = 0`.
All these stores are stores of `CalcVboAndEbo`. -/
theorem sphere_texcoords_per_vertex_and_seam (g : GlGeomSphere) (vp vn tc st : ℤ)
    (hS : 3 ≤ g.numSlices) (hT : 3 ≤ g.numStacks) (htc : 0 ≤ tc) :
    (∀ i j : ℤ, 0 ≤ i → i ≤ g.numSlices → 1 ≤ j → j ≤ g.numStacks - 1 →
      g.GetVertexNumber i j true = (true, (g.numStacks - 1) * i + j + 1) ∧
      texCoordStores (g.vboVertex vp vn tc st i j)
        = [(st * ((g.numStacks - 1) * i + j + 1) + tc,
              FExpr.div (FExpr.ofInt i) (FExpr.ofInt g.numSlices)),
           (st * ((g.numStacks - 1) * i + j + 1) + tc + 1,
              FExpr.div (FExpr.ofInt j) (FExpr.ofInt g.numStacks))] ∧
      (∀ w ∈ g.vboVertex vp vn tc st i j, w ∈ (g.CalcVboAndEbo vp vn tc st).1)) ∧
    (texCoordStores (g.vboVertex vp vn tc st 0 0)
        = [(st * 0 + tc, FExpr.lit (1 / 2)),
           (st * 0 + tc + 1, FExpr.div (FExpr.ofInt 0) (FExpr.ofInt g.numStacks))] ∧
      (FExpr.div (FExpr.ofInt 0) (FExpr.ofInt g.numStacks)).exactValue = some 0 ∧
      texCoordStores (g.vboVertex vp vn tc st 0 g.numStacks)
        = [(st * 1 + tc, FExpr.lit (1 / 2)),
           (st * 1 + tc + 1, FExpr.div (FExpr.ofInt g.numStacks) (FExpr.ofInt g.numStacks))] ∧
      (FExpr.div (FExpr.ofInt g.numStacks) (FExpr.ofInt g.numStacks)).exactValue = some 1 ∧
      (∀ w ∈ g.vboVertex vp vn tc st 0 0, w ∈ (g.CalcVboAndEbo vp vn tc st).1) ∧
      (∀ w ∈ g.vboVertex vp vn tc st 0 g.numStacks, w ∈ (g.CalcVboAndEbo vp vn tc st).1) ∧
      (∀ i : ℤ, i ≠ 0 →
        g.vboVertex vp vn tc st i 0 = [] ∧ g.vboVertex vp vn tc st i g.numStacks = [])) ∧
    (∀ j : ℤ, 1 ≤ j → j ≤ g.numStacks - 1 →
      (g.GetVertexNumber g.numSlices j true).2 ≠ (g.GetVertexNumber 0 j true).2 ∧
      posValues (g.vboVertex vp vn tc st g.numSlices j)
        = posValues (g.vboVertex vp vn tc st 0 j) ∧
      (posValues (g.vboVertex vp vn tc st g.numSlices j)).length = 3 ∧
      (FExpr.div (FExpr.ofInt g.numSlices) (FExpr.ofInt g.numSlices)).exactValue = some 1 ∧
      (FExpr.div (FExpr.ofInt 0) (FExpr.ofInt g.numSlices)).exactValue = some 0) := by
  have hd : decide (0 ≤ tc) = true := decide_eq_true htc
  have hinner : ∀ i j : ℤ, 1 ≤ j → j ≤ g.numStacks - 1 →
      g.GetVertexNumber i j true = (true, (g.numStacks - 1) * i + j + 1) := by
    intro i j hj1 hj2
    rw [GlGeomSphere.getVertexNumber_inner g i j true (by omega) (by omega)]
    simp
  refine ⟨?_, ?_, ?_⟩
  · intro i j hi0 hi hj1 hj2
    refine ⟨hinner i j hj1 hj2, ?_, ?_⟩
    · rw [GlGeomSphere.vboVertex_texCoordStores g vp vn tc st i j _ htc (hinner i j hj1 hj2)]
      have h1 : j ≠ 0 := by omega
      have h2 : j ≠ g.numStacks := by omega
      simp [h1, h2]
    · exact GlGeomSphere.vboVertex_subset_calcVbo g vp vn tc st i j hi0 hi (by omega) (by omega)
  · have hsouth : g.GetVertexNumber 0 0 true = (true, 0) := by
      rw [GlGeomSphere.getVertexNumber_south]
      simp
    have hnorth : g.GetVertexNumber 0 g.numStacks true = (true, 1) := by
      rw [GlGeomSphere.getVertexNumber_north g 0 true (by omega)]
      simp
    refine ⟨?_, exactValue_zero_div _ (by omega), ?_, exactValue_div_self _ (by omega),
      GlGeomSphere.vboVertex_subset_calcVbo g vp vn tc st 0 0 (by omega) (by omega) (by omega)
        (by omega),
      GlGeomSphere.vboVertex_subset_calcVbo g vp vn tc st 0 g.numStacks (by omega) (by omega)
        (by omega) (by omega), ?_⟩
    · rw [GlGeomSphere.vboVertex_texCoordStores g vp vn tc st 0 0 0 htc hsouth]
      simp
    · rw [GlGeomSphere.vboVertex_texCoordStores g vp vn tc st 0 g.numStacks 1 htc hnorth]
      simp
    · intro i hi
      constructor
      · simp only [GlGeomSphere.vboVertex, hd, GlGeomSphere.getVertexNumber_south]
        simp [hi]
      · simp only [GlGeomSphere.vboVertex, hd,
          GlGeomSphere.getVertexNumber_north g i true (by omega)]
        simp [hi]
  · intro j hj1 hj2
    refine ⟨?_, ?_, ?_, exactValue_div_self _ (by omega), exactValue_zero_div _ (by omega)⟩
    · rw [hinner g.numSlices j hj1 hj2, hinner 0 j hj1 hj2]
      simp only [ne_eq]
      intro h
      have : (g.numStacks - 1) * g.numSlices = 0 := by linarith
      have h2 : 0 < (g.numStacks - 1) * g.numSlices := by nlinarith
      omega
    · rw [GlGeomSphere.vboVertex_posValues g vp vn tc st g.numSlices j _ htc
          (hinner g.numSlices j hj1 hj2),
        GlGeomSphere.vboVertex_posValues g vp vn tc st 0 j _ htc (hinner 0 j hj1 hj2)]
      simp [Int.tmod_self, Int.zero_tmod]
    · rw [GlGeomSphere.vboVertex_posValues g vp vn tc st g.numSlices j _ htc
          (hinner g.numSlices j hj1 hj2)]
      rfl

theorem sphere_texcoords_per_vertex_and_seam_witness :
    (3 : ℤ) ≤ (mkSphere 4 3).numSlices ∧ (3 : ℤ) ≤ (mkSphere 4 3).numStacks ∧ (0 : ℤ) ≤ 3 ∧
    ((mkSphere 4 3).GetVertexNumber 4 1 true).2 ≠ ((mkSphere 4 3).GetVertexNumber 0 1 true).2 ∧
    posValues ((mkSphere 4 3).vboVertex 0 (-1) 3 5 (mkSphere 4 3).numSlices 1)
      = posValues ((mkSphere 4 3).vboVertex 0 (-1) 3 5 0 1) ∧
    texCoordStores ((mkSphere 4 3).vboVertex 0 (-1) 3 5 4 1)
      = [(5 * (((mkSphere 4 3).numStacks - 1) * 4 + 1 + 1) + 3,
            FExpr.div (FExpr.ofInt 4) (FExpr.ofInt (mkSphere 4 3).numSlices)),
         (5 * (((mkSphere 4 3).numStacks - 1) * 4 + 1 + 1) + 3 + 1,
            FExpr.div (FExpr.ofInt 1) (FExpr.ofInt (mkSphere 4 3).numStacks))] :=
  ⟨by decide, by decide, by decide,
    ((sphere_texcoords_per_vertex_and_seam (mkSphere 4 3) 0 (-1) 3 5 (by decide) (by decide)
      (by decide)).2.2 1 (by decide) (by decide)).1,
    ((sphere_texcoords_per_vertex_and_seam (mkSphere 4 3) 0 (-1) 3 5 (by decide) (by decide)
      (by decide)).2.2 1 (by decide) (by decide)).2.1,
    ((sphere_texcoords_per_vertex_and_seam (mkSphere 4 3) 0 (-1) 3 5 (by decide) (by decide)
      (by decide)).1 4 1 (by decide) (by decide) (by decide) (by decide)).2.1⟩

/-! ## Sphere: the index buffer as a surface -/

theorem triangles_blocks {α : Type} (a b c d e f : α → ℤ) (l : List α) (rest : List ℤ) :
    triangles (l.flatMap (fun x => [a x, b x, c x, d x, e x, f x]) ++ rest)
      = l.flatMap (fun x => [(a x, b x, c x), (d x, e x, f x)]) ++ triangles rest := by
  induction l with
  | nil => simp
  | cons x l ih =>
    rw [List.flatMap_cons, List.flatMap_cons, List.append_assoc]
    show triangles (a x :: b x :: c x :: d x :: e x :: f x ::
        (l.flatMap (fun x => [a x, b x, c x, d x, e x, f x]) ++ rest)) = _
    rw [triangles, triangles, ih]
    rfl

theorem flatMap_map_mk {α β γ : Type} (a : α) (l₂ : List β) (f : α × β → List γ) :
    (l₂.map (Prod.mk a)).flatMap f = l₂.flatMap fun b => f (a, b) := by
  induction l₂ with
  | nil => rfl
  | cons b l₂ ih => simp only [List.map_cons, List.flatMap_cons, ih]

theorem flatMap_product {α β γ : Type} (l₁ : List α) (l₂ : List β) (f : α × β → List γ) :
    (l₁ ×ˢ l₂).flatMap f = l₁.flatMap fun a => l₂.flatMap fun b => f (a, b) := by
  induction l₁ with
  | nil => rfl
  | cons a l₁ ih =>
    have h : ((a :: l₁) ×ˢ l₂) = l₂.map (Prod.mk a) ++ (l₁ ×ˢ l₂) := rfl
    rw [h, List.flatMap_append, ih, List.flatMap_cons, flatMap_map_mk]

/-- The inner element loop over consecutive stacks, started with the vertex
numbers of its first stack, in closed form. -/
theorem GlGeomSphere.eboStacks_closed (g : GlGeomSphere) (tex : Bool) (i : ℤ) :
    ∀ (n s : ℕ),
      GlGeomSphere.eboStacks g tex i (List.range' s n) (g.GetVertexNumber i (s : ℤ) tex).2
          (g.GetVertexNumber (i + 1) ((s : ℤ) + 1) tex).2
        = (List.range' s n).flatMap fun j =>
            [(g.GetVertexNumber i (j : ℤ) tex).2,
             (g.GetVertexNumber (i + 1) ((j : ℤ) + 1) tex).2,
             (g.GetVertexNumber i ((j : ℤ) + 1) tex).2,
             (g.GetVertexNumber i ((j : ℤ) + 1) tex).2,
             (g.GetVertexNumber (i + 1) ((j : ℤ) + 1) tex).2,
             (g.GetVertexNumber (i + 1) ((j : ℤ) + 2) tex).2] := by
  intro n
  induction n with
  | zero => intro s; simp [GlGeomSphere.eboStacks]
  | succ n ih =>
    intro s
    have h := ih (s + 1)
    have e1 : (((s + 1 : ℕ) : ℤ)) = (s : ℤ) + 1 := by push_cast; rfl
    have e2 : (s : ℤ) + 1 + 1 = (s : ℤ) + 2 := by ring
    rw [e1, e2] at h
    simp only [List.range'_succ, GlGeomSphere.eboStacks, List.flatMap_cons, h,
      List.cons_append, List.nil_append]

/-- The element buffer of the sphere in closed form: six indices for every slice
and every stack below the last. -/
theorem GlGeomSphere.calcEbo_closed (g : GlGeomSphere) (tex : Bool) :
    g.CalcEbo tex
      = (List.range g.numSlices.toNat ×ˢ List.range (g.numStacks - 1).toNat).flatMap fun p =>
          [(g.GetVertexNumber (p.1 : ℤ) (p.2 : ℤ) tex).2,
           (g.GetVertexNumber ((p.1 : ℤ) + 1) ((p.2 : ℤ) + 1) tex).2,
           (g.GetVertexNumber (p.1 : ℤ) ((p.2 : ℤ) + 1) tex).2,
           (g.GetVertexNumber (p.1 : ℤ) ((p.2 : ℤ) + 1) tex).2,
           (g.GetVertexNumber ((p.1 : ℤ) + 1) ((p.2 : ℤ) + 1) tex).2,
           (g.GetVertexNumber ((p.1 : ℤ) + 1) ((p.2 : ℤ) + 2) tex).2] := by
  have hr : ∀ i : ℕ, GlGeomSphere.eboStacks g tex (i : ℤ) (List.range (g.numStacks - 1).toNat)
      (g.GetVertexNumber (i : ℤ) 0 tex).2 (g.GetVertexNumber ((i : ℤ) + 1) 1 tex).2
      = (List.range (g.numStacks - 1).toNat).flatMap fun j =>
          [(g.GetVertexNumber (i : ℤ) (j : ℤ) tex).2,
           (g.GetVertexNumber ((i : ℤ) + 1) ((j : ℤ) + 1) tex).2,
           (g.GetVertexNumber (i : ℤ) ((j : ℤ) + 1) tex).2,
           (g.GetVertexNumber (i : ℤ) ((j : ℤ) + 1) tex).2,
           (g.GetVertexNumber ((i : ℤ) + 1) ((j : ℤ) + 1) tex).2,
           (g.GetVertexNumber ((i : ℤ) + 1) ((j : ℤ) + 2) tex).2] := by
    intro i
    have h := GlGeomSphere.eboStacks_closed g tex (i : ℤ) (g.numStacks - 1).toNat 0
    simp only [Nat.cast_zero, zero_add, ← List.range_eq_range'] at h
    exact h
  rw [flatMap_product]
  simp only [GlGeomSphere.CalcEbo, hr]

/-- The directed edges of the triangles of the element buffer, in order, are the
edges `loopEdge` over all slices, all stacks below the last, and 0 to 5. -/
theorem GlGeomSphere.edges_closed (g : GlGeomSphere) :
    (triangles (g.CalcEbo false)).flatMap directedEdges
      = ((List.range g.numSlices.toNat ×ˢ List.range (g.numStacks - 1).toNat)
          ×ˢ List.range 6).map g.loopEdge := by
  have h := triangles_blocks
    (fun p : ℕ × ℕ => (g.GetVertexNumber (p.1 : ℤ) (p.2 : ℤ) false).2)
    (fun p : ℕ × ℕ => (g.GetVertexNumber ((p.1 : ℤ) + 1) ((p.2 : ℤ) + 1) false).2)
    (fun p : ℕ × ℕ => (g.GetVertexNumber (p.1 : ℤ) ((p.2 : ℤ) + 1) false).2)
    (fun p : ℕ × ℕ => (g.GetVertexNumber (p.1 : ℤ) ((p.2 : ℤ) + 1) false).2)
    (fun p : ℕ × ℕ => (g.GetVertexNumber ((p.1 : ℤ) + 1) ((p.2 : ℤ) + 1) false).2)
    (fun p : ℕ × ℕ => (g.GetVertexNumber ((p.1 : ℤ) + 1) ((p.2 : ℤ) + 2) false).2)
    (List.range g.numSlices.toNat ×ˢ List.range (g.numStacks - 1).toNat) []
  simp only [List.append_nil, triangles] at h
  rw [GlGeomSphere.calcEbo_closed, h]
  generalize (List.range g.numSlices.toNat ×ˢ List.range (g.numStacks - 1).toNat) = l
  induction l with
  | nil => rfl
  | cons x l ih =>
    have hx : ((x :: l) ×ˢ List.range 6) = (List.range 6).map (Prod.mk x) ++ (l ×ˢ List.range 6) := rfl
    rw [hx, List.map_append, ← ih]
    rfl

/-- Without texture coordinates two positions of slices `0..S` and stacks `0..T`
have the same vertex number exactly when they are on the same stack and, off the
poles, on the same slice, slice `S` being slice 0 again. -/
theorem GlGeomSphere.getVertexNumber_eq_iff (g : GlGeomSphere) (hS : 3 ≤ g.numSlices)
    (hT : 3 ≤ g.numStacks) {i j i' j' : ℤ}
    (hi0 : 0 ≤ i) (hi : i ≤ g.numSlices) (hj0 : 0 ≤ j) (hj : j ≤ g.numStacks)
    (hi0' : 0 ≤ i') (hi' : i' ≤ g.numSlices) (hj0' : 0 ≤ j') (hj' : j' ≤ g.numStacks) :
    (g.GetVertexNumber i j false).2 = (g.GetVertexNumber i' j' false).2 ↔
      (j = j' ∧ (1 ≤ j → j ≤ g.numStacks - 1 →
        (i = i' ∨ (i = 0 ∧ i' = g.numSlices) ∨ (i = g.numSlices ∧ i' = 0)))) := by
  have key : ∀ a b : ℤ, 0 ≤ a → a ≤ g.numSlices → 1 ≤ b → b ≤ g.numStacks - 1 →
      ∃ c, 0 ≤ c ∧ c < g.numSlices ∧ ((a < g.numSlices ∧ c = a) ∨ (a = g.numSlices ∧ c = 0)) ∧
        (g.GetVertexNumber a b false).2 = (g.numStacks - 1) * c + b + 1 := by
    intro a b ha0 ha hb1 hb2
    rw [GlGeomSphere.getVertexNumber_inner g a b false (by omega) (by omega)]
    by_cases hlt : a < g.numSlices
    · refine ⟨a, ha0, hlt, Or.inl ⟨hlt, rfl⟩, ?_⟩
      simp [tmod_of_lt a g.numSlices ha0 hlt]
    · have : a = g.numSlices := by omega
      subst this
      refine ⟨0, le_refl 0, by omega, Or.inr ⟨rfl, rfl⟩, ?_⟩
      simp [Int.tmod_self]
  by_cases h0 : j = 0
  · subst h0
    rw [GlGeomSphere.getVertexNumber_south]
    by_cases h0' : j' = 0
    · subst h0'
      rw [GlGeomSphere.getVertexNumber_south]
      simp
    · by_cases hT' : j' = g.numStacks
      · subst hT'
        rw [GlGeomSphere.getVertexNumber_north g i' false (by omega)]
        simp only [zero_ne_one, false_iff, not_and]
        intro h
        omega
      · obtain ⟨c, hc0, _, _, hv⟩ := key i' j' hi0' hi' (by omega) (by omega)
        rw [hv]
        have : 0 ≤ (g.numStacks - 1) * c := mul_nonneg (by omega) hc0
        constructor
        · intro h
          simp only at h
          omega
        · rintro ⟨h, _⟩
          omega
  · by_cases hTj : j = g.numStacks
    · subst hTj
      rw [GlGeomSphere.getVertexNumber_north g i false (by omega)]
      by_cases h0' : j' = 0
      · subst h0'
        rw [GlGeomSphere.getVertexNumber_south]
        simp only [one_ne_zero, false_iff, not_and]
        intro h
        omega
      · by_cases hT' : j' = g.numStacks
        · subst hT'
          rw [GlGeomSphere.getVertexNumber_north g i' false (by omega)]
          simp only [true_and, true_iff]
          intro _ h
          omega
        · obtain ⟨c, hc0, _, _, hv⟩ := key i' j' hi0' hi' (by omega) (by omega)
          rw [hv]
          have : 0 ≤ (g.numStacks - 1) * c := mul_nonneg (by omega) hc0
          constructor
          · intro h
            simp only at h
            omega
          · rintro ⟨h, _⟩
            omega
    · obtain ⟨c, hc0, hc1, hc, hv⟩ := key i j hi0 hi (by omega) (by omega)
      rw [hv]
      have hpos : 0 ≤ (g.numStacks - 1) * c := mul_nonneg (by omega) hc0
      by_cases h0' : j' = 0
      · subst h0'
        rw [GlGeomSphere.getVertexNumber_south]
        constructor
        · intro h
          simp only at h
          omega
        · rintro ⟨h, _⟩
          omega
      · by_cases hT' : j' = g.numStacks
        · subst hT'
          rw [GlGeomSphere.getVertexNumber_north g i' false (by omega)]
          constructor
          · intro h
            simp only at h
            omega
          · rintro ⟨h, _⟩
            omega
        · obtain ⟨c', hc0', hc1', hc', hv'⟩ := key i' j' hi0' hi' (by omega) (by omega)
          rw [hv']
          constructor
          · intro h
            obtain ⟨e1, e2⟩ := rowMajor_injective g.numStacks c j c' j' (by omega) (by omega)
              (by omega) (by omega) h
            refine ⟨e2, fun _ _ => ?_⟩
            omega
          · rintro ⟨e2, h⟩
            have h3 := h (by omega) (by omega)
            have : c = c' := by omega
            rw [this, e2]

/-- The same criterion with the poles as cases. -/
theorem GlGeomSphere.getVertexNumber_eq_cases (g : GlGeomSphere) (hS : 3 ≤ g.numSlices)
    (hT : 3 ≤ g.numStacks) {i j i' j' : ℤ}
    (hi0 : 0 ≤ i) (hi : i ≤ g.numSlices) (hj0 : 0 ≤ j) (hj : j ≤ g.numStacks)
    (hi0' : 0 ≤ i') (hi' : i' ≤ g.numSlices) (hj0' : 0 ≤ j') (hj' : j' ≤ g.numStacks) :
    (g.GetVertexNumber i j false).2 = (g.GetVertexNumber i' j' false).2 ↔
      (j = j' ∧ (j = 0 ∨ j = g.numStacks ∨ i = i' ∨ (i = 0 ∧ i' = g.numSlices) ∨
        (i = g.numSlices ∧ i' = 0))) := by
  rw [GlGeomSphere.getVertexNumber_eq_iff g hS hT hi0 hi hj0 hj hi0' hi' hj0' hj']
  constructor
  · rintro ⟨e, h⟩
    refine ⟨e, ?_⟩
    by_cases h1 : 1 ≤ j ∧ j ≤ g.numStacks - 1
    · have h2 := h h1.1 h1.2
      omega
    · omega
  · rintro ⟨e, h⟩
    exact ⟨e, fun h1 h2 => by omega⟩

/-- Different slices, stacks or edge numbers give different directed edges. -/
theorem GlGeomSphere.loopEdge_injOn (g : GlGeomSphere) (hS : 3 ≤ g.numSlices)
    (hT : 3 ≤ g.numStacks) :
    ∀ x ∈ (List.range g.numSlices.toNat ×ˢ List.range (g.numStacks - 1).toNat) ×ˢ List.range 6,
    ∀ y ∈ (List.range g.numSlices.toNat ×ˢ List.range (g.numStacks - 1).toNat) ×ˢ List.range 6,
      g.loopEdge x = g.loopEdge y → x = y := by
  rintro ⟨⟨i, j⟩, k⟩ hx ⟨⟨i', j'⟩, k'⟩ hy h
  simp only [List.mem_product, List.mem_range] at hx hy
  obtain ⟨⟨hi, hj⟩, hk⟩ := hx
  obtain ⟨⟨hi', hj'⟩, hk'⟩ := hy
  have hiS : (i : ℤ) < g.numSlices := by omega
  have hjT : (j : ℤ) < g.numStacks - 1 := by omega
  have hiS' : (i' : ℤ) < g.numSlices := by omega
  have hjT' : (j' : ℤ) < g.numStacks - 1 := by omega
  interval_cases k <;> interval_cases k' <;>
  · simp only [GlGeomSphere.loopEdge, Prod.mk.injEq] at h
    obtain ⟨h1, h2⟩ := h
    have e1 := (GlGeomSphere.getVertexNumber_eq_cases g hS hT (by omega) (by omega) (by omega)
      (by omega) (by omega) (by omega) (by omega) (by omega)).1 h1
    have e2 := (GlGeomSphere.getVertexNumber_eq_cases g hS hT (by omega) (by omega) (by omega)
      (by omega) (by omega) (by omega) (by omega) (by omega)).1 h2
    simp only [Prod.mk.injEq]
    refine ⟨⟨?_, ?_⟩, ?_⟩ <;> first | omega | trivial

/-- The reverse of every directed edge of the loop is a directed edge of the
loop. -/
theorem GlGeomSphere.loopEdge_reverse (g : GlGeomSphere) (hS : 3 ≤ g.numSlices)
    (hT : 3 ≤ g.numStacks) :
    ∀ x ∈ (List.range g.numSlices.toNat ×ˢ List.range (g.numStacks - 1).toNat) ×ˢ List.range 6,
    ∃ y ∈ (List.range g.numSlices.toNat ×ˢ List.range (g.numStacks - 1).toNat) ×ˢ List.range 6,
      g.loopEdge y = ((g.loopEdge x).2, (g.loopEdge x).1) := by
  rintro ⟨⟨i, j⟩, k⟩ hx
  simp only [List.mem_product, List.mem_range] at hx
  obtain ⟨⟨hi, hj⟩, hk⟩ := hx
  have hiS : (i : ℤ) < g.numSlices := by omega
  have hjT : (j : ℤ) < g.numStacks - 1 := by omega
  -- the slice after slice `i` and the slice before it, around the sphere
  obtain ⟨ip, hip, hipc⟩ : ∃ ip : ℕ, (ip : ℤ) < g.numSlices ∧
      ((ip : ℤ) = (i : ℤ) + 1 ∨ ((ip : ℤ) = 0 ∧ (i : ℤ) + 1 = g.numSlices)) := by
    by_cases h : (i : ℤ) + 1 = g.numSlices
    · exact ⟨0, by omega, Or.inr ⟨by simp, h⟩⟩
    · exact ⟨i + 1, by push_cast; omega, Or.inl (by push_cast; rfl)⟩
  obtain ⟨im, him, himc⟩ : ∃ im : ℕ, (im : ℤ) < g.numSlices ∧
      ((im : ℤ) + 1 = (i : ℤ) ∨ ((im : ℤ) + 1 = g.numSlices ∧ (i : ℤ) = 0)) := by
    by_cases h : i = 0
    · exact ⟨(g.numSlices - 1).toNat, by omega, Or.inr ⟨by omega, by omega⟩⟩
    · exact ⟨i - 1, by omega, Or.inl (by omega)⟩
  have hmem : ∀ (a b c : ℕ), (a : ℤ) < g.numSlices → (b : ℤ) < g.numStacks - 1 → c < 6 →
      ((a, b), c) ∈ (List.range g.numSlices.toNat ×ˢ List.range (g.numStacks - 1).toNat)
        ×ˢ List.range 6 := by
    intro a b c ha hb hc
    simp only [List.mem_product, List.mem_range]
    omega
  interval_cases k
  · -- edge 0
    by_cases hj0 : j = 0
    · refine ⟨((ip, 0), 2), hmem _ _ _ hip (by omega) (by omega), ?_⟩
      simp only [GlGeomSphere.loopEdge, Prod.mk.injEq]
      constructor <;>
        exact (GlGeomSphere.getVertexNumber_eq_cases g hS hT (by omega) (by omega) (by omega)
          (by omega) (by omega) (by omega) (by omega) (by omega)).2 (by omega)
    · refine ⟨((i, j - 1), 5), hmem _ _ _ hiS (by omega) (by omega), ?_⟩
      simp only [GlGeomSphere.loopEdge, Prod.mk.injEq]
      constructor <;>
        exact (GlGeomSphere.getVertexNumber_eq_cases g hS hT (by omega) (by omega) (by omega)
          (by omega) (by omega) (by omega) (by omega) (by omega)).2 (by omega)
  · -- edge 1
    exact ⟨((i, j), 3), hmem _ _ _ hiS hjT (by omega), rfl⟩
  · -- edge 2
    by_cases hj0 : j = 0
    · refine ⟨((im, 0), 0), hmem _ _ _ him (by omega) (by omega), ?_⟩
      simp only [GlGeomSphere.loopEdge, Prod.mk.injEq]
      constructor <;>
        exact (GlGeomSphere.getVertexNumber_eq_cases g hS hT (by omega) (by omega) (by omega)
          (by omega) (by omega) (by omega) (by omega) (by omega)).2 (by omega)
    · refine ⟨((im, j - 1), 4), hmem _ _ _ him (by omega) (by omega), ?_⟩
      simp only [GlGeomSphere.loopEdge, Prod.mk.injEq]
      constructor <;>
        exact (GlGeomSphere.getVertexNumber_eq_cases g hS hT (by omega) (by omega) (by omega)
          (by omega) (by omega) (by omega) (by omega) (by omega)).2 (by omega)
  · -- edge 3
    exact ⟨((i, j), 1), hmem _ _ _ hiS hjT (by omega), rfl⟩
  · -- edge 4
    by_cases hjl : (j : ℤ) + 1 = g.numStacks - 1
    · refine ⟨((ip, j), 5), hmem _ _ _ hip hjT (by omega), ?_⟩
      simp only [GlGeomSphere.loopEdge, Prod.mk.injEq]
      constructor <;>
        exact (GlGeomSphere.getVertexNumber_eq_cases g hS hT (by omega) (by omega) (by omega)
          (by omega) (by omega) (by omega) (by omega) (by omega)).2 (by omega)
    · refine ⟨((ip, j + 1), 2), hmem _ _ _ hip (by push_cast; omega) (by omega), ?_⟩
      simp only [GlGeomSphere.loopEdge, Prod.mk.injEq]
      constructor <;>
        exact (GlGeomSphere.getVertexNumber_eq_cases g hS hT (by omega) (by omega) (by omega)
          (by omega) (by omega) (by omega) (by omega) (by omega)).2 (by omega)
  · -- edge 5
    by_cases hjl : (j : ℤ) + 1 = g.numStacks - 1
    · refine ⟨((im, j), 4), hmem _ _ _ him hjT (by omega), ?_⟩
      simp only [GlGeomSphere.loopEdge, Prod.mk.injEq]
      constructor <;>
        exact (GlGeomSphere.getVertexNumber_eq_cases g hS hT (by omega) (by omega) (by omega)
          (by omega) (by omega) (by omega) (by omega) (by omega)).2 (by omega)
    · refine ⟨((i, j + 1), 0), hmem _ _ _ hiS (by push_cast; omega) (by omega), ?_⟩
      simp only [GlGeomSphere.loopEdge, Prod.mk.injEq]
      constructor <;>
        exact (GlGeomSphere.getVertexNumber_eq_cases g hS hT (by omega) (by omega) (by omega)
          (by omega) (by omega) (by omega) (by omega) (by omega)).2 (by omega)

/-- In a list whose parts, put end to end, have no element twice, an element of
the whole is in exactly one part. -/
theorem countP_mem_of_nodup_flatMap {α β : Type} (f : α → List β) (e : β) (p : α → Bool)
    (hp : ∀ t, p t = true ↔ e ∈ f t) :
    ∀ l : List α, (l.flatMap f).Nodup → e ∈ l.flatMap f → l.countP p = 1 := by
  intro l
  induction l with
  | nil => intro _ h; simp at h
  | cons a l ih =>
    intro hn he
    rw [List.flatMap_cons, List.nodup_append] at hn
    obtain ⟨_, hl, hdis⟩ := hn
    rw [List.countP_cons]
    by_cases ha : e ∈ f a
    · have hz : l.countP p = 0 := by
        rw [List.countP_eq_zero]
        intro t ht het
        exact hdis ha (List.mem_flatMap.2 ⟨t, ht, (hp t).1 het⟩)
      rw [hz, if_pos ((hp a).2 ha)]
    · have he2 : e ∈ l.flatMap f := by
        rw [List.flatMap_cons, List.mem_append] at he
        exact he.resolve_left ha
      have hpa : ¬ p a = true := fun h => ha ((hp a).1 h)
      rw [ih hl he2, if_neg hpa]

/-- The triangles of the element buffer of the sphere in closed form. -/
theorem GlGeomSphere.triangles_closed (g : GlGeomSphere) (tex : Bool) :
    triangles (g.CalcEbo tex)
      = (List.range g.numSlices.toNat ×ˢ List.range (g.numStacks - 1).toNat).flatMap fun p =>
          [((g.GetVertexNumber (p.1 : ℤ) (p.2 : ℤ) tex).2,
            (g.GetVertexNumber ((p.1 : ℤ) + 1) ((p.2 : ℤ) + 1) tex).2,
            (g.GetVertexNumber (p.1 : ℤ) ((p.2 : ℤ) + 1) tex).2),
           ((g.GetVertexNumber (p.1 : ℤ) ((p.2 : ℤ) + 1) tex).2,
            (g.GetVertexNumber ((p.1 : ℤ) + 1) ((p.2 : ℤ) + 1) tex).2,
            (g.GetVertexNumber ((p.1 : ℤ) + 1) ((p.2 : ℤ) + 2) tex).2)] := by
  have h := triangles_blocks
    (fun p : ℕ × ℕ => (g.GetVertexNumber (p.1 : ℤ) (p.2 : ℤ) tex).2)
    (fun p : ℕ × ℕ => (g.GetVertexNumber ((p.1 : ℤ) + 1) ((p.2 : ℤ) + 1) tex).2)
    (fun p : ℕ × ℕ => (g.GetVertexNumber (p.1 : ℤ) ((p.2 : ℤ) + 1) tex).2)
    (fun p : ℕ × ℕ => (g.GetVertexNumber (p.1 : ℤ) ((p.2 : ℤ) + 1) tex).2)
    (fun p : ℕ × ℕ => (g.GetVertexNumber ((p.1 : ℤ) + 1) ((p.2 : ℤ) + 1) tex).2)
    (fun p : ℕ × ℕ => (g.GetVertexNumber ((p.1 : ℤ) + 1) ((p.2 : ℤ) + 2) tex).2)
    (List.range g.numSlices.toNat ×ˢ List.range (g.numStacks - 1).toNat) []
  simp only [List.append_nil, triangles] at h
  rw [GlGeomSphere.calcEbo_closed, h]

/-- Every triangle of the element buffer has three different vertex numbers. -/
theorem GlGeomSphere.triangles_distinct (g : GlGeomSphere) (hS : 3 ≤ g.numSlices)
    (hT : 3 ≤ g.numStacks) :
    ∀ t ∈ triangles (g.CalcEbo false), t.1 ≠ t.2.1 ∧ t.2.1 ≠ t.2.2 ∧ t.2.2 ≠ t.1 := by
  intro t ht
  rw [GlGeomSphere.triangles_closed] at ht
  simp only [List.mem_flatMap, List.mem_product, List.mem_range, List.mem_cons,
    List.mem_singleton, List.not_mem_nil, or_false, Prod.exists] at ht
  obtain ⟨i, j, ⟨hi, hj⟩, ht⟩ := ht
  have hiS : (i : ℤ) < g.numSlices := by omega
  have hjT : (j : ℤ) < g.numStacks - 1 := by omega
  rcases ht with rfl | rfl
  · refine ⟨?_, ?_, ?_⟩ <;>
    · intro h
      have e := (GlGeomSphere.getVertexNumber_eq_cases g hS hT (by omega) (by omega) (by omega)
        (by omega) (by omega) (by omega) (by omega) (by omega)).1 h
      omega
  · refine ⟨?_, ?_, ?_⟩ <;>
    · intro h
      have e := (GlGeomSphere.getVertexNumber_eq_cases g hS hT (by omega) (by omega) (by omega)
        (by omega) (by omega) (by omega) (by omega) (by omega)).1 h
      omega

/-- No directed edge of the element buffer occurs twice. -/
theorem GlGeomSphere.edges_nodup (g : GlGeomSphere) (hS : 3 ≤ g.numSlices)
    (hT : 3 ≤ g.numStacks) :
    ((triangles (g.CalcEbo false)).flatMap directedEdges).Nodup := by
  rw [GlGeomSphere.edges_closed]
  exact List.Nodup.map_on (fun x hx y hy h => GlGeomSphere.loopEdge_injOn g hS hT x hx y hy h)
    (List.Nodup.product (List.Nodup.product (List.nodup_range _) (List.nodup_range _))
      (List.nodup_range 6))

/-- The reverse of every directed edge of the element buffer is a directed edge
of the element buffer. -/
theorem GlGeomSphere.edges_reverse (g : GlGeomSphere) (hS : 3 ≤ g.numSlices)
    (hT : 3 ≤ g.numStacks) :
    ∀ e ∈ (triangles (g.CalcEbo false)).flatMap directedEdges,
      (e.2, e.1) ∈ (triangles (g.CalcEbo false)).flatMap directedEdges := by
  intro e he
  rw [GlGeomSphere.edges_closed] at he ⊢
  obtain ⟨x, hx, rfl⟩ := List.mem_map.1 he
  obtain ⟨y, hy, hxy⟩ := GlGeomSphere.loopEdge_reverse g hS hT x hx
  exact List.mem_map.2 ⟨y, hy, hxy⟩

theorem not_reverse_in_same_triangle (t : ℤ × ℤ × ℤ)
    (ht : t.1 ≠ t.2.1 ∧ t.2.1 ≠ t.2.2 ∧ t.2.2 ≠ t.1) (e : ℤ × ℤ) (he : e ∈ directedEdges t) :
    (e.2, e.1) ∉ directedEdges t := by
  obtain ⟨a, b, c⟩ := t
  obtain ⟨h1, h2, h3⟩ := ht
  simp only at h1 h2 h3
  simp only [directedEdges, List.mem_cons, List.mem_singleton, List.not_mem_nil, or_false] at he ⊢
  rcases he with rfl | rfl | rfl <;>
    simp only [Prod.mk.injEq, not_or, not_and] <;>
    refine ⟨?_, ?_, ?_⟩ <;> intro h5 <;> intro h6 <;> omega

/-- C26: for a sphere of at least 3 slices and 3 stacks, the element buffer that
`CalcVboAndEbo` fills when no texture coordinates are requested is a closed,
consistently oriented surface: its length is three times its number of
triangles, every triangle has three different vertex indices, every directed
edge of a triangle is an edge of exactly one triangle of the buffer, and the
reverse of the edge is an edge of exactly one triangle, which is another one. -/
theorem sphere_index_buffer_closed_oriented_surface (g : GlGeomSphere)
    (hS : 3 ≤ g.numSlices) (hT : 3 ≤ g.numStacks) (vp vn tc st : ℤ) (htc : tc < 0) :
    3 * (triangles (g.CalcVboAndEbo vp vn tc st).2).length
      = (g.CalcVboAndEbo vp vn tc st).2.length ∧
    (∀ t ∈ triangles (g.CalcVboAndEbo vp vn tc st).2,
      t.1 ≠ t.2.1 ∧ t.2.1 ≠ t.2.2 ∧ t.2.2 ≠ t.1) ∧
    (∀ t ∈ triangles (g.CalcVboAndEbo vp vn tc st).2, ∀ e ∈ directedEdges t,
      (triangles (g.CalcVboAndEbo vp vn tc st).2).countP
          (fun u => decide (e ∈ directedEdges u)) = 1 ∧
      (triangles (g.CalcVboAndEbo vp vn tc st).2).countP
          (fun u => decide ((e.2, e.1) ∈ directedEdges u)) = 1 ∧
      (e.2, e.1) ∉ directedEdges t) := by
  have hebo : (g.CalcVboAndEbo vp vn tc st).2 = g.CalcEbo false := by
    have hd : decide (0 ≤ tc) = false := decide_eq_false (by omega)
    simp only [GlGeomSphere.CalcVboAndEbo, hd]
  rw [hebo]
  refine ⟨?_, GlGeomSphere.triangles_distinct g hS hT, ?_⟩
  · rw [GlGeomSphere.sphere_calcEbo_length, GlGeomSphere.triangles_closed,
      length_flatMap_const _ _ 2, List.length_product, List.length_range, List.length_range]
    · ring
    · intro _ _
      rfl
  · intro t ht e he
    have hE : e ∈ (triangles (g.CalcEbo false)).flatMap directedEdges :=
      List.mem_flatMap.2 ⟨t, ht, he⟩
    exact ⟨countP_mem_of_nodup_flatMap directedEdges e _ (fun u => decide_eq_true_iff) _
        (GlGeomSphere.edges_nodup g hS hT) hE,
      countP_mem_of_nodup_flatMap directedEdges (e.2, e.1) _ (fun u => decide_eq_true_iff) _
        (GlGeomSphere.edges_nodup g hS hT) (GlGeomSphere.edges_reverse g hS hT e hE),
      not_reverse_in_same_triangle t (GlGeomSphere.triangles_distinct g hS hT t ht) e he⟩

theorem sphere_index_buffer_closed_oriented_surface_witness :
    (3 : ℤ) ≤ (mkSphere 3 3).numSlices ∧ (3 : ℤ) ≤ (mkSphere 3 3).numStacks ∧ (-1 : ℤ) < 0 ∧
    ((0 : ℤ), (4 : ℤ), (2 : ℤ)) ∈ triangles ((mkSphere 3 3).CalcVboAndEbo 0 (-1) (-1) 3).2 ∧
    ((0 : ℤ), (4 : ℤ)) ∈ directedEdges (0, 4, 2) ∧
    (triangles ((mkSphere 3 3).CalcVboAndEbo 0 (-1) (-1) 3).2).countP
        (fun u => decide (((0 : ℤ), (4 : ℤ)) ∈ directedEdges u)) = 1 ∧
    (triangles ((mkSphere 3 3).CalcVboAndEbo 0 (-1) (-1) 3).2).countP
        (fun u => decide (((4 : ℤ), (0 : ℤ)) ∈ directedEdges u)) = 1 ∧
    ((4 : ℤ), (0 : ℤ)) ∉ directedEdges (0, 4, 2) :=
  ⟨by decide, by decide, by decide, by decide, by decide,
    (sphere_index_buffer_closed_oriented_surface (mkSphere 3 3) (by decide) (by decide)
      0 (-1) (-1) 3 (by decide)).2.2 (0, 4, 2) (by decide) (0, 4) (by decide)⟩
